import Mathlib

/-!
Layout metadata of derived datatypes (typerep_dataloop_create.c).

A shallow embedding of `src/mpi/datatype/typerep/src/typerep_dataloop_create.c`.

* `MPI_Aint` values (sizes, bounds, extents, displacements, block counts) are
  integers of the wide signed type and are represented by `Int`; arithmetic on
  them is exact.
* A product of two C `int` operands is evaluated at `int` width: `int_wrap`
  reduces it to the 32-bit two's complement range before it is widened.
* The out-parameter `MPIR_Datatype * newtype` is passed in and returned.
* `HANDLE_IS_BUILTIN`, `MPIR_Datatype_get_basic_size` and `MPIR_Datatype_get_ptr`
  are resolved by the two constructors of `MPI_Datatype`.
* Macros and helpers that the file uses but does not define are collected in
  `Externals` and stay parameters of every definition.
-/

namespace Typerep

/-- Return code `MPI_SUCCESS`. -/
def MPI_SUCCESS : Int := 0

/-- Value of an `int`-typed expression: reduction to the 32-bit two's complement range. -/
def int_wrap (x : Int) : Int := (x + 2147483648) % 4294967296 - 2147483648

/-- Values representable in a C `int`. -/
def fits_int (x : Int) : Prop := -2147483648 ≤ x ∧ x ≤ 2147483647

/-- Values representable in `MPI_Aint` (64-bit signed). -/
def fits_Aint (x : Int) : Prop := -9223372036854775808 ≤ x ∧ x ≤ 9223372036854775807

/-- Size in bytes of one `MPI_Aint`, the factor in `count * sizeof(MPI_Aint)`. -/
def sizeof_MPI_Aint : Int := 8

/-- Ways in which a call stops without returning: a failed `MPIR_Assert`, or a read
of an array argument at an index outside the array. -/
inductive Fault
  | assertion
  | out_of_bounds
deriving DecidableEq, Repr

/-- The layout fields of `MPIR_Datatype` that the file reads or writes.
`num_contig_blocks` and `typerep_handle` are the members of the nested `typerep`. -/
structure MPIR_Datatype where
  size : Int
  extent : Int
  ub : Int
  lb : Int
  true_ub : Int
  true_lb : Int
  alignsize : Int
  n_builtin_elements : Int
  builtin_element_size : Int
  basic_type : Nat
  is_contig : Bool
  is_committed : Bool
  typerep_handle : Nat
  num_contig_blocks : Int
deriving DecidableEq, Repr

/-- A datatype handle as the constructors see it: either builtin, with the element
size that `MPIR_Datatype_get_basic_size` extracts from the handle, or user-defined,
with the descriptor that `MPIR_Datatype_get_ptr` yields. -/
inductive MPI_Datatype
  | builtin (handle : Nat) (basic_size : Int)
  | derived (handle : Nat) (old_dtp : MPIR_Datatype)
deriving DecidableEq, Repr

/-- Macros and functions used by the file and defined elsewhere in the repository.
The three `LB_UB` macros assign a lower and an upper bound from their other
arguments; the two `count_contig` functions are the contiguous-run scans over a
displacement list; `MPL_malloc` tells whether an allocation of the given number of
bytes succeeds; `MPIR_Dataloop_dup` maps a built representation to its copy. -/
structure Externals where
  /-- `MPII_DATATYPE_VECTOR_LB_UB(cnt, stride, blklen, old_lb, old_ub, old_extent, lb, ub)`. -/
  MPII_DATATYPE_VECTOR_LB_UB : Int → Int → Int → Int → Int → Int → Int × Int
  /-- `MPII_DATATYPE_BLOCK_LB_UB(cnt, disp, old_lb, old_ub, old_extent, lb, ub)`. -/
  MPII_DATATYPE_BLOCK_LB_UB : Int → Int → Int → Int → Int → Int × Int
  /-- `MPII_DATATYPE_CONTIG_LB_UB(cnt, old_lb, old_ub, old_extent, lb, ub)`. -/
  MPII_DATATYPE_CONTIG_LB_UB : Int → Int → Int → Int → Int × Int
  /-- `MPII_Datatype_indexed_count_contig(count, blklens, disps, dispinbytes, old_extent)`. -/
  MPII_Datatype_indexed_count_contig : Int → List Int → List Int → Bool → Int → Int
  /-- `MPII_Datatype_blockindexed_count_contig(count, blklen, disps, dispinbytes, old_extent)`. -/
  MPII_Datatype_blockindexed_count_contig : Int → Int → List Int → Bool → Int → Int
  /-- Whether `MPL_malloc(nbytes, MPL_MEM_DATATYPE)` returns a non-NULL pointer. -/
  MPL_malloc : Int → Bool
  /-- `MPIR_Dataloop_dup(old_handle, &new_handle)`. -/
  MPIR_Dataloop_dup : Nat → Nat

/-- Modelled from the spec: the macro `MPIR_Datatype_is_contig` is not defined in
the file. A basic element is always contiguous; for a derived type the flag is the
descriptor's `is_contig`. -/
def MPIR_Datatype_is_contig : MPI_Datatype → Bool
  | .builtin _ _ => true
  | .derived _ old_dtp => old_dtp.is_contig

/-- Local variables of `update_type_vector` after the builtin/derived branch
(lines 18-59), together with the descriptor as written so far. -/
structure VectorLocals where
  old_is_contig : Bool
  old_sz : Int
  old_lb : Int
  old_ub : Int
  old_extent : Int
  old_true_lb : Int
  old_true_ub : Int
  eff_stride : Int
  newtype : MPIR_Datatype

/-- Lines 18-59 of `update_type_vector`. -/
def update_type_vector_branch (count blocklength stride : Int) (oldtype : MPI_Datatype)
    (newtype : MPIR_Datatype) (strideinbytes : Bool) : VectorLocals :=
  match oldtype with
  | .builtin handle el_sz =>
    { old_lb := 0
      old_true_lb := 0
      old_ub := el_sz
      old_true_ub := el_sz
      old_sz := el_sz
      old_extent := el_sz
      old_is_contig := true
      newtype :=
        { newtype with
          size := count * blocklength * el_sz
          alignsize := el_sz
          n_builtin_elements := int_wrap (count * blocklength)
          builtin_element_size := el_sz
          basic_type := handle }
      eff_stride := if strideinbytes then stride else stride * el_sz }
  | .derived handle old_dtp =>
    { old_lb := old_dtp.lb
      old_true_lb := old_dtp.true_lb
      old_ub := old_dtp.ub
      old_true_ub := old_dtp.true_ub
      old_sz := old_dtp.size
      old_extent := old_dtp.extent
      old_is_contig := MPIR_Datatype_is_contig (.derived handle old_dtp)
      newtype :=
        { newtype with
          size := int_wrap (count * blocklength) * old_dtp.size
          alignsize := old_dtp.alignsize
          n_builtin_elements := int_wrap (count * blocklength) * old_dtp.n_builtin_elements
          builtin_element_size := old_dtp.builtin_element_size
          basic_type := old_dtp.basic_type }
      eff_stride := if strideinbytes then stride else stride * old_dtp.extent }

/-- The static function `update_type_vector`. -/
def update_type_vector (X : Externals) (count blocklength stride : Int) (oldtype : MPI_Datatype)
    (newtype : MPIR_Datatype) (strideinbytes : Bool) : MPIR_Datatype :=
  let L := update_type_vector_branch count blocklength stride oldtype newtype strideinbytes
  let bounds := X.MPII_DATATYPE_VECTOR_LB_UB count L.eff_stride blocklength
    L.old_lb L.old_ub L.old_extent
  let lb := bounds.1
  let ub := bounds.2
  let extent := ub - lb
  { L.newtype with
    lb := lb
    ub := ub
    true_lb := lb + (L.old_true_lb - L.old_lb)
    true_ub := ub + (L.old_true_ub - L.old_ub)
    extent := extent
    is_contig :=
      if L.newtype.size = extent ∧ L.eff_stride = blocklength * L.old_sz ∧ L.old_is_contig = true
      then true else false }

/-- The function `MPIR_Typerep_create_vector`: return code and descriptor. -/
def MPIR_Typerep_create_vector (X : Externals) (count blocklength stride : Int)
    (oldtype : MPI_Datatype) (newtype : MPIR_Datatype) : Int × MPIR_Datatype :=
  let newtype := update_type_vector X count blocklength stride oldtype newtype false
  match oldtype with
  | .builtin _ el_sz =>
    let newtype := { newtype with num_contig_blocks := count }
    let old_is_contig := true
    let old_extent := el_sz
    if old_is_contig = true ∧ stride * old_extent = old_extent * blocklength then
      (MPI_SUCCESS, { newtype with num_contig_blocks := 1 })
    else (MPI_SUCCESS, newtype)
  | .derived handle old_dtp =>
    let newtype :=
      { newtype with num_contig_blocks := old_dtp.num_contig_blocks * count * blocklength }
    let old_is_contig := MPIR_Datatype_is_contig (.derived handle old_dtp)
    let old_extent := old_dtp.extent
    if old_is_contig = true ∧ stride * old_extent = old_extent * blocklength then
      (MPI_SUCCESS, { newtype with num_contig_blocks := 1 })
    else (MPI_SUCCESS, newtype)

/-- The function `MPIR_Typerep_create_hvector`: return code and descriptor. -/
def MPIR_Typerep_create_hvector (X : Externals) (count blocklength stride : Int)
    (oldtype : MPI_Datatype) (newtype : MPIR_Datatype) : Int × MPIR_Datatype :=
  let newtype := update_type_vector X count blocklength stride oldtype newtype true
  match oldtype with
  | .builtin _ el_sz =>
    let newtype := { newtype with num_contig_blocks := count }
    let old_is_contig := true
    let old_extent := el_sz
    if old_is_contig = true ∧ stride = old_extent * blocklength then
      (MPI_SUCCESS, { newtype with num_contig_blocks := 1 })
    else (MPI_SUCCESS, newtype)
  | .derived handle old_dtp =>
    let newtype :=
      { newtype with num_contig_blocks := old_dtp.num_contig_blocks * count * blocklength }
    let old_is_contig := MPIR_Datatype_is_contig (.derived handle old_dtp)
    let old_extent := old_dtp.extent
    if old_is_contig = true ∧ stride = old_extent * blocklength then
      (MPI_SUCCESS, { newtype with num_contig_blocks := 1 })
    else (MPI_SUCCESS, newtype)

/-- Lines 355-395 of `MPIR_Typerep_create_contig`: every field but the block count. -/
def create_contig_fields (X : Externals) (count : Int) (oldtype : MPI_Datatype)
    (newtype : MPIR_Datatype) : MPIR_Datatype :=
  match oldtype with
  | .builtin handle el_sz =>
    let lb := 0
    let true_ub := count * el_sz
    let ub := true_ub
    { newtype with
      size := count * el_sz
      true_lb := 0
      lb := lb
      true_ub := true_ub
      ub := ub
      extent := ub - lb
      alignsize := el_sz
      n_builtin_elements := count
      builtin_element_size := el_sz
      basic_type := handle
      is_contig := true }
  | .derived handle old_dtp =>
    let bounds := X.MPII_DATATYPE_CONTIG_LB_UB count old_dtp.lb old_dtp.ub old_dtp.extent
    let lb := bounds.1
    let ub := bounds.2
    { newtype with
      size := count * old_dtp.size
      lb := lb
      ub := ub
      true_lb := lb + (old_dtp.true_lb - old_dtp.lb)
      true_ub := ub + (old_dtp.true_ub - old_dtp.ub)
      extent := ub - lb
      alignsize := old_dtp.alignsize
      n_builtin_elements := count * old_dtp.n_builtin_elements
      builtin_element_size := old_dtp.builtin_element_size
      basic_type := old_dtp.basic_type
      is_contig := MPIR_Datatype_is_contig (.derived handle old_dtp) }

/-- The function `MPIR_Typerep_create_contig`: return code and descriptor. -/
def MPIR_Typerep_create_contig (X : Externals) (count : Int) (oldtype : MPI_Datatype)
    (newtype : MPIR_Datatype) : Int × MPIR_Datatype :=
  let newtype := create_contig_fields X count oldtype newtype
  match oldtype with
  | .builtin _ _ => (MPI_SUCCESS, { newtype with num_contig_blocks := 1 })
  | .derived _ old_dtp =>
    if newtype.is_contig = true then
      (MPI_SUCCESS, { newtype with num_contig_blocks := 1 })
    else
      (MPI_SUCCESS, { newtype with num_contig_blocks := count * old_dtp.num_contig_blocks })

/-- The function `MPIR_Typerep_create_dup`; `dtp` is the descriptor that
`MPIR_Datatype_get_ptr(oldtype, dtp)` yields. -/
def MPIR_Typerep_create_dup (X : Externals) (dtp : MPIR_Datatype) (newtype : MPIR_Datatype) :
    Int × MPIR_Datatype :=
  let newtype :=
    if dtp.is_committed = true then
      { newtype with typerep_handle := X.MPIR_Dataloop_dup dtp.typerep_handle }
    else newtype
  (MPI_SUCCESS,
    { newtype with
      is_contig := dtp.is_contig
      size := dtp.size
      extent := dtp.extent
      ub := dtp.ub
      lb := dtp.lb
      true_ub := dtp.true_ub
      true_lb := dtp.true_lb
      alignsize := dtp.alignsize
      n_builtin_elements := dtp.n_builtin_elements
      builtin_element_size := dtp.builtin_element_size
      basic_type := dtp.basic_type
      num_contig_blocks := dtp.num_contig_blocks })

/-- The function `MPIR_Typerep_create_resized`: return code and descriptor. -/
def MPIR_Typerep_create_resized (oldtype : MPI_Datatype) (lb extent : Int)
    (newtype : MPIR_Datatype) : Int × MPIR_Datatype :=
  match oldtype with
  | .builtin handle oldsize =>
    (MPI_SUCCESS,
      { newtype with
        size := oldsize
        true_lb := 0
        lb := lb
        true_ub := oldsize
        ub := lb + extent
        extent := extent
        alignsize := oldsize
        n_builtin_elements := 1
        builtin_element_size := oldsize
        is_contig := if extent = oldsize then true else false
        basic_type := handle
        num_contig_blocks := 3 })
  | .derived handle old_dtp =>
    (MPI_SUCCESS,
      { newtype with
        size := old_dtp.size
        true_lb := old_dtp.true_lb
        lb := lb
        true_ub := old_dtp.true_ub
        ub := lb + extent
        extent := extent
        alignsize := old_dtp.alignsize
        n_builtin_elements := old_dtp.n_builtin_elements
        builtin_element_size := old_dtp.builtin_element_size
        basic_type := old_dtp.basic_type
        is_contig :=
          if extent = old_dtp.size then MPIR_Datatype_is_contig (.derived handle old_dtp)
          else false
        num_contig_blocks := old_dtp.num_contig_blocks })

/-- Read of `a[i]` from an array argument; a read past the end of the array is a fault. -/
def read_at (a : List Int) (i : Nat) : Except Fault Int :=
  match a[i]? with
  | some v => .ok v
  | none => .error .out_of_bounds

/-- The expression `(dispinbytes) ? ((MPI_Aint *) displacement_array)[i] :
(((MPI_Aint) ((int *) displacement_array)[i]) * old_extent)`. -/
def eff_disp_at (displacement_array : List Int) (dispinbytes : Bool) (old_extent : Int)
    (i : Nat) : Except Fault Int :=
  match read_at displacement_array i with
  | .error e => .error e
  | .ok d => .ok (if dispinbytes then d else d * old_extent)

/-- Local variables shared by `update_type_indexed` and `update_type_blockindexed`
after the builtin/derived branch, together with the descriptor as written so far. -/
structure IndexedLocals where
  old_is_contig : Bool
  el_ct : Int
  old_sz : Int
  old_lb : Int
  old_ub : Int
  old_extent : Int
  old_true_lb : Int
  old_true_ub : Int
  newtype : MPIR_Datatype

/-- Lines 92-132 of `update_type_indexed`. `MPIR_Ensure_Aint_fits_in_int` asserts that
its argument is representable in an `int`. -/
def update_type_indexed_branch (oldtype : MPI_Datatype) (newtype : MPIR_Datatype) :
    Except Fault IndexedLocals :=
  match oldtype with
  | .builtin handle el_sz =>
    .ok
      { old_sz := el_sz
        el_ct := 1
        old_lb := 0
        old_true_lb := 0
        old_ub := el_sz
        old_true_ub := el_sz
        old_extent := el_sz
        old_is_contig := true
        newtype :=
          { newtype with
            alignsize := el_sz
            builtin_element_size := el_sz
            basic_type := handle } }
  | .derived handle old_dtp =>
    if old_dtp.builtin_element_size = int_wrap old_dtp.builtin_element_size then
      .ok
        { old_sz := old_dtp.size
          el_ct := old_dtp.n_builtin_elements
          old_lb := old_dtp.lb
          old_true_lb := old_dtp.true_lb
          old_ub := old_dtp.ub
          old_true_ub := old_dtp.true_ub
          old_extent := old_dtp.extent
          old_is_contig := MPIR_Datatype_is_contig (.derived handle old_dtp)
          newtype :=
            { newtype with
              alignsize := old_dtp.alignsize
              builtin_element_size := old_dtp.builtin_element_size
              basic_type := old_dtp.basic_type } }
    else .error .assertion

/-- The loop `while (i < count && blocklength_array[i] == 0) i++;` (lines 136-137).
The first argument is the number of indices from `i` up to `count`, so the guard
`i < count` holds exactly when it is not zero; the result is the final `i`. -/
def skip_zero_blocklengths (blocklength_array : List Int) : Nat → Nat → Except Fault Nat
  | 0, i => .ok i
  | remaining + 1, i =>
    match read_at blocklength_array i with
    | .error e => .error e
    | .ok v => if v = 0 then skip_zero_blocklengths blocklength_array remaining (i + 1) else .ok i

/-- Running values `old_ct`, `min_lb`, `max_ub` of the loop at lines 152-170. -/
structure IndexedAcc where
  old_ct : Int
  min_lb : Int
  max_ub : Int
deriving DecidableEq, Repr

/-- One iteration of the loop at lines 152-170 of `update_type_indexed`. -/
def update_type_indexed_step (X : Externals) (blocklength_array displacement_array : List Int)
    (dispinbytes : Bool) (old_lb old_ub old_extent : Int) (acc : IndexedAcc) (i : Nat) :
    Except Fault IndexedAcc :=
  match read_at blocklength_array i with
  | .error e => .error e
  | .ok blk =>
    if blk > 0 then
      match eff_disp_at displacement_array dispinbytes old_extent i with
      | .error e => .error e
      | .ok eff_disp =>
        let tmp := X.MPII_DATATYPE_BLOCK_LB_UB blk eff_disp old_lb old_ub old_extent
        .ok
          { old_ct := acc.old_ct + blk
            min_lb := if tmp.1 < acc.min_lb then tmp.1 else acc.min_lb
            max_ub := if tmp.2 > acc.max_ub then tmp.2 else acc.max_ub }
    else .ok acc

/-- A loop `for (i = first; i < count; i++)` with a fallible body, as a fold over the
indices `first, first + 1, ..., count - 1`. -/
def for_loop {α : Type} (first : Nat) (count : Int) (body : α → Nat → Except Fault α)
    (init : α) : Except Fault α :=
  (List.range' first (count.toNat - first)).foldlM body init

/-- The copy loop `for (i = 0; i < count; i++) blklens[i] = blocklength_array[i];`
preceded by the allocation of `blklens` and the assertion that it is not NULL. -/
def copy_blklens (X : Externals) (count : Int) (blocklength_array : List Int) :
    Except Fault (List Int) :=
  if X.MPL_malloc (count * sizeof_MPI_Aint) = true then
    for_loop 0 count
      (fun blklens i =>
        match read_at blocklength_array i with
        | .error e => .error e
        | .ok v => .ok (blklens ++ [v]))
      []
  else .error .assertion

/-- The static function `update_type_indexed`. -/
def update_type_indexed (X : Externals) (count : Int) (blocklength_array : List Int)
    (displacement_array : List Int) (oldtype : MPI_Datatype) (newtype : MPIR_Datatype)
    (dispinbytes : Bool) : Except Fault MPIR_Datatype := do
  let L ← update_type_indexed_branch oldtype newtype
  let i ← skip_zero_blocklengths blocklength_array count.toNat 0
  if ¬ ((i : Int) < count) then throw Fault.assertion
  let old_ct ← read_at blocklength_array i
  let eff_disp ← eff_disp_at displacement_array dispinbytes L.old_extent i
  let blk ← read_at blocklength_array i
  let first := X.MPII_DATATYPE_BLOCK_LB_UB blk eff_disp L.old_lb L.old_ub L.old_extent
  let acc ← for_loop (i + 1) count
    (update_type_indexed_step X blocklength_array displacement_array dispinbytes
      L.old_lb L.old_ub L.old_extent)
    { old_ct := old_ct, min_lb := first.1, max_ub := first.2 }
  let min_lb := acc.min_lb
  let max_ub := acc.max_ub
  let newtype : MPIR_Datatype :=
    { L.newtype with
      size := acc.old_ct * L.old_sz
      lb := min_lb
      ub := max_ub
      true_lb := min_lb + (L.old_true_lb - L.old_lb)
      true_ub := max_ub + (L.old_true_ub - L.old_ub)
      extent := max_ub - min_lb
      n_builtin_elements := acc.old_ct * L.el_ct
      is_contig := false }
  if L.old_is_contig = true then
    let blklens ← copy_blklens X count blocklength_array
    let contig_count := X.MPII_Datatype_indexed_count_contig count blklens
      displacement_array dispinbytes L.old_extent
    if contig_count = 1 ∧ newtype.size = newtype.extent then
      pure { newtype with is_contig := true }
    else pure newtype
  else pure newtype

/-- Lines 213-248 of `update_type_blockindexed`. -/
def update_type_blockindexed_branch (count blocklength : Int) (oldtype : MPI_Datatype)
    (newtype : MPIR_Datatype) : IndexedLocals :=
  match oldtype with
  | .builtin handle el_sz =>
    { old_sz := el_sz
      el_ct := 1
      old_lb := 0
      old_true_lb := 0
      old_ub := el_sz
      old_true_ub := el_sz
      old_extent := el_sz
      old_is_contig := true
      newtype :=
        { newtype with
          size := count * blocklength * el_sz
          alignsize := el_sz
          n_builtin_elements := int_wrap (count * blocklength)
          builtin_element_size := el_sz
          basic_type := handle } }
  | .derived handle old_dtp =>
    { old_sz := old_dtp.size
      el_ct := old_dtp.n_builtin_elements
      old_lb := old_dtp.lb
      old_true_lb := old_dtp.true_lb
      old_ub := old_dtp.ub
      old_true_ub := old_dtp.true_ub
      old_extent := old_dtp.extent
      old_is_contig := MPIR_Datatype_is_contig (.derived handle old_dtp)
      newtype :=
        { newtype with
          size := count * blocklength * old_dtp.size
          alignsize := old_dtp.alignsize
          n_builtin_elements := int_wrap (count * blocklength) * old_dtp.n_builtin_elements
          builtin_element_size := old_dtp.builtin_element_size
          basic_type := old_dtp.basic_type } }

/-- Running values `min_lb`, `max_ub` of the loop at lines 257-269. -/
structure BoundsAcc where
  min_lb : Int
  max_ub : Int
deriving DecidableEq, Repr

/-- One iteration of the loop at lines 257-269 of `update_type_blockindexed`. -/
def update_type_blockindexed_step (X : Externals) (blocklength : Int)
    (displacement_array : List Int) (dispinbytes : Bool) (old_lb old_ub old_extent : Int)
    (acc : BoundsAcc) (i : Nat) : Except Fault BoundsAcc :=
  match eff_disp_at displacement_array dispinbytes old_extent i with
  | .error e => .error e
  | .ok eff_disp =>
    let tmp := X.MPII_DATATYPE_BLOCK_LB_UB blocklength eff_disp old_lb old_ub old_extent
    .ok
      { min_lb := if tmp.1 < acc.min_lb then tmp.1 else acc.min_lb
        max_ub := if tmp.2 > acc.max_ub then tmp.2 else acc.max_ub }

/-- The static function `update_type_blockindexed`. -/
def update_type_blockindexed (X : Externals) (count blocklength : Int)
    (displacement_array : List Int) (oldtype : MPI_Datatype) (newtype : MPIR_Datatype)
    (dispinbytes : Bool) : Except Fault MPIR_Datatype := do
  let L := update_type_blockindexed_branch count blocklength oldtype newtype
  let eff_disp ← eff_disp_at displacement_array dispinbytes L.old_extent 0
  let first := X.MPII_DATATYPE_BLOCK_LB_UB blocklength eff_disp L.old_lb L.old_ub L.old_extent
  let acc ← for_loop 1 count
    (update_type_blockindexed_step X blocklength displacement_array dispinbytes
      L.old_lb L.old_ub L.old_extent)
    { min_lb := first.1, max_ub := first.2 }
  let min_lb := acc.min_lb
  let max_ub := acc.max_ub
  let newtype : MPIR_Datatype :=
    { L.newtype with
      lb := min_lb
      ub := max_ub
      true_lb := min_lb + (L.old_true_lb - L.old_lb)
      true_ub := max_ub + (L.old_true_ub - L.old_ub)
      extent := max_ub - min_lb
      is_contig := false }
  if L.old_is_contig = true then
    let contig_count := X.MPII_Datatype_blockindexed_count_contig count blocklength
      displacement_array dispinbytes L.old_extent
    if contig_count = 1 ∧ newtype.size = newtype.extent then
      pure { newtype with is_contig := true }
    else pure newtype
  else pure newtype

/-- Lines 444-465 of `MPIR_Typerep_create_indexed_block` and 477-498 of
`MPIR_Typerep_create_hindexed_block`, which differ in `dispinbytes` only. -/
def create_blockindexed (X : Externals) (count blocklength : Int)
    (array_of_displacements : List Int) (oldtype : MPI_Datatype) (newtype : MPIR_Datatype)
    (dispinbytes : Bool) : Except Fault (Int × MPIR_Datatype) := do
  let newtype ← update_type_blockindexed X count blocklength array_of_displacements
    oldtype newtype dispinbytes
  match oldtype with
  | .builtin _ el_sz =>
    let newtype := { newtype with num_contig_blocks := count }
    let old_is_contig := true
    let old_extent := el_sz
    if old_is_contig = true then
      pure (MPI_SUCCESS,
        { newtype with
          num_contig_blocks := X.MPII_Datatype_blockindexed_count_contig count blocklength
            array_of_displacements dispinbytes old_extent })
    else pure (MPI_SUCCESS, newtype)
  | .derived handle old_dtp =>
    let newtype :=
      { newtype with num_contig_blocks := count * old_dtp.num_contig_blocks * blocklength }
    let old_is_contig := MPIR_Datatype_is_contig (.derived handle old_dtp)
    let old_extent := old_dtp.extent
    if old_is_contig = true then
      pure (MPI_SUCCESS,
        { newtype with
          num_contig_blocks := X.MPII_Datatype_blockindexed_count_contig count blocklength
            array_of_displacements dispinbytes old_extent })
    else pure (MPI_SUCCESS, newtype)

/-- The function `MPIR_Typerep_create_indexed_block`. -/
def MPIR_Typerep_create_indexed_block (X : Externals) (count blocklength : Int)
    (array_of_displacements : List Int) (oldtype : MPI_Datatype) (newtype : MPIR_Datatype) :
    Except Fault (Int × MPIR_Datatype) :=
  create_blockindexed X count blocklength array_of_displacements oldtype newtype false

/-- The function `MPIR_Typerep_create_hindexed_block`. -/
def MPIR_Typerep_create_hindexed_block (X : Externals) (count blocklength : Int)
    (array_of_displacements : List Int) (oldtype : MPI_Datatype) (newtype : MPIR_Datatype) :
    Except Fault (Int × MPIR_Datatype) :=
  create_blockindexed X count blocklength array_of_displacements oldtype newtype true

/-- Lines 510-539 of `MPIR_Typerep_create_indexed` and 551-580 of
`MPIR_Typerep_create_hindexed`, which differ in `dispinbytes` only. -/
def create_indexed (X : Externals) (count : Int) (array_of_blocklengths : List Int)
    (array_of_displacements : List Int) (oldtype : MPI_Datatype) (newtype : MPIR_Datatype)
    (dispinbytes : Bool) : Except Fault (Int × MPIR_Datatype) := do
  let newtype ← update_type_indexed X count array_of_blocklengths array_of_displacements
    oldtype newtype dispinbytes
  match oldtype with
  | .builtin _ el_sz =>
    let newtype := { newtype with num_contig_blocks := count }
    let old_is_contig := true
    let old_extent := el_sz
    if old_is_contig = true then
      let blklens ← copy_blklens X count array_of_blocklengths
      pure (MPI_SUCCESS,
        { newtype with
          num_contig_blocks := X.MPII_Datatype_indexed_count_contig count blklens
            array_of_displacements dispinbytes old_extent })
    else pure (MPI_SUCCESS, newtype)
  | .derived handle old_dtp =>
    let blocks ← for_loop 0 count
      (fun (acc : Int) i =>
        match read_at array_of_blocklengths i with
        | .error e => .error e
        | .ok blk => .ok (acc + old_dtp.num_contig_blocks * blk))
      0
    let newtype := { newtype with num_contig_blocks := blocks }
    let old_is_contig := MPIR_Datatype_is_contig (.derived handle old_dtp)
    let old_extent := old_dtp.extent
    if old_is_contig = true then
      let blklens ← copy_blklens X count array_of_blocklengths
      pure (MPI_SUCCESS,
        { newtype with
          num_contig_blocks := X.MPII_Datatype_indexed_count_contig count blklens
            array_of_displacements dispinbytes old_extent })
    else pure (MPI_SUCCESS, newtype)

/-- The function `MPIR_Typerep_create_indexed`. -/
def MPIR_Typerep_create_indexed (X : Externals) (count : Int)
    (array_of_blocklengths array_of_displacements : List Int) (oldtype : MPI_Datatype)
    (newtype : MPIR_Datatype) : Except Fault (Int × MPIR_Datatype) :=
  create_indexed X count array_of_blocklengths array_of_displacements oldtype newtype false

/-- The function `MPIR_Typerep_create_hindexed`. -/
def MPIR_Typerep_create_hindexed (X : Externals) (count : Int)
    (array_of_blocklengths array_of_displacements : List Int) (oldtype : MPI_Datatype)
    (newtype : MPIR_Datatype) : Except Fault (Int × MPIR_Datatype) :=
  create_indexed X count array_of_blocklengths array_of_displacements oldtype newtype true

/-! ## Base facts and properties used to state the results -/

/-- Size of the base as the constructors see it: the element size of a basic
element, the `size` field of a derived type. -/
def old_size : MPI_Datatype → Int
  | .builtin _ el_sz => el_sz
  | .derived _ old_dtp => old_dtp.size

/-- Extent of the base as the constructors see it: the element size of a basic
element, the `extent` field of a derived type. -/
def old_extent : MPI_Datatype → Int
  | .builtin _ el_sz => el_sz
  | .derived _ old_dtp => old_dtp.extent

/-- A property required of the base: nothing for a basic element, the property of
its descriptor for a derived type. -/
def base_satisfies (P : MPIR_Datatype → Prop) : MPI_Datatype → Prop
  | .builtin _ _ => True
  | .derived _ old_dtp => P old_dtp

/-- Contiguity fast-path soundness of one descriptor: when `is_contig` is set, the
block count is one and the size equals the extent. -/
def ContigSound (d : MPIR_Datatype) : Prop :=
  d.is_contig = true → d.num_contig_blocks = 1 ∧ d.size = d.extent

/-- Extent identity of one descriptor. -/
def ExtentIdentity (d : MPIR_Datatype) : Prop := d.extent = d.ub - d.lb

/-- The vector LB/UB rule for a non-empty replicate with non-negative stride and
base extent: the lower bound is the base's, the upper bound is the base's plus
`(blklen - 1)` base extents plus `(cnt - 1)` strides. -/
def VectorRuleNonneg (X : Externals) : Prop :=
  ∀ cnt stride blklen old_lb old_ub old_ext : Int,
    1 ≤ cnt → 1 ≤ blklen → 0 ≤ stride → 0 ≤ old_ext →
    X.MPII_DATATYPE_VECTOR_LB_UB cnt stride blklen old_lb old_ub old_ext =
      (old_lb, old_ub + (blklen - 1) * old_ext + (cnt - 1) * stride)

/-! ## A reference instance of the external macros and helpers -/

/-- Modelled from the spec: the macro `MPII_DATATYPE_BLOCK_LB_UB` is defined in a
header that is not among the sources. A block of `cnt` base instances placed at
`disp` spans the instances at `disp`, `disp + old_extent`, ...; its bounds are the
least lower and greatest upper bound of the first and last instance. A block of no
instances is the point `disp`. -/
def ref_BLOCK_LB_UB (cnt disp old_lb old_ub old_extent : Int) : Int × Int :=
  if cnt = 0 then (disp, disp)
  else
    (min (disp + old_lb) (disp + old_lb + old_extent * (cnt - 1)),
     max (disp + old_ub) (disp + old_ub + old_extent * (cnt - 1)))

/-- Modelled from the spec: the macro `MPII_DATATYPE_VECTOR_LB_UB` is defined in a
header that is not among the sources. The replicate is `cnt` blocks of `blklen` base
instances each, spaced `stride` apart; its bounds are the least lower and greatest
upper bound spanned by the first and the last block. The spec gives no rule for an
empty replicate; the base bounds are returned then. -/
def ref_VECTOR_LB_UB (cnt stride blklen old_lb old_ub old_extent : Int) : Int × Int :=
  if cnt = 0 ∨ blklen = 0 then (old_lb, old_ub)
  else
    let first := ref_BLOCK_LB_UB blklen 0 old_lb old_ub old_extent
    let last := ref_BLOCK_LB_UB blklen (stride * (cnt - 1)) old_lb old_ub old_extent
    (min first.1 last.1, max first.2 last.2)

/-- Modelled from the spec: the macro `MPII_DATATYPE_CONTIG_LB_UB` is defined in a
header that is not among the sources. A contiguous run is the degenerate replicate
with blocklength 1 and stride equal to the base extent. -/
def ref_CONTIG_LB_UB (cnt old_lb old_ub old_extent : Int) : Int × Int :=
  ref_VECTOR_LB_UB cnt old_extent 1 old_lb old_ub old_extent

/-- Number of maximal runs formed by a list of (blocklength, displacement) pairs
scanned in order: a pair continues the run of its predecessor when it starts exactly
where the predecessor ends; `unit` is the length of one base instance in the unit
of the displacements. -/
def count_runs (unit : Int) : List (Int × Int) → Int
  | [] => 0
  | [_] => 1
  | p :: q :: rest =>
    (if p.2 + p.1 * unit = q.2 then 0 else 1) + count_runs unit (q :: rest)

/-- Modelled from the spec: `MPII_Datatype_indexed_count_contig` is defined in a file
that is not among the sources. It counts the maximal runs that the first `count`
entries with a nonzero blocklength form when scanned in order, displacements being
in bytes or in base extents. -/
def ref_indexed_count_contig (count : Int) (blklens disps : List Int) (dispinbytes : Bool)
    (old_extent : Int) : Int :=
  count_runs (if dispinbytes then old_extent else 1)
    (((blklens.zip disps).take count.toNat).filter (fun p => p.1 ≠ 0))

/-- Modelled from the spec: `MPII_Datatype_blockindexed_count_contig` is defined in a
file that is not among the sources. It counts the maximal runs that the first `count`
blocks of the common blocklength form when scanned in order. -/
def ref_blockindexed_count_contig (count blklen : Int) (disps : List Int) (dispinbytes : Bool)
    (old_extent : Int) : Int :=
  count_runs (if dispinbytes then old_extent else 1)
    ((disps.take count.toNat).map (fun d => (blklen, d)))

/-- The reference instance: the spec's reading of the absent macros and scans, an
allocator that always succeeds, and a representation that is its own copy. -/
def ref_externals : Externals where
  MPII_DATATYPE_VECTOR_LB_UB := ref_VECTOR_LB_UB
  MPII_DATATYPE_BLOCK_LB_UB := ref_BLOCK_LB_UB
  MPII_DATATYPE_CONTIG_LB_UB := ref_CONTIG_LB_UB
  MPII_Datatype_indexed_count_contig := ref_indexed_count_contig
  MPII_Datatype_blockindexed_count_contig := ref_blockindexed_count_contig
  MPL_malloc := fun _ => true
  MPIR_Dataloop_dup := fun h => h

/-- A descriptor before any constructor has written to it, every field zero. -/
def zeroed : MPIR_Datatype where
  size := 0
  extent := 0
  ub := 0
  lb := 0
  true_ub := 0
  true_lb := 0
  alignsize := 0
  n_builtin_elements := 0
  builtin_element_size := 0
  basic_type := 0
  is_contig := false
  is_committed := false
  typerep_handle := 0
  num_contig_blocks := 0

/-- The builtin handle `MPI_INT` (`0x4c000405`), a basic element of 4 bytes. -/
def MPI_INT : MPI_Datatype := .builtin 1275069445 4

/-- The builtin handle `MPI_BYTE` (`0x4c00010d`), a basic element of 1 byte. -/
def MPI_BYTE : MPI_Datatype := .builtin 1275068685 1

/-- A derived type of one byte per instance: size and extent 1, bounds `[0, 1)`,
contiguous, one block. -/
def byte_type : MPIR_Datatype where
  size := 1
  extent := 1
  ub := 1
  lb := 0
  true_ub := 1
  true_lb := 0
  alignsize := 1
  n_builtin_elements := 1
  builtin_element_size := 1
  basic_type := 1275068685
  is_contig := true
  is_committed := false
  typerep_handle := 0
  num_contig_blocks := 1

/-! ## The heterogeneous aggregate, and definitions used to state further results -/

/-- Read of `array_of_types[i]`; a read past the end of the array is a fault. -/
def read_type_at (a : List MPI_Datatype) (i : Nat) : Except Fault MPI_Datatype :=
  match a[i]? with
  | some t => .ok t
  | none => .error .out_of_bounds

/-- One iteration of the loop at lines 631-640 of `MPIR_Typerep_create_struct`. -/
def create_struct_step (array_of_blocklengths : List Int) (array_of_types : List MPI_Datatype)
    (num_contig_blocks : Int) (i : Nat) : Except Fault Int :=
  match read_type_at array_of_types i with
  | .error e => .error e
  | .ok (.builtin _ _) => .ok (num_contig_blocks + 1)
  | .ok (.derived _ old_dtp) =>
    match read_at array_of_blocklengths i with
    | .error e => .error e
    | .ok blk => .ok (num_contig_blocks + old_dtp.num_contig_blocks * blk)

/-- The function `MPIR_Typerep_create_struct`: return code and descriptor. -/
def MPIR_Typerep_create_struct (count : Int) (array_of_blocklengths : List Int)
    (_array_of_displacements : List Int) (array_of_types : List MPI_Datatype)
    (newtype : MPIR_Datatype) : Except Fault (Int × MPIR_Datatype) :=
  match for_loop 0 count (create_struct_step array_of_blocklengths array_of_types) 0 with
  | .error e => .error e
  | .ok num_contig_blocks =>
    .ok (MPI_SUCCESS, { newtype with num_contig_blocks := num_contig_blocks })

/-- Lower bound of the base as the constructors see it. -/
def old_lb : MPI_Datatype → Int
  | .builtin _ _ => 0
  | .derived _ old_dtp => old_dtp.lb

/-- Upper bound of the base as the constructors see it. -/
def old_ub : MPI_Datatype → Int
  | .builtin _ el_sz => el_sz
  | .derived _ old_dtp => old_dtp.ub

/-- Number of basic elements in one instance of the base. -/
def old_element_count : MPI_Datatype → Int
  | .builtin _ _ => 1
  | .derived _ old_dtp => old_dtp.n_builtin_elements

/-- True bounds are the bounds shifted by the base's true-bound offsets: over a basic
element they coincide with the bounds. -/
def TrueBoundOffsets (oldtype : MPI_Datatype) (d : MPIR_Datatype) : Prop :=
  match oldtype with
  | .builtin _ _ => d.true_lb = d.lb ∧ d.true_ub = d.ub
  | .derived _ old_dtp =>
    d.true_lb - d.lb = old_dtp.true_lb - old_dtp.lb ∧
    d.true_ub - d.ub = old_dtp.true_ub - old_dtp.ub

/-- True lower bound of the base as the constructors see it. -/
def old_true_lb : MPI_Datatype → Int
  | .builtin _ _ => 0
  | .derived _ old_dtp => old_dtp.true_lb

/-- True upper bound of the base as the constructors see it. -/
def old_true_ub : MPI_Datatype → Int
  | .builtin _ el_sz => el_sz
  | .derived _ old_dtp => old_dtp.true_ub

/-- Effective byte displacement of an entry: the displacement itself in byte units, the
displacement times the base extent in element units. -/
def eff_disp (dispinbytes : Bool) (old_ext d : Int) : Int :=
  if dispinbytes then d else d * old_ext

/-- Block lower and upper bound of one (blocklength, displacement) entry, computed by
`MPII_DATATYPE_BLOCK_LB_UB` from its blocklength, its effective byte displacement and the
base's `lb`, `ub` and `extent`. -/
def block_span (X : Externals) (dispinbytes : Bool) (oldtype : MPI_Datatype)
    (p : Int × Int) : Int × Int :=
  X.MPII_DATATYPE_BLOCK_LB_UB p.1 (eff_disp dispinbytes (old_extent oldtype) p.2)
    (old_lb oldtype) (old_ub oldtype) (old_extent oldtype)

/-- The body of the loop at lines 152-170 of `update_type_indexed` on an entry whose
reads succeed. -/
def update_type_indexed_step_value (X : Externals) (dispinbytes : Bool) (oldtype : MPI_Datatype)
    (acc : IndexedAcc) (p : Int × Int) : IndexedAcc :=
  if p.1 > 0 then
    { old_ct := acc.old_ct + p.1
      min_lb :=
        if (block_span X dispinbytes oldtype p).1 < acc.min_lb
        then (block_span X dispinbytes oldtype p).1 else acc.min_lb
      max_ub :=
        if (block_span X dispinbytes oldtype p).2 > acc.max_ub
        then (block_span X dispinbytes oldtype p).2 else acc.max_ub }
  else acc

/-- The entry of index `k`: its blocklength and its displacement. -/
def entry_at (bls ds : List Int) (k : Nat) : Int × Int := (bls.getD k 0, ds.getD k 0)

/-- The first `count` (blocklength, displacement) entries of an index-by-list call. -/
def block_entries (count : Int) (bls ds : List Int) : List (Int × Int) :=
  (bls.zip ds).take count.toNat

/-- The entries with a nonzero blocklength, in order. -/
def nonzero_entries (count : Int) (bls ds : List Int) : List (Int × Int) :=
  (block_entries count bls ds).filter (fun p => decide (p.1 ≠ 0))

/-- Well-formed arguments of an index-by-list call: at least one entry, arrays that hold
`count` entries, no negative blocklength and at least one nonzero blocklength. -/
def IndexedArgs (count : Int) (bls ds : List Int) : Prop :=
  1 ≤ count ∧ count.toNat ≤ bls.length ∧ count.toNat ≤ ds.length ∧
    (∀ b ∈ bls.take count.toNat, 0 ≤ b) ∧ (∃ b ∈ bls.take count.toNat, b ≠ 0)

/-- The environment lets an index-style call over this base run to its end: a derived
base has an element size that fits in an `int`, and the scratch buffer of the
contiguous-run scan, needed for a contiguous base only, can be allocated. -/
def IndexedEnv (X : Externals) (count : Int) (oldtype : MPI_Datatype) : Prop :=
  base_satisfies (fun d => d.builtin_element_size = int_wrap d.builtin_element_size) oldtype ∧
    (MPIR_Datatype_is_contig oldtype = true → X.MPL_malloc (count * sizeof_MPI_Aint) = true)

/-- The size, bounds, true bounds, extent and element count of a descriptor. -/
structure IndexedLayout where
  size : Int
  lb : Int
  ub : Int
  true_lb : Int
  true_ub : Int
  extent : Int
  n_builtin_elements : Int
deriving DecidableEq, Repr

/-- The layout fields of a descriptor. -/
def layout_of (d : MPIR_Datatype) : IndexedLayout where
  size := d.size
  lb := d.lb
  ub := d.ub
  true_lb := d.true_lb
  true_ub := d.true_ub
  extent := d.extent
  n_builtin_elements := d.n_builtin_elements

/-- Reference definition of the index-by-list layout, following the spec: over the
entries with a nonzero blocklength, the lower bound is the least block lower bound and
the upper bound the greatest block upper bound, seeded from the first entry; the true
bounds add the base's true-bound offsets; the total replicated-base count is the sum of
the blocklengths. There is no layout when no entry has a nonzero blocklength. -/
def indexed_reference (X : Externals) (dispinbytes : Bool) (oldtype : MPI_Datatype)
    (nonzero : List (Int × Int)) : Option IndexedLayout :=
  match nonzero with
  | [] => none
  | p :: rest =>
    let lb := (rest.map (fun q => (block_span X dispinbytes oldtype q).1)).foldl min
      (block_span X dispinbytes oldtype p).1
    let ub := (rest.map (fun q => (block_span X dispinbytes oldtype q).2)).foldl max
      (block_span X dispinbytes oldtype p).2
    let total := ((p :: rest).map Prod.fst).sum
    some
      { size := total * old_size oldtype
        lb := lb
        ub := ub
        true_lb := lb + (old_true_lb oldtype - old_lb oldtype)
        true_ub := ub + (old_true_ub oldtype - old_ub oldtype)
        extent := ub - lb
        n_builtin_elements := total * old_element_count oldtype }

/-- Final values of `old_ct`, `min_lb`, `max_ub` in `update_type_indexed` when the first
nonzero blocklength is at index `i` and every read succeeds: the seed from entry `i`
(lines 142-147) folded over the entries `i + 1, ..., count - 1` (lines 152-170). -/
def update_type_indexed_loop_value (X : Externals) (dispinbytes : Bool) (oldtype : MPI_Datatype)
    (count : Int) (bls ds : List Int) (i : Nat) : IndexedAcc :=
  ((List.range' (i + 1) (count.toNat - (i + 1))).map (entry_at bls ds)).foldl
    (update_type_indexed_step_value X dispinbytes oldtype)
    { old_ct := bls.getD i 0
      min_lb := (block_span X dispinbytes oldtype (entry_at bls ds i)).1
      max_ub := (block_span X dispinbytes oldtype (entry_at bls ds i)).2 }

/-- A descriptor agrees with the reference definition of the index-by-list layout: its
layout is the reference layout of the nonzero entries; its `lb` is the minimum and its
`ub` the maximum of the block bounds of exactly the nonzero entries; its size and element
count are the sum of the blocklengths times the base's size and element count. -/
def IndexedMatches (X : Externals) (dispinbytes : Bool) (oldtype : MPI_Datatype)
    (count : Int) (bls ds : List Int) (d : MPIR_Datatype) : Prop :=
  some (layout_of d) = indexed_reference X dispinbytes oldtype (nonzero_entries count bls ds) ∧
  d.lb ∈ (nonzero_entries count bls ds).map (fun q => (block_span X dispinbytes oldtype q).1) ∧
  (∀ x ∈ (nonzero_entries count bls ds).map (fun q => (block_span X dispinbytes oldtype q).1),
    d.lb ≤ x) ∧
  d.ub ∈ (nonzero_entries count bls ds).map (fun q => (block_span X dispinbytes oldtype q).2) ∧
  (∀ x ∈ (nonzero_entries count bls ds).map (fun q => (block_span X dispinbytes oldtype q).2),
    x ≤ d.ub) ∧
  d.size = (bls.take count.toNat).sum * old_size oldtype ∧
  d.n_builtin_elements = (bls.take count.toNat).sum * old_element_count oldtype

/-- The contig LB/UB macro is the vector LB/UB macro of the degenerate replicate with
blocklength 1 and stride equal to the base extent, on bases whose extent is `ub - lb`. -/
def ContigIsDegenerateVector (X : Externals) : Prop :=
  ∀ cnt old_lb old_ub old_ext : Int, 1 ≤ cnt → old_ext = old_ub - old_lb →
    X.MPII_DATATYPE_CONTIG_LB_UB cnt old_lb old_ub old_ext =
      X.MPII_DATATYPE_VECTOR_LB_UB cnt old_ext 1 old_lb old_ub old_ext

/-- A base on which the contiguous run and the degenerate replicate are compared: a
basic element, or a derived type with `extent = ub - lb` whose `is_contig` implies
`size = extent`. -/
def DegenerateBase : MPI_Datatype → Prop
  | .builtin _ _ => True
  | .derived _ old_dtp =>
    ExtentIdentity old_dtp ∧ (old_dtp.is_contig = true → old_dtp.size = old_dtp.extent)

/-- The reference instance with an allocator that always fails. -/
def no_memory_externals : Externals :=
  { ref_externals with MPL_malloc := fun _ => false }

/-- The 4-byte basic element `MPI_INT` resized to `lb = 0`, `extent = 16`: a derived
type that is not contiguous and has 3 blocks. -/
def padded_int : MPIR_Datatype := (MPIR_Typerep_create_resized MPI_INT 0 16 zeroed).2

/-- Blocks contributed by one field of a heterogeneous aggregate, following the spec: 1
if the field's type is basic, `field.num_contig_blocks * field.blocklength` if it is
derived. -/
def field_blocks (field : MPI_Datatype × Int) : Int :=
  match field.1 with
  | .builtin _ _ => 1
  | .derived _ old_dtp => old_dtp.num_contig_blocks * field.2

/-- Reference definition of the aggregate block count: the sum over the fields of the
blocks each contributes. -/
def struct_blocks_reference (fields : List (MPI_Datatype × Int)) : Int :=
  (fields.map field_blocks).sum

/-- The vector LB/UB macro returns the base bounds for a replicate without blocks or with
empty blocks. -/
def VectorRuleEmpty (X : Externals) : Prop :=
  ∀ cnt stride blklen old_lb old_ub old_ext : Int, cnt = 0 ∨ blklen = 0 →
    X.MPII_DATATYPE_VECTOR_LB_UB cnt stride blklen old_lb old_ub old_ext = (old_lb, old_ub)

/-- The bytes that a byte-unit replicate of a basic element occupies: the union over
`i < c` of the intervals `[i * stride, i * stride + b * e)`. -/
def replicate_bytes (c b e stride : Int) : Finset Int :=
  (Finset.range c.toNat).biUnion
    (fun i => Finset.Ico ((i : Int) * stride) ((i : Int) * stride + b * e))

/-- Number of maximal contiguous runs of a finite set of byte offsets: the number of
its members whose predecessor is not a member. -/
def contiguous_runs (S : Finset Int) : Nat :=
  (S.filter (fun x => x - 1 ∉ S)).card

/-- A descriptor whose `is_contig` implies that its size equals its extent. -/
def ContigSizeIsExtent (d : MPIR_Datatype) : Prop :=
  d.is_contig = true → d.size = d.extent

/-- The vector LB/UB rule adds to the base's `lb` and `ub` terms that depend only on the
count, the stride, the blocklength and the base extent. -/
def VectorRuleOffsets (X : Externals) : Prop :=
  ∃ lo hi : Int → Int → Int → Int → Int,
    ∀ cnt stride blklen old_lb old_ub old_ext : Int,
      X.MPII_DATATYPE_VECTOR_LB_UB cnt stride blklen old_lb old_ub old_ext =
        (old_lb + lo cnt stride blklen old_ext, old_ub + hi cnt stride blklen old_ext)

/-- The body of the loop at lines 257-269 of `update_type_blockindexed` on an entry whose
read succeeds, `d` being the displacement read. -/
def update_type_blockindexed_step_value (X : Externals) (dispinbytes : Bool)
    (oldtype : MPI_Datatype) (blocklength : Int) (acc : BoundsAcc) (d : Int) : BoundsAcc :=
  { min_lb :=
      if (block_span X dispinbytes oldtype (blocklength, d)).1 < acc.min_lb
      then (block_span X dispinbytes oldtype (blocklength, d)).1 else acc.min_lb
    max_ub :=
      if (block_span X dispinbytes oldtype (blocklength, d)).2 > acc.max_ub
      then (block_span X dispinbytes oldtype (blocklength, d)).2 else acc.max_ub }

/-- Final values of `min_lb`, `max_ub` in `update_type_blockindexed` when every read
succeeds: the seed from entry 0 (lines 251-254) folded over the entries
`1, ..., count - 1` (lines 257-269). -/
def update_type_blockindexed_loop_value (X : Externals) (dispinbytes : Bool)
    (oldtype : MPI_Datatype) (count blocklength : Int) (ds : List Int) : BoundsAcc :=
  (List.range' 1 (count.toNat - 1)).foldl
    (fun acc k =>
      update_type_blockindexed_step_value X dispinbytes oldtype blocklength acc (ds.getD k 0))
    { min_lb := (block_span X dispinbytes oldtype (blocklength, ds.getD 0 0)).1
      max_ub := (block_span X dispinbytes oldtype (blocklength, ds.getD 0 0)).2 }

/-- The layout fields that the two index families are compared on: size, bounds, true
bounds and extent. -/
def same_bounds_and_size (d1 d2 : MPIR_Datatype) : Prop :=
  d1.size = d2.size ∧ d1.lb = d2.lb ∧ d1.ub = d2.ub ∧ d1.true_lb = d2.true_lb ∧
    d1.true_ub = d2.true_ub ∧ d1.extent = d2.extent

/-! ## Contiguity fast-path soundness, constructor by constructor -/

/-- Fast-path soundness of the element-unit replicate over a sound base. -/
theorem vector_contig_sound (X : Externals) (count blocklength stride : Int)
    (oldtype : MPI_Datatype) (newtype : MPIR_Datatype)
    (hbase : base_satisfies ContigSound oldtype) :
    ContigSound (MPIR_Typerep_create_vector X count blocklength stride oldtype newtype).2 := by
  intro hc
  cases oldtype with
  | builtin h e =>
    simp only [MPIR_Typerep_create_vector, update_type_vector, update_type_vector_branch] at hc ⊢
    split_ifs at hc ⊢ <;> simp_all [mul_comm]
  | derived h d =>
    simp only [MPIR_Typerep_create_vector, update_type_vector, update_type_vector_branch,
      MPIR_Datatype_is_contig, base_satisfies, ContigSound] at hc hbase ⊢
    split_ifs at hc ⊢ <;> simp_all [mul_comm]

/-- Fast-path soundness of the byte-unit replicate over a sound base. -/
theorem hvector_contig_sound (X : Externals) (count blocklength stride : Int)
    (oldtype : MPI_Datatype) (newtype : MPIR_Datatype)
    (hbase : base_satisfies ContigSound oldtype) :
    ContigSound (MPIR_Typerep_create_hvector X count blocklength stride oldtype newtype).2 := by
  intro hc
  cases oldtype with
  | builtin h e =>
    simp only [MPIR_Typerep_create_hvector, update_type_vector, update_type_vector_branch] at hc ⊢
    split_ifs at hc ⊢ <;> simp_all [mul_comm]
  | derived h d =>
    simp only [MPIR_Typerep_create_hvector, update_type_vector, update_type_vector_branch,
      MPIR_Datatype_is_contig, base_satisfies, ContigSound] at hc hbase ⊢
    split_ifs at hc ⊢ <;> simp_all [mul_comm]

/-- The locals that the builtin/derived branch of `update_type_indexed` sets. -/
theorem update_type_indexed_branch_facts (oldtype : MPI_Datatype) (newtype : MPIR_Datatype)
    (L : IndexedLocals) (h : update_type_indexed_branch oldtype newtype = .ok L) :
    L.old_is_contig = MPIR_Datatype_is_contig oldtype ∧ L.old_extent = old_extent oldtype ∧
      L.old_sz = old_size oldtype := by
  cases oldtype with
  | builtin hd e =>
    simp only [update_type_indexed_branch, Except.ok.injEq] at h
    subst h
    simp [MPIR_Datatype_is_contig, old_extent, old_size]
  | derived hd d =>
    simp only [update_type_indexed_branch] at h
    split_ifs at h
    simp only [Except.ok.injEq] at h
    subst h
    simp [MPIR_Datatype_is_contig, old_extent, old_size]

/-- What `update_type_indexed` has established when it returns with `is_contig` set. -/
theorem update_type_indexed_is_contig (X : Externals) (count : Int)
    (bls ds : List Int) (oldtype : MPI_Datatype) (newtype d : MPIR_Datatype) (dib : Bool)
    (h : update_type_indexed X count bls ds oldtype newtype dib = .ok d)
    (hc : d.is_contig = true) :
    MPIR_Datatype_is_contig oldtype = true ∧ d.size = d.extent ∧
      ∃ blklens, copy_blklens X count bls = .ok blklens ∧
        X.MPII_Datatype_indexed_count_contig count blklens ds dib (old_extent oldtype) = 1 := by
  simp only [update_type_indexed, bind, Except.bind, pure, Except.pure, throw, throwThe,
    MonadExceptOf.throw] at h
  split at h
  · simp at h
  rename_i L hL
  obtain ⟨hic, hext, -⟩ := update_type_indexed_branch_facts oldtype newtype L hL
  split at h
  · simp at h
  split at h
  · simp at h
  split at h
  · simp at h
  split at h
  · simp at h
  split at h
  · simp at h
  split at h
  · simp at h
  split at h
  · split at h
    · simp at h
    rename_i blklens hb
    split at h
    · rename_i hcond
      simp only [Except.ok.injEq] at h
      subst h
      exact ⟨hic ▸ (by assumption), hcond.2, blklens, hb, hext ▸ hcond.1⟩
    · simp only [Except.ok.injEq] at h
      subst h
      simp at hc
  · simp only [Except.ok.injEq] at h
    subst h
    simp at hc

/-- Fast-path soundness of the index-by-list constructors: the facade repeats the scan
that `update_type_indexed` used to set `is_contig`. -/
theorem create_indexed_contig_sound (X : Externals) (count : Int) (bls ds : List Int)
    (oldtype : MPI_Datatype) (newtype : MPIR_Datatype) (dib : Bool)
    (r : Int × MPIR_Datatype)
    (h : create_indexed X count bls ds oldtype newtype dib = .ok r) :
    ContigSound r.2 := by
  intro hc
  simp only [create_indexed, bind, Except.bind, pure, Except.pure] at h
  split at h
  · simp at h
  rename_i d hd
  cases oldtype with
  | builtin hdl e =>
    simp only [if_true] at h
    split at h
    · simp at h
    rename_i blklens hb
    simp only [Except.ok.injEq] at h
    subst h
    obtain ⟨-, hsz, b2, hb2, hcnt⟩ := update_type_indexed_is_contig X count bls ds _ newtype d dib hd hc
    rw [hb] at hb2
    simp only [Except.ok.injEq] at hb2
    subst hb2
    exact ⟨hcnt, hsz⟩
  | derived hdl od =>
    simp only at h
    split at h
    · simp at h
    split at h
    · split at h
      · simp at h
      rename_i blklens hb
      simp only [Except.ok.injEq] at h
      subst h
      obtain ⟨-, hsz, b2, hb2, hcnt⟩ :=
        update_type_indexed_is_contig X count bls ds _ newtype d dib hd hc
      rw [hb] at hb2
      simp only [Except.ok.injEq] at hb2
      subst hb2
      exact ⟨hcnt, hsz⟩
    · rename_i hnc
      simp only [Except.ok.injEq] at h
      subst h
      obtain ⟨hic, -, -⟩ := update_type_indexed_is_contig X count bls ds _ newtype d dib hd hc
      exact absurd hic hnc

/-- What `update_type_blockindexed` has established when it returns with `is_contig` set. -/
theorem update_type_blockindexed_is_contig (X : Externals) (count blocklength : Int)
    (ds : List Int) (oldtype : MPI_Datatype) (newtype d : MPIR_Datatype) (dib : Bool)
    (h : update_type_blockindexed X count blocklength ds oldtype newtype dib = .ok d)
    (hc : d.is_contig = true) :
    MPIR_Datatype_is_contig oldtype = true ∧ d.size = d.extent ∧
      X.MPII_Datatype_blockindexed_count_contig count blocklength ds dib (old_extent oldtype)
        = 1 := by
  have hic : (update_type_blockindexed_branch count blocklength oldtype newtype).old_is_contig
      = MPIR_Datatype_is_contig oldtype := by
    cases oldtype <;> rfl
  have hext : (update_type_blockindexed_branch count blocklength oldtype newtype).old_extent
      = old_extent oldtype := by
    cases oldtype <;> rfl
  simp only [update_type_blockindexed, bind, Except.bind, pure, Except.pure] at h
  split at h
  · simp at h
  split at h
  · simp at h
  split at h
  · split at h
    · rename_i hcond
      simp only [Except.ok.injEq] at h
      subst h
      exact ⟨hic ▸ (by assumption), hcond.2, hext ▸ hcond.1⟩
    · simp only [Except.ok.injEq] at h
      subst h
      simp at hc
  · simp only [Except.ok.injEq] at h
    subst h
    simp at hc

/-- Fast-path soundness of the index-by-uniform-block constructors. -/
theorem create_blockindexed_contig_sound (X : Externals) (count blocklength : Int)
    (ds : List Int) (oldtype : MPI_Datatype) (newtype : MPIR_Datatype) (dib : Bool)
    (r : Int × MPIR_Datatype)
    (h : create_blockindexed X count blocklength ds oldtype newtype dib = .ok r) :
    ContigSound r.2 := by
  intro hc
  simp only [create_blockindexed, bind, Except.bind, pure, Except.pure] at h
  split at h
  · simp at h
  rename_i d hd
  cases oldtype with
  | builtin hdl e =>
    simp only [if_true, Except.ok.injEq] at h
    subst h
    obtain ⟨-, hsz, hcnt⟩ :=
      update_type_blockindexed_is_contig X count blocklength ds _ newtype d dib hd hc
    exact ⟨hcnt, hsz⟩
  | derived hdl od =>
    simp only at h
    split at h
    · simp only [Except.ok.injEq] at h
      subst h
      obtain ⟨-, hsz, hcnt⟩ :=
        update_type_blockindexed_is_contig X count blocklength ds _ newtype d dib hd hc
      exact ⟨hcnt, hsz⟩
    · rename_i hnc
      simp only [Except.ok.injEq] at h
      subst h
      obtain ⟨hic, -, -⟩ :=
        update_type_blockindexed_is_contig X count blocklength ds _ newtype d dib hd hc
      exact absurd hic hnc

/-- Fast-path soundness of the contiguous run of a basic element. -/
theorem contig_builtin_contig_sound (X : Externals) (count : Int) (hdl : Nat) (e : Int)
    (newtype : MPIR_Datatype) :
    ContigSound (MPIR_Typerep_create_contig X count (.builtin hdl e) newtype).2 := by
  intro _
  simp [MPIR_Typerep_create_contig, create_contig_fields]

/-- A contiguous run of a derived base that has `is_contig` set has one block. -/
theorem contig_derived_one_block (X : Externals) (count : Int) (hdl : Nat) (od : MPIR_Datatype)
    (newtype : MPIR_Datatype)
    (hc : (MPIR_Typerep_create_contig X count (.derived hdl od) newtype).2.is_contig = true) :
    (MPIR_Typerep_create_contig X count (.derived hdl od) newtype).2.num_contig_blocks = 1 := by
  simp only [MPIR_Typerep_create_contig, create_contig_fields, MPIR_Datatype_is_contig] at hc ⊢
  split_ifs at hc ⊢ <;> simp_all

/-- Fast-path soundness of the contiguous run of a sound derived base whose bounds the
contig LB/UB macro extends by `count - 1` extents. -/
theorem contig_derived_contig_sound (X : Externals) (count : Int) (hdl : Nat)
    (od : MPIR_Datatype) (newtype : MPIR_Datatype) (hbase : ContigSound od)
    (hext : ExtentIdentity od)
    (hrule : X.MPII_DATATYPE_CONTIG_LB_UB count od.lb od.ub od.extent
      = (od.lb, od.ub + od.extent * (count - 1))) :
    ContigSound (MPIR_Typerep_create_contig X count (.derived hdl od) newtype).2 := by
  intro hc
  refine ⟨contig_derived_one_block X count hdl od newtype hc, ?_⟩
  simp only [MPIR_Typerep_create_contig, create_contig_fields, MPIR_Datatype_is_contig] at hc ⊢
  have hod : od.is_contig = true := by split_ifs at hc <;> simp_all
  have hsz := (hbase hod).2
  unfold ExtentIdentity at hext
  split_ifs
  simp only [hrule]
  rw [hsz]
  linarith

/-- Fast-path soundness of resize over a sound derived base. -/
theorem resized_derived_contig_sound (hdl : Nat) (od : MPIR_Datatype) (lb extent : Int)
    (newtype : MPIR_Datatype) (hbase : ContigSound od) :
    ContigSound (MPIR_Typerep_create_resized (.derived hdl od) lb extent newtype).2 := by
  intro hc
  simp only [MPIR_Typerep_create_resized, MPIR_Datatype_is_contig] at hc ⊢
  split_ifs at hc with hx
  exact ⟨(hbase hc).1, hx.symm⟩

/-- Resize of a basic element sets `is_contig` only when the extent is the size. -/
theorem resized_builtin_size_extent (hdl : Nat) (e lb extent : Int) (newtype : MPIR_Datatype)
    (hc : (MPIR_Typerep_create_resized (.builtin hdl e) lb extent newtype).2.is_contig = true) :
    (MPIR_Typerep_create_resized (.builtin hdl e) lb extent newtype).2.size
      = (MPIR_Typerep_create_resized (.builtin hdl e) lb extent newtype).2.extent := by
  simp only [MPIR_Typerep_create_resized] at hc ⊢
  split_ifs at hc with hx
  exact hx.symm

/-- Duplicate keeps fast-path soundness. -/
theorem dup_contig_sound (X : Externals) (dtp newtype : MPIR_Datatype) (hsrc : ContigSound dtp) :
    ContigSound (MPIR_Typerep_create_dup X dtp newtype).2 := by
  intro hc
  simp only [MPIR_Typerep_create_dup] at hc ⊢
  exact hsrc hc

/-! ## Shape of the descriptors written by the index-style helpers -/

/-- Every field but `is_contig` of a descriptor returned by `update_type_indexed`, in
terms of the locals, the first nonzero index and the final loop values. -/
theorem update_type_indexed_shape (X : Externals) (count : Int)
    (bls ds : List Int) (oldtype : MPI_Datatype) (newtype d : MPIR_Datatype) (dib : Bool)
    (h : update_type_indexed X count bls ds oldtype newtype dib = .ok d) :
    ∃ (L : IndexedLocals) (i : Nat) (blk eff : Int) (acc : IndexedAcc),
      update_type_indexed_branch oldtype newtype = .ok L ∧
      skip_zero_blocklengths bls count.toNat 0 = .ok i ∧ (i : Int) < count ∧
      read_at bls i = .ok blk ∧ eff_disp_at ds dib L.old_extent i = .ok eff ∧
      for_loop (i + 1) count
        (update_type_indexed_step X bls ds dib L.old_lb L.old_ub L.old_extent)
        { old_ct := blk
          min_lb := (X.MPII_DATATYPE_BLOCK_LB_UB blk eff L.old_lb L.old_ub L.old_extent).1
          max_ub := (X.MPII_DATATYPE_BLOCK_LB_UB blk eff L.old_lb L.old_ub L.old_extent).2 }
        = .ok acc ∧
      { d with is_contig := false } =
        { L.newtype with
          size := acc.old_ct * L.old_sz
          lb := acc.min_lb
          ub := acc.max_ub
          true_lb := acc.min_lb + (L.old_true_lb - L.old_lb)
          true_ub := acc.max_ub + (L.old_true_ub - L.old_ub)
          extent := acc.max_ub - acc.min_lb
          n_builtin_elements := acc.old_ct * L.el_ct
          is_contig := false } := by
  simp only [update_type_indexed, bind, Except.bind, pure, Except.pure, throw, throwThe,
    MonadExceptOf.throw] at h
  split at h
  · simp at h
  rename_i L hL
  split at h
  · simp at h
  rename_i i hi
  split at h
  · simp at h
  rename_i hlt
  split at h
  · simp at h
  rename_i blk hblk
  split at h
  · simp at h
  rename_i eff heff
  split at h
  · simp at h
  rename_i blk2 hblk2
  have hb : blk = blk2 := by simpa using hblk2
  subst hb
  split at h
  · simp at h
  rename_i acc hacc
  refine ⟨L, i, blk, eff, acc, hL, hi, not_not.mp hlt, hblk, heff, hacc, ?_⟩
  split at h
  · split at h
    · simp at h
    split at h <;>
      · simp only [Except.ok.injEq] at h
        subst h
        rfl
  · simp only [Except.ok.injEq] at h
    subst h
    rfl

/-- Every field but `is_contig` of a descriptor returned by `update_type_blockindexed`,
in terms of the locals and the final loop values. -/
theorem update_type_blockindexed_shape (X : Externals) (count blocklength : Int)
    (ds : List Int) (oldtype : MPI_Datatype) (newtype d : MPIR_Datatype) (dib : Bool)
    (h : update_type_blockindexed X count blocklength ds oldtype newtype dib = .ok d) :
    ∃ (eff : Int) (acc : BoundsAcc),
      eff_disp_at ds dib
        (update_type_blockindexed_branch count blocklength oldtype newtype).old_extent 0
        = .ok eff ∧
      for_loop 1 count
        (update_type_blockindexed_step X blocklength ds dib
          (update_type_blockindexed_branch count blocklength oldtype newtype).old_lb
          (update_type_blockindexed_branch count blocklength oldtype newtype).old_ub
          (update_type_blockindexed_branch count blocklength oldtype newtype).old_extent)
        { min_lb := (X.MPII_DATATYPE_BLOCK_LB_UB blocklength eff
            (update_type_blockindexed_branch count blocklength oldtype newtype).old_lb
            (update_type_blockindexed_branch count blocklength oldtype newtype).old_ub
            (update_type_blockindexed_branch count blocklength oldtype newtype).old_extent).1
          max_ub := (X.MPII_DATATYPE_BLOCK_LB_UB blocklength eff
            (update_type_blockindexed_branch count blocklength oldtype newtype).old_lb
            (update_type_blockindexed_branch count blocklength oldtype newtype).old_ub
            (update_type_blockindexed_branch count blocklength oldtype newtype).old_extent).2 }
        = .ok acc ∧
      { d with is_contig := false } =
        { (update_type_blockindexed_branch count blocklength oldtype newtype).newtype with
          lb := acc.min_lb
          ub := acc.max_ub
          true_lb := acc.min_lb +
            ((update_type_blockindexed_branch count blocklength oldtype newtype).old_true_lb
              - (update_type_blockindexed_branch count blocklength oldtype newtype).old_lb)
          true_ub := acc.max_ub +
            ((update_type_blockindexed_branch count blocklength oldtype newtype).old_true_ub
              - (update_type_blockindexed_branch count blocklength oldtype newtype).old_ub)
          extent := acc.max_ub - acc.min_lb
          is_contig := false } := by
  simp only [update_type_blockindexed, bind, Except.bind, pure, Except.pure] at h
  split at h
  · simp at h
  rename_i eff heff
  split at h
  · simp at h
  rename_i acc hacc
  refine ⟨eff, acc, heff, hacc, ?_⟩
  split at h
  · split at h <;>
      · simp only [Except.ok.injEq] at h
        subst h
        rfl
  · simp only [Except.ok.injEq] at h
    subst h
    rfl

/-- The facade of the index-by-list constructors changes the block count only. -/
theorem create_indexed_fields (X : Externals) (count : Int) (bls ds : List Int)
    (oldtype : MPI_Datatype) (newtype : MPIR_Datatype) (dib : Bool) (r : Int × MPIR_Datatype)
    (h : create_indexed X count bls ds oldtype newtype dib = .ok r) :
    ∃ d, update_type_indexed X count bls ds oldtype newtype dib = .ok d ∧
      r = (MPI_SUCCESS, { d with num_contig_blocks := r.2.num_contig_blocks }) := by
  simp only [create_indexed, bind, Except.bind, pure, Except.pure] at h
  split at h
  · simp at h
  rename_i d hd
  refine ⟨d, hd, ?_⟩
  cases oldtype with
  | builtin hdl e =>
    simp only [if_true] at h
    split at h
    · simp at h
    simp only [Except.ok.injEq] at h
    subst h
    rfl
  | derived hdl od =>
    simp only at h
    split at h
    · simp at h
    split at h
    · split at h
      · simp at h
      simp only [Except.ok.injEq] at h
      subst h
      rfl
    · simp only [Except.ok.injEq] at h
      subst h
      rfl

/-- The facade of the index-by-uniform-block constructors changes the block count only. -/
theorem create_blockindexed_fields (X : Externals) (count blocklength : Int) (ds : List Int)
    (oldtype : MPI_Datatype) (newtype : MPIR_Datatype) (dib : Bool) (r : Int × MPIR_Datatype)
    (h : create_blockindexed X count blocklength ds oldtype newtype dib = .ok r) :
    ∃ d, update_type_blockindexed X count blocklength ds oldtype newtype dib = .ok d ∧
      r = (MPI_SUCCESS, { d with num_contig_blocks := r.2.num_contig_blocks }) := by
  simp only [create_blockindexed, bind, Except.bind, pure, Except.pure] at h
  split at h
  · simp at h
  rename_i d hd
  refine ⟨d, hd, ?_⟩
  cases oldtype with
  | builtin hdl e =>
    simp only [if_true, Except.ok.injEq] at h
    subst h
    rfl
  | derived hdl od =>
    simp only at h
    split at h <;>
      · simp only [Except.ok.injEq] at h
        subst h
        rfl

/-! ## Extent identity, constructor by constructor -/

/-- Line 67 of `update_type_vector`. -/
theorem update_type_vector_extent (X : Externals) (count blocklength stride : Int)
    (oldtype : MPI_Datatype) (newtype : MPIR_Datatype) (sib : Bool) :
    ExtentIdentity (update_type_vector X count blocklength stride oldtype newtype sib) := by
  simp [ExtentIdentity, update_type_vector]

/-- Extent identity of the index-by-list constructors. -/
theorem create_indexed_extent (X : Externals) (count : Int) (bls ds : List Int)
    (oldtype : MPI_Datatype) (newtype : MPIR_Datatype) (dib : Bool) (r : Int × MPIR_Datatype)
    (h : create_indexed X count bls ds oldtype newtype dib = .ok r) : ExtentIdentity r.2 := by
  obtain ⟨d, hd, hr⟩ := create_indexed_fields X count bls ds oldtype newtype dib r h
  obtain ⟨L, i, blk, eff, acc, -, -, -, -, -, -, hshape⟩ :=
    update_type_indexed_shape X count bls ds oldtype newtype d dib hd
  have h1 := congrArg MPIR_Datatype.extent hshape
  have h2 := congrArg MPIR_Datatype.ub hshape
  have h3 := congrArg MPIR_Datatype.lb hshape
  simp only at h1 h2 h3
  rw [hr]
  simp only [ExtentIdentity, h1, h2, h3]

/-- Extent identity of the index-by-uniform-block constructors. -/
theorem create_blockindexed_extent (X : Externals) (count blocklength : Int) (ds : List Int)
    (oldtype : MPI_Datatype) (newtype : MPIR_Datatype) (dib : Bool) (r : Int × MPIR_Datatype)
    (h : create_blockindexed X count blocklength ds oldtype newtype dib = .ok r) :
    ExtentIdentity r.2 := by
  obtain ⟨d, hd, hr⟩ := create_blockindexed_fields X count blocklength ds oldtype newtype dib r h
  obtain ⟨eff, acc, -, -, hshape⟩ :=
    update_type_blockindexed_shape X count blocklength ds oldtype newtype d dib hd
  have h1 := congrArg MPIR_Datatype.extent hshape
  have h2 := congrArg MPIR_Datatype.ub hshape
  have h3 := congrArg MPIR_Datatype.lb hshape
  simp only at h1 h2 h3
  rw [hr]
  simp only [ExtentIdentity, h1, h2, h3]

/-- Extent identity of the element-unit replicate. -/
theorem vector_extent (X : Externals) (count blocklength stride : Int)
    (oldtype : MPI_Datatype) (newtype : MPIR_Datatype) :
    ExtentIdentity (MPIR_Typerep_create_vector X count blocklength stride oldtype newtype).2 := by
  have h := update_type_vector_extent X count blocklength stride oldtype newtype false
  unfold ExtentIdentity at h ⊢
  cases oldtype <;> simp only [MPIR_Typerep_create_vector] <;> split_ifs <;> exact h

/-- Extent identity of the byte-unit replicate. -/
theorem hvector_extent (X : Externals) (count blocklength stride : Int)
    (oldtype : MPI_Datatype) (newtype : MPIR_Datatype) :
    ExtentIdentity (MPIR_Typerep_create_hvector X count blocklength stride oldtype newtype).2 := by
  have h := update_type_vector_extent X count blocklength stride oldtype newtype true
  unfold ExtentIdentity at h ⊢
  cases oldtype <;> simp only [MPIR_Typerep_create_hvector] <;> split_ifs <;> exact h

/-- Extent identity of the contiguous run. -/
theorem contig_extent (X : Externals) (count : Int) (oldtype : MPI_Datatype)
    (newtype : MPIR_Datatype) :
    ExtentIdentity (MPIR_Typerep_create_contig X count oldtype newtype).2 := by
  unfold ExtentIdentity
  cases oldtype with
  | builtin hdl e => rfl
  | derived hdl od =>
    simp only [MPIR_Typerep_create_contig, create_contig_fields]
    split_ifs <;> rfl

/-- Extent identity of resize: `ub` is assigned `lb + extent`. -/
theorem resized_extent (oldtype : MPI_Datatype) (lb extent : Int) (newtype : MPIR_Datatype) :
    ExtentIdentity (MPIR_Typerep_create_resized oldtype lb extent newtype).2 := by
  unfold ExtentIdentity
  cases oldtype <;> simp [MPIR_Typerep_create_resized]

/-! ## Results -/

/-- C1, as stated, fails: resizing the 4-byte basic element `MPI_INT` to `lb = 0`,
`extent = 4` gives a descriptor with `is_contig` set and a block count of 3. -/
theorem contig_sound_fails_for_resized_basic :
    (MPIR_Typerep_create_resized MPI_INT 0 4 zeroed).2.is_contig = true ∧
    (MPIR_Typerep_create_resized MPI_INT 0 4 zeroed).2.num_contig_blocks = 3 ∧
    ¬ ContigSound (MPIR_Typerep_create_resized MPI_INT 0 4 zeroed).2 := by
  unfold ContigSound
  decide

/-- C1 (amended): contiguity fast-path soundness (`is_contig` implies one block and
size equal to extent) holds for every descriptor produced by the element-unit and
byte-unit replicate from a basic element or a base that satisfies it; by the four
index constructors, whenever they return, from any base; by the contiguous run from a
basic element; by the contiguous run from a derived base as far as the block count
goes, and in full when the base satisfies the property and the extent identity and
the contig LB/UB macro yields `lb = base.lb`, `ub = base.ub + (count - 1) * base.extent`;
by resize from a derived base that satisfies it; and by duplicate from a source that
satisfies it. Resize from a basic element keeps `size = extent` when `is_contig` is
set, and its block count is 3. -/
theorem contig_sound_of_constructors :
    (∀ (X : Externals) (count blocklength stride : Int) (oldtype : MPI_Datatype)
        (newtype : MPIR_Datatype), base_satisfies ContigSound oldtype →
        ContigSound (MPIR_Typerep_create_vector X count blocklength stride oldtype newtype).2) ∧
    (∀ (X : Externals) (count blocklength stride : Int) (oldtype : MPI_Datatype)
        (newtype : MPIR_Datatype), base_satisfies ContigSound oldtype →
        ContigSound (MPIR_Typerep_create_hvector X count blocklength stride oldtype newtype).2) ∧
    (∀ (X : Externals) (count : Int) (bls ds : List Int) (oldtype : MPI_Datatype)
        (newtype : MPIR_Datatype) (r : Int × MPIR_Datatype),
        MPIR_Typerep_create_indexed X count bls ds oldtype newtype = .ok r → ContigSound r.2) ∧
    (∀ (X : Externals) (count : Int) (bls ds : List Int) (oldtype : MPI_Datatype)
        (newtype : MPIR_Datatype) (r : Int × MPIR_Datatype),
        MPIR_Typerep_create_hindexed X count bls ds oldtype newtype = .ok r → ContigSound r.2) ∧
    (∀ (X : Externals) (count blocklength : Int) (ds : List Int) (oldtype : MPI_Datatype)
        (newtype : MPIR_Datatype) (r : Int × MPIR_Datatype),
        MPIR_Typerep_create_indexed_block X count blocklength ds oldtype newtype = .ok r →
        ContigSound r.2) ∧
    (∀ (X : Externals) (count blocklength : Int) (ds : List Int) (oldtype : MPI_Datatype)
        (newtype : MPIR_Datatype) (r : Int × MPIR_Datatype),
        MPIR_Typerep_create_hindexed_block X count blocklength ds oldtype newtype = .ok r →
        ContigSound r.2) ∧
    (∀ (X : Externals) (count : Int) (hdl : Nat) (el_sz : Int) (newtype : MPIR_Datatype),
        ContigSound (MPIR_Typerep_create_contig X count (.builtin hdl el_sz) newtype).2) ∧
    (∀ (X : Externals) (count : Int) (hdl : Nat) (old_dtp newtype : MPIR_Datatype),
        (MPIR_Typerep_create_contig X count (.derived hdl old_dtp) newtype).2.is_contig = true →
        (MPIR_Typerep_create_contig X count (.derived hdl old_dtp) newtype).2.num_contig_blocks
          = 1) ∧
    (∀ (X : Externals) (count : Int) (hdl : Nat) (old_dtp newtype : MPIR_Datatype),
        ContigSound old_dtp → ExtentIdentity old_dtp →
        X.MPII_DATATYPE_CONTIG_LB_UB count old_dtp.lb old_dtp.ub old_dtp.extent
          = (old_dtp.lb, old_dtp.ub + old_dtp.extent * (count - 1)) →
        ContigSound (MPIR_Typerep_create_contig X count (.derived hdl old_dtp) newtype).2) ∧
    (∀ (hdl : Nat) (old_dtp : MPIR_Datatype) (lb extent : Int) (newtype : MPIR_Datatype),
        ContigSound old_dtp →
        ContigSound (MPIR_Typerep_create_resized (.derived hdl old_dtp) lb extent newtype).2) ∧
    (∀ (hdl : Nat) (el_sz lb extent : Int) (newtype : MPIR_Datatype),
        (MPIR_Typerep_create_resized (.builtin hdl el_sz) lb extent newtype).2.is_contig = true →
        (MPIR_Typerep_create_resized (.builtin hdl el_sz) lb extent newtype).2.size
          = (MPIR_Typerep_create_resized (.builtin hdl el_sz) lb extent newtype).2.extent ∧
        (MPIR_Typerep_create_resized (.builtin hdl el_sz) lb extent newtype).2.num_contig_blocks
          = 3) ∧
    (∀ (X : Externals) (dtp newtype : MPIR_Datatype), ContigSound dtp →
        ContigSound (MPIR_Typerep_create_dup X dtp newtype).2) :=
  ⟨vector_contig_sound, hvector_contig_sound,
   fun X count bls ds oldtype newtype r h =>
     create_indexed_contig_sound X count bls ds oldtype newtype false r h,
   fun X count bls ds oldtype newtype r h =>
     create_indexed_contig_sound X count bls ds oldtype newtype true r h,
   fun X count blocklength ds oldtype newtype r h =>
     create_blockindexed_contig_sound X count blocklength ds oldtype newtype false r h,
   fun X count blocklength ds oldtype newtype r h =>
     create_blockindexed_contig_sound X count blocklength ds oldtype newtype true r h,
   contig_builtin_contig_sound, contig_derived_one_block, contig_derived_contig_sound,
   resized_derived_contig_sound,
   fun hdl el_sz lb extent newtype hc =>
     ⟨resized_builtin_size_extent hdl el_sz lb extent newtype hc, rfl⟩,
   dup_contig_sound⟩

/-- Instances of C1 (amended) on descriptors that do have `is_contig` set: the
byte-unit replicate of scenario 1, the index-by-list of scenario 3, and a
contiguous run of three one-byte derived types. -/
theorem contig_sound_of_constructors_witness :
    ((MPIR_Typerep_create_hvector ref_externals 3 2 8 MPI_INT zeroed).2.is_contig = true ∧
      ContigSound (MPIR_Typerep_create_hvector ref_externals 3 2 8 MPI_INT zeroed).2) ∧
    (∃ r, MPIR_Typerep_create_indexed ref_externals 3 [2, 0, 3] [0, 7, 2] MPI_INT zeroed = .ok r ∧
      r.2.is_contig = true ∧ ContigSound r.2) ∧
    ((MPIR_Typerep_create_contig ref_externals 3 (.derived 0 byte_type) zeroed).2.is_contig
        = true ∧
      ContigSound (MPIR_Typerep_create_contig ref_externals 3 (.derived 0 byte_type) zeroed).2) :=
  ⟨⟨by decide, contig_sound_of_constructors.2.1 ref_externals 3 2 8 MPI_INT zeroed trivial⟩,
   ⟨_, rfl, by decide,
     contig_sound_of_constructors.2.2.1 ref_externals 3 [2, 0, 3] [0, 7, 2] MPI_INT zeroed _ rfl⟩,
   ⟨by decide,
     contig_sound_of_constructors.2.2.2.2.2.2.2.2.1 ref_externals 3 0 byte_type zeroed
       (fun _ => ⟨rfl, rfl⟩) rfl rfl⟩⟩

/-- C2: the descriptor written by the element-unit and byte-unit replicate, the
contiguous run and resize satisfies `extent = ub - lb` for all arguments and any base;
so does the descriptor of every index constructor that returns; and duplicate yields a
descriptor that satisfies it whenever its source does. -/
theorem extent_identity_of_constructors :
    (∀ (X : Externals) (count blocklength stride : Int) (oldtype : MPI_Datatype)
        (newtype : MPIR_Datatype),
        ExtentIdentity (MPIR_Typerep_create_vector X count blocklength stride oldtype newtype).2) ∧
    (∀ (X : Externals) (count blocklength stride : Int) (oldtype : MPI_Datatype)
        (newtype : MPIR_Datatype),
        ExtentIdentity
          (MPIR_Typerep_create_hvector X count blocklength stride oldtype newtype).2) ∧
    (∀ (X : Externals) (count : Int) (oldtype : MPI_Datatype) (newtype : MPIR_Datatype),
        ExtentIdentity (MPIR_Typerep_create_contig X count oldtype newtype).2) ∧
    (∀ (X : Externals) (count : Int) (bls ds : List Int) (oldtype : MPI_Datatype)
        (newtype : MPIR_Datatype) (r : Int × MPIR_Datatype),
        MPIR_Typerep_create_indexed X count bls ds oldtype newtype = .ok r →
        ExtentIdentity r.2) ∧
    (∀ (X : Externals) (count : Int) (bls ds : List Int) (oldtype : MPI_Datatype)
        (newtype : MPIR_Datatype) (r : Int × MPIR_Datatype),
        MPIR_Typerep_create_hindexed X count bls ds oldtype newtype = .ok r →
        ExtentIdentity r.2) ∧
    (∀ (X : Externals) (count blocklength : Int) (ds : List Int) (oldtype : MPI_Datatype)
        (newtype : MPIR_Datatype) (r : Int × MPIR_Datatype),
        MPIR_Typerep_create_indexed_block X count blocklength ds oldtype newtype = .ok r →
        ExtentIdentity r.2) ∧
    (∀ (X : Externals) (count blocklength : Int) (ds : List Int) (oldtype : MPI_Datatype)
        (newtype : MPIR_Datatype) (r : Int × MPIR_Datatype),
        MPIR_Typerep_create_hindexed_block X count blocklength ds oldtype newtype = .ok r →
        ExtentIdentity r.2) ∧
    (∀ (oldtype : MPI_Datatype) (lb extent : Int) (newtype : MPIR_Datatype),
        ExtentIdentity (MPIR_Typerep_create_resized oldtype lb extent newtype).2) ∧
    (∀ (X : Externals) (dtp newtype : MPIR_Datatype), ExtentIdentity dtp →
        ExtentIdentity (MPIR_Typerep_create_dup X dtp newtype).2) :=
  ⟨vector_extent, hvector_extent, contig_extent,
   fun X count bls ds oldtype newtype r h =>
     create_indexed_extent X count bls ds oldtype newtype false r h,
   fun X count bls ds oldtype newtype r h =>
     create_indexed_extent X count bls ds oldtype newtype true r h,
   fun X count blocklength ds oldtype newtype r h =>
     create_blockindexed_extent X count blocklength ds oldtype newtype false r h,
   fun X count blocklength ds oldtype newtype r h =>
     create_blockindexed_extent X count blocklength ds oldtype newtype true r h,
   resized_extent,
   fun _ _ _ h => h⟩

/-- Instances of C2 on calls that return: an index-by-list and an index-by-uniform-block
over `MPI_INT`, and the duplicate of a one-byte derived type. -/
theorem extent_identity_of_constructors_witness :
    (∃ r, MPIR_Typerep_create_hindexed ref_externals 2 [1, 2] [16, 0] MPI_INT zeroed = .ok r ∧
      r.2.extent = 20 ∧ ExtentIdentity r.2) ∧
    (∃ r, MPIR_Typerep_create_indexed_block ref_externals 3 2 [0, 7, 2] MPI_INT zeroed = .ok r ∧
      r.2.extent = 36 ∧ ExtentIdentity r.2) ∧
    ExtentIdentity (MPIR_Typerep_create_dup ref_externals byte_type zeroed).2 :=
  ⟨⟨_, rfl, by decide,
     extent_identity_of_constructors.2.2.2.2.1 ref_externals 2 [1, 2] [16, 0] MPI_INT zeroed _ rfl⟩,
   ⟨_, rfl, by decide,
     extent_identity_of_constructors.2.2.2.2.2.1 ref_externals 3 2 [0, 7, 2] MPI_INT zeroed _
       rfl⟩,
   extent_identity_of_constructors.2.2.2.2.2.2.2.2 ref_externals byte_type zeroed rfl⟩

/-- A product of two `int` operands that is representable in an `int` is exact. -/
theorem int_wrap_of_fits (x : Int) (h : fits_int x) : int_wrap x = x := by
  unfold fits_int at h
  unfold int_wrap
  omega

/-- The replicate size and element count are the exact products whenever
`count * blocklength` itself is representable in an `int`. -/
theorem vector_size_exact_of_fits (X : Externals) (count blocklength stride : Int)
    (oldtype : MPI_Datatype) (newtype : MPIR_Datatype) (sib : Bool)
    (h : fits_int (count * blocklength)) :
    (update_type_vector X count blocklength stride oldtype newtype sib).size
      = count * blocklength * old_size oldtype ∧
    (update_type_vector X count blocklength stride oldtype newtype sib).n_builtin_elements
      = match oldtype with
        | .builtin _ _ => count * blocklength
        | .derived _ old_dtp => count * blocklength * old_dtp.n_builtin_elements := by
  cases oldtype <;>
    simp [update_type_vector, update_type_vector_branch, old_size, int_wrap_of_fits _ h]

/-- C3 fails on the code: with `count = blocklength = 65536` over a one-byte derived
type, `count * blocklength * base.size = 2^32` is representable in `MPI_Aint`, yet the
element-unit and byte-unit replicate write size 0 and element count 0, because
`count * blocklength` is evaluated at `int` width before it is widened; over the
one-byte basic element `MPI_BYTE` the size is `2^32` and the element count is 0. -/
theorem vector_size_wraps_at_int_width :
    fits_int 65536 ∧ fits_Aint (65536 * 65536 * byte_type.size) ∧
    65536 * 65536 * byte_type.size = 4294967296 ∧
    (∀ (X : Externals) (newtype : MPIR_Datatype),
      (MPIR_Typerep_create_vector X 65536 65536 1 (.derived 0 byte_type) newtype).2.size = 0 ∧
      (MPIR_Typerep_create_vector X 65536 65536 1
        (.derived 0 byte_type) newtype).2.n_builtin_elements = 0 ∧
      (MPIR_Typerep_create_hvector X 65536 65536 1 (.derived 0 byte_type) newtype).2.size = 0 ∧
      (MPIR_Typerep_create_hvector X 65536 65536 1
        (.derived 0 byte_type) newtype).2.n_builtin_elements = 0 ∧
      (MPIR_Typerep_create_vector X 65536 65536 1 MPI_BYTE newtype).2.size = 4294967296 ∧
      (MPIR_Typerep_create_vector X 65536 65536 1 MPI_BYTE newtype).2.n_builtin_elements = 0) := by
  refine ⟨by unfold fits_int; decide, by unfold fits_Aint; decide, by decide, ?_⟩
  intro X newtype
  have hw : int_wrap 4294967296 = 0 := by decide
  refine ⟨?_, ?_, ?_, ?_, ?_, ?_⟩ <;>
    simp only [MPIR_Typerep_create_vector, MPIR_Typerep_create_hvector, update_type_vector,
      update_type_vector_branch, MPI_BYTE, byte_type, MPIR_Datatype_is_contig] <;>
    split_ifs <;> simp [hw]

/-- C4: resize of a derived base keeps the base's size, element count, element size,
basic type, alignment and true bounds and sets `lb`, `extent` to the supplied values and
`ub` to `lb + extent`; resize of a basic element of size `e` gives size `e`, true
bounds `[0, e)`, one element and the same overridden `lb`, `ub`, `extent`. -/
theorem resized_keeps_payload_and_true_bounds :
    (∀ (hdl : Nat) (T : MPIR_Datatype) (lb extent : Int) (newtype : MPIR_Datatype),
      (MPIR_Typerep_create_resized (.derived hdl T) lb extent newtype).2.size = T.size ∧
      (MPIR_Typerep_create_resized (.derived hdl T) lb extent newtype).2.n_builtin_elements
        = T.n_builtin_elements ∧
      (MPIR_Typerep_create_resized (.derived hdl T) lb extent newtype).2.builtin_element_size
        = T.builtin_element_size ∧
      (MPIR_Typerep_create_resized (.derived hdl T) lb extent newtype).2.basic_type
        = T.basic_type ∧
      (MPIR_Typerep_create_resized (.derived hdl T) lb extent newtype).2.alignsize
        = T.alignsize ∧
      (MPIR_Typerep_create_resized (.derived hdl T) lb extent newtype).2.true_lb = T.true_lb ∧
      (MPIR_Typerep_create_resized (.derived hdl T) lb extent newtype).2.true_ub = T.true_ub ∧
      (MPIR_Typerep_create_resized (.derived hdl T) lb extent newtype).2.lb = lb ∧
      (MPIR_Typerep_create_resized (.derived hdl T) lb extent newtype).2.extent = extent ∧
      (MPIR_Typerep_create_resized (.derived hdl T) lb extent newtype).2.ub = lb + extent) ∧
    (∀ (hdl : Nat) (e lb extent : Int) (newtype : MPIR_Datatype),
      (MPIR_Typerep_create_resized (.builtin hdl e) lb extent newtype).2.size = e ∧
      (MPIR_Typerep_create_resized (.builtin hdl e) lb extent newtype).2.true_lb = 0 ∧
      (MPIR_Typerep_create_resized (.builtin hdl e) lb extent newtype).2.true_ub = e ∧
      (MPIR_Typerep_create_resized (.builtin hdl e) lb extent newtype).2.n_builtin_elements = 1 ∧
      (MPIR_Typerep_create_resized (.builtin hdl e) lb extent newtype).2.lb = lb ∧
      (MPIR_Typerep_create_resized (.builtin hdl e) lb extent newtype).2.extent = extent ∧
      (MPIR_Typerep_create_resized (.builtin hdl e) lb extent newtype).2.ub = lb + extent) :=
  ⟨fun _ _ _ _ _ => ⟨rfl, rfl, rfl, rfl, rfl, rfl, rfl, rfl, rfl, rfl⟩,
   fun _ _ _ _ _ => ⟨rfl, rfl, rfl, rfl, rfl, rfl, rfl⟩⟩

/-- C5: the descriptor from resize has `is_contig` set if and only if the supplied
extent equals the base's size and the base is contiguous; so resizing a contiguous
base to an extent different from its size clears `is_contig`, whatever `lb` is. -/
theorem resized_is_contig_iff (oldtype : MPI_Datatype) (lb extent : Int)
    (newtype : MPIR_Datatype) :
    ((MPIR_Typerep_create_resized oldtype lb extent newtype).2.is_contig = true ↔
      extent = old_size oldtype ∧ MPIR_Datatype_is_contig oldtype = true) ∧
    (extent ≠ old_size oldtype →
      (MPIR_Typerep_create_resized oldtype lb extent newtype).2.is_contig = false) := by
  cases oldtype with
  | builtin hdl e =>
    simp only [MPIR_Typerep_create_resized, old_size, MPIR_Datatype_is_contig]
    constructor
    · split_ifs with h <;> simp [h]
    · intro h
      simp [h]
  | derived hdl T =>
    simp only [MPIR_Typerep_create_resized, old_size, MPIR_Datatype_is_contig]
    constructor
    · split_ifs with h <;> simp [h]
    · intro h
      simp [h]

/-- C6: duplicate produces a descriptor whose `is_contig`, `size`, `extent`, `lb`, `ub`,
`true_lb`, `true_ub`, `alignsize`, `n_builtin_elements`, `builtin_element_size`,
`basic_type` and `num_contig_blocks` all equal the source's. -/
theorem dup_copies_every_attribute (X : Externals) (dtp newtype : MPIR_Datatype) :
    (MPIR_Typerep_create_dup X dtp newtype).2.is_contig = dtp.is_contig ∧
    (MPIR_Typerep_create_dup X dtp newtype).2.size = dtp.size ∧
    (MPIR_Typerep_create_dup X dtp newtype).2.extent = dtp.extent ∧
    (MPIR_Typerep_create_dup X dtp newtype).2.lb = dtp.lb ∧
    (MPIR_Typerep_create_dup X dtp newtype).2.ub = dtp.ub ∧
    (MPIR_Typerep_create_dup X dtp newtype).2.true_lb = dtp.true_lb ∧
    (MPIR_Typerep_create_dup X dtp newtype).2.true_ub = dtp.true_ub ∧
    (MPIR_Typerep_create_dup X dtp newtype).2.alignsize = dtp.alignsize ∧
    (MPIR_Typerep_create_dup X dtp newtype).2.n_builtin_elements = dtp.n_builtin_elements ∧
    (MPIR_Typerep_create_dup X dtp newtype).2.builtin_element_size = dtp.builtin_element_size ∧
    (MPIR_Typerep_create_dup X dtp newtype).2.basic_type = dtp.basic_type ∧
    (MPIR_Typerep_create_dup X dtp newtype).2.num_contig_blocks = dtp.num_contig_blocks :=
  ⟨rfl, rfl, rfl, rfl, rfl, rfl, rfl, rfl, rfl, rfl, rfl, rfl⟩

/-- The facade of the replicate constructors leaves `is_contig`, `size` and `extent` as
`update_type_vector` wrote them. -/
theorem vector_facade_fields (X : Externals) (count blocklength stride : Int)
    (oldtype : MPI_Datatype) (newtype : MPIR_Datatype) :
    (MPIR_Typerep_create_vector X count blocklength stride oldtype newtype).2 =
      { update_type_vector X count blocklength stride oldtype newtype false with
        num_contig_blocks :=
          (MPIR_Typerep_create_vector X count blocklength stride oldtype newtype).2.num_contig_blocks }
    ∧
    (MPIR_Typerep_create_hvector X count blocklength stride oldtype newtype).2 =
      { update_type_vector X count blocklength stride oldtype newtype true with
        num_contig_blocks :=
          (MPIR_Typerep_create_hvector X count blocklength stride oldtype newtype).2.num_contig_blocks } := by
  cases oldtype <;> constructor <;>
    simp only [MPIR_Typerep_create_vector, MPIR_Typerep_create_hvector] <;> split_ifs <;> rfl

/-- The contiguity test at lines 73-78 of `update_type_vector`. -/
theorem update_type_vector_is_contig_iff (X : Externals) (count blocklength stride : Int)
    (oldtype : MPI_Datatype) (newtype : MPIR_Datatype) (sib : Bool) :
    (update_type_vector X count blocklength stride oldtype newtype sib).is_contig = true ↔
      MPIR_Datatype_is_contig oldtype = true ∧
      (update_type_vector X count blocklength stride oldtype newtype sib).size
        = (update_type_vector X count blocklength stride oldtype newtype sib).extent ∧
      (if sib then stride else stride * old_extent oldtype) = blocklength * old_size oldtype := by
  cases oldtype <;>
    simp only [update_type_vector, update_type_vector_branch, MPIR_Datatype_is_contig,
      old_extent, old_size] <;>
    split_ifs <;> simp_all <;>
    (intro hc ha hb
     rename_i h
     rw [h ha hb] at hc
     cases hc)

/-- C7: for the element-unit and the byte-unit replicate, `is_contig` is set if and
only if the base is contiguous, the new size equals the new extent, and the effective
byte stride (`stride * base.extent` for element units, `stride` for byte units) equals
`blocklength * base.size`. -/
theorem vector_is_contig_iff (X : Externals) (count blocklength stride : Int)
    (oldtype : MPI_Datatype) (newtype : MPIR_Datatype) :
    ((MPIR_Typerep_create_vector X count blocklength stride oldtype newtype).2.is_contig = true ↔
      MPIR_Datatype_is_contig oldtype = true ∧
      (MPIR_Typerep_create_vector X count blocklength stride oldtype newtype).2.size
        = (MPIR_Typerep_create_vector X count blocklength stride oldtype newtype).2.extent ∧
      stride * old_extent oldtype = blocklength * old_size oldtype) ∧
    ((MPIR_Typerep_create_hvector X count blocklength stride oldtype newtype).2.is_contig = true ↔
      MPIR_Datatype_is_contig oldtype = true ∧
      (MPIR_Typerep_create_hvector X count blocklength stride oldtype newtype).2.size
        = (MPIR_Typerep_create_hvector X count blocklength stride oldtype newtype).2.extent ∧
      stride = blocklength * old_size oldtype) := by
  obtain ⟨hv, hh⟩ := vector_facade_fields X count blocklength stride oldtype newtype
  have h1 := update_type_vector_is_contig_iff X count blocklength stride oldtype newtype false
  have h2 := update_type_vector_is_contig_iff X count blocklength stride oldtype newtype true
  constructor
  · rw [hv]
    simpa using h1
  · rw [hh]
    simpa using h2

/-- C8: the element-unit replicate with stride `s` writes the same return code and the
same descriptor, field by field, as the byte-unit replicate with stride
`s * extent(T)`, where `extent(T)` is the element size when `T` is basic. -/
theorem vector_eq_hvector_scaled (X : Externals) (count blocklength s : Int)
    (T : MPI_Datatype) (newtype : MPIR_Datatype) :
    MPIR_Typerep_create_vector X count blocklength s T newtype =
      MPIR_Typerep_create_hvector X count blocklength (s * old_extent T) T newtype := by
  cases T <;>
    simp only [MPIR_Typerep_create_vector, MPIR_Typerep_create_hvector, update_type_vector,
      update_type_vector_branch, old_extent] <;>
    simp

/-- The reference instance follows the vector LB/UB rule for non-negative stride and
extent. -/
theorem ref_externals_vector_rule : VectorRuleNonneg ref_externals := by
  intro cnt stride blklen old_lb old_ub old_ext hc hb hs he
  have h1 : 0 ≤ old_ext * (blklen - 1) := mul_nonneg he (by omega)
  have h2 : 0 ≤ stride * (cnt - 1) := mul_nonneg hs (by omega)
  have hc0 : cnt ≠ 0 := by omega
  have hb0 : blklen ≠ 0 := by omega
  simp only [ref_externals, ref_VECTOR_LB_UB, ref_BLOCK_LB_UB, hc0, hb0, or_self, if_false]
  rw [Prod.mk.injEq]
  constructor
  · simp only [min_def]
    split_ifs <;> linarith
  · simp only [max_def]
    split_ifs <;> linarith

/-- C9: under the vector LB/UB rule for non-negative stride and extent, the byte-unit
replicate of a basic element of size `e >= 1` with `c >= 1`, `b >= 1` and stride exactly
`b * e` has `size = c*b*e`, `lb = true_lb = 0`, `ub = true_ub = extent = c*b*e`,
`is_contig` set and one block. -/
theorem hvector_abutting_blocks_collapse (X : Externals) (hrule : VectorRuleNonneg X)
    (hdl : Nat) (e c b : Int) (newtype : MPIR_Datatype)
    (he : 1 ≤ e) (hc : 1 ≤ c) (hb : 1 ≤ b) :
    (MPIR_Typerep_create_hvector X c b (b * e) (.builtin hdl e) newtype).2.size = c * b * e ∧
    (MPIR_Typerep_create_hvector X c b (b * e) (.builtin hdl e) newtype).2.lb = 0 ∧
    (MPIR_Typerep_create_hvector X c b (b * e) (.builtin hdl e) newtype).2.true_lb = 0 ∧
    (MPIR_Typerep_create_hvector X c b (b * e) (.builtin hdl e) newtype).2.ub = c * b * e ∧
    (MPIR_Typerep_create_hvector X c b (b * e) (.builtin hdl e) newtype).2.true_ub = c * b * e ∧
    (MPIR_Typerep_create_hvector X c b (b * e) (.builtin hdl e) newtype).2.extent = c * b * e ∧
    (MPIR_Typerep_create_hvector X c b (b * e) (.builtin hdl e) newtype).2.is_contig = true ∧
    (MPIR_Typerep_create_hvector X c b (b * e) (.builtin hdl e) newtype).2.num_contig_blocks
      = 1 := by
  have hs : 0 ≤ b * e := mul_nonneg (by omega) (by omega)
  have hr := hrule c (b * e) b 0 e e hc hb hs (by omega)
  have hub : e + (b - 1) * e + (c - 1) * (b * e) = c * b * e := by ring
  simp only [MPIR_Typerep_create_hvector, update_type_vector, update_type_vector_branch,
    if_true, hr, hub, mul_comm e b, true_and, and_true, sub_zero, zero_add, add_zero, sub_self]

/-- C9 at the inputs of scenario 1: `e = 4`, `c = 3`, `b = 2`, stride 8 gives size 24 and
extent 24. -/
theorem hvector_abutting_blocks_collapse_witness :
    VectorRuleNonneg ref_externals ∧
    (MPIR_Typerep_create_hvector ref_externals 3 2 (2 * 4) (.builtin 1275069445 4) zeroed).2.size
      = 3 * 2 * 4 ∧
    (MPIR_Typerep_create_hvector ref_externals 3 2 8 MPI_INT zeroed).2.size = 24 ∧
    (MPIR_Typerep_create_hvector ref_externals 3 2 8 MPI_INT zeroed).2.extent = 24 :=
  ⟨ref_externals_vector_rule,
   (hvector_abutting_blocks_collapse ref_externals ref_externals_vector_rule 1275069445 4 3 2
     zeroed (by decide) (by decide) (by decide)).1,
   by decide, by decide⟩

/-- C10: under the vector LB/UB rule for non-negative stride and extent, the byte-unit
replicate of a basic element of size `e >= 1` with `c >= 2`, `b >= 1` and a stride
greater than `b * e` has `size = c*b*e`, `extent = (c-1)*stride + b*e`, `is_contig`
clear and `c` blocks. -/
theorem hvector_gapped_blocks_do_not_collapse (X : Externals) (hrule : VectorRuleNonneg X)
    (hdl : Nat) (e c b stride : Int) (newtype : MPIR_Datatype)
    (he : 1 ≤ e) (hc : 2 ≤ c) (hb : 1 ≤ b) (hs : b * e < stride) :
    (MPIR_Typerep_create_hvector X c b stride (.builtin hdl e) newtype).2.size = c * b * e ∧
    (MPIR_Typerep_create_hvector X c b stride (.builtin hdl e) newtype).2.extent
      = (c - 1) * stride + b * e ∧
    (MPIR_Typerep_create_hvector X c b stride (.builtin hdl e) newtype).2.is_contig = false ∧
    (MPIR_Typerep_create_hvector X c b stride (.builtin hdl e) newtype).2.num_contig_blocks
      = c := by
  have hbe : 0 ≤ b * e := mul_nonneg (by omega) (by omega)
  have hr := hrule c stride b 0 e e (by omega) hb (by omega) (by omega)
  have hne : ¬ stride = b * e := by omega
  have hne2 : ¬ stride = e * b := by rw [mul_comm]; exact hne
  have hext : e + (b - 1) * e + (c - 1) * stride - 0 = (c - 1) * stride + b * e := by ring
  simp only [MPIR_Typerep_create_hvector, update_type_vector, update_type_vector_branch,
    if_true, hr, hne, hne2, hext, true_and, and_true, false_and, and_false, if_false]

/-- C10 at the inputs of scenario 2: `e = 4`, `c = 3`, `b = 2`, stride 16 gives size 24,
extent 40 and 3 blocks. -/
theorem hvector_gapped_blocks_do_not_collapse_witness :
    VectorRuleNonneg ref_externals ∧
    (MPIR_Typerep_create_hvector ref_externals 3 2 16 (.builtin 1275069445 4) zeroed).2.extent
      = (3 - 1) * 16 + 2 * 4 ∧
    (MPIR_Typerep_create_hvector ref_externals 3 2 16 MPI_INT zeroed).2.size = 24 ∧
    (MPIR_Typerep_create_hvector ref_externals 3 2 16 MPI_INT zeroed).2.extent = 40 ∧
    (MPIR_Typerep_create_hvector ref_externals 3 2 16 MPI_INT zeroed).2.is_contig = false ∧
    (MPIR_Typerep_create_hvector ref_externals 3 2 16 MPI_INT zeroed).2.num_contig_blocks = 3 :=
  ⟨ref_externals_vector_rule,
   (hvector_gapped_blocks_do_not_collapse ref_externals ref_externals_vector_rule 1275069445 4 3 2
     16 zeroed (by decide) (by decide) (by decide) (by decide)).2.1,
   by decide, by decide, by decide, by decide⟩

/-! ## Loops over arrays that hold `count` entries -/

theorem read_at_of_lt (a : List Int) (i : Nat) (h : i < a.length) :
    read_at a i = .ok (a.getD i 0) := by
  simp [read_at, List.getElem?_eq_getElem h]

theorem eff_disp_at_of_lt (ds : List Int) (dib : Bool) (ext : Int) (i : Nat)
    (h : i < ds.length) :
    eff_disp_at ds dib ext i = .ok (if dib then ds.getD i 0 else ds.getD i 0 * ext) := by
  simp [eff_disp_at, read_at_of_lt ds i h]

theorem foldlM_ok_of_pure {α β : Type} (body : α → β → Except Fault α) (g : α → β → α)
    (l : List β) (init : α) (h : ∀ acc x, x ∈ l → body acc x = .ok (g acc x)) :
    l.foldlM body init = .ok (l.foldl g init) := by
  induction l generalizing init with
  | nil => rfl
  | cons x xs ih =>
    simp only [List.foldlM_cons, List.foldl_cons, h init x (List.mem_cons_self x xs), bind,
      Except.bind]
    exact ih _ (fun acc y hy => h acc y (List.mem_cons_of_mem x hy))

theorem for_loop_ok_of_pure {α : Type} (first : Nat) (count : Int)
    (body : α → Nat → Except Fault α) (g : α → Nat → α) (init : α)
    (h : ∀ acc k, first ≤ k → (k : Int) < count → body acc k = .ok (g acc k)) :
    for_loop first count body init
      = .ok ((List.range' first (count.toNat - first)).foldl g init) := by
  unfold for_loop
  apply foldlM_ok_of_pure
  intro acc k hk
  rw [List.mem_range'_1] at hk
  exact h acc k hk.1 (by omega)

theorem range_map_getD (bls ds : List Int) (a m : Nat) (h1 : a + m ≤ bls.length)
    (h2 : a + m ≤ ds.length) :
    (List.range' a m).map (fun k => (bls.getD k 0, ds.getD k 0))
      = ((bls.zip ds).drop a).take m := by
  induction m generalizing a with
  | zero => simp
  | succ m ih =>
    have hz : a < (bls.zip ds).length := by simp [List.length_zip]; omega
    rw [List.range'_succ, List.map_cons, List.drop_eq_getElem_cons hz, List.take_succ_cons,
      ih (a + 1) (by omega) (by omega)]
    congr 1
    have ha : a < bls.length := by omega
    have hb : a < ds.length := by omega
    simp [List.getElem_zip, List.getElem?_eq_getElem ha, List.getElem?_eq_getElem hb]

theorem skip_zero_blocklengths_spec (bls : List Int) (rem i : Nat) (h : i + rem ≤ bls.length) :
    ∃ j, skip_zero_blocklengths bls rem i = .ok j ∧ i ≤ j ∧ j ≤ i + rem ∧
      (∀ k, i ≤ k → k < j → bls.getD k 0 = 0) ∧ (j < i + rem → bls.getD j 0 ≠ 0) := by
  induction rem generalizing i with
  | zero => exact ⟨i, rfl, le_refl _, le_refl _, fun k h1 h2 => by omega, fun h => by omega⟩
  | succ rem ih =>
    simp only [skip_zero_blocklengths, read_at_of_lt bls i (by omega)]
    by_cases hz : bls.getD i 0 = 0
    · simp only [hz, if_true]
      obtain ⟨j, hj, h1, h2, h3, h4⟩ := ih (i + 1) (by omega)
      refine ⟨j, hj, by omega, by omega, ?_, fun hlt => h4 (by omega)⟩
      intro k hk1 hk2
      by_cases hki : k = i
      · rw [hki]; exact hz
      · exact h3 k (by omega) hk2
    · simp only [hz, if_false]
      exact ⟨i, rfl, le_refl _, by omega, fun k h1 h2 => by omega, fun _ => hz⟩

/-! ## True bounds, contiguous run and resize block count -/

/-- The bounds and true bounds that the builtin/derived branch of `update_type_indexed`
sets. -/
theorem update_type_indexed_branch_bounds (oldtype : MPI_Datatype) (newtype : MPIR_Datatype)
    (L : IndexedLocals) (h : update_type_indexed_branch oldtype newtype = .ok L) :
    L.old_lb = old_lb oldtype ∧ L.old_ub = old_ub oldtype ∧
      TrueBoundOffsets oldtype
        { newtype with
          lb := 0
          ub := 0
          true_lb := L.old_true_lb - L.old_lb
          true_ub := L.old_true_ub - L.old_ub } ∧
      L.el_ct = old_element_count oldtype := by
  cases oldtype with
  | builtin hd e =>
    simp only [update_type_indexed_branch, Except.ok.injEq] at h
    subst h
    simp [old_lb, old_ub, TrueBoundOffsets, old_element_count]
  | derived hd d =>
    simp only [update_type_indexed_branch] at h
    split_ifs at h
    simp only [Except.ok.injEq] at h
    subst h
    simp [old_lb, old_ub, TrueBoundOffsets, old_element_count]

/-- True-bound offsets of the replicate helper. -/
theorem update_type_vector_true_bounds (X : Externals) (count blocklength stride : Int)
    (oldtype : MPI_Datatype) (newtype : MPIR_Datatype) (sib : Bool) :
    TrueBoundOffsets oldtype
      (update_type_vector X count blocklength stride oldtype newtype sib) := by
  cases oldtype <;>
    simp [TrueBoundOffsets, update_type_vector, update_type_vector_branch]

/-- True-bound offsets of the index-by-list constructors. -/
theorem create_indexed_true_bounds (X : Externals) (count : Int) (bls ds : List Int)
    (oldtype : MPI_Datatype) (newtype : MPIR_Datatype) (dib : Bool) (r : Int × MPIR_Datatype)
    (h : create_indexed X count bls ds oldtype newtype dib = .ok r) :
    TrueBoundOffsets oldtype r.2 := by
  obtain ⟨d, hd, hr⟩ := create_indexed_fields X count bls ds oldtype newtype dib r h
  obtain ⟨L, i, blk, eff, acc, hL, -, -, -, -, -, hshape⟩ :=
    update_type_indexed_shape X count bls ds oldtype newtype d dib hd
  obtain ⟨-, -, hoff, -⟩ := update_type_indexed_branch_bounds oldtype newtype L hL
  have h1 := congrArg MPIR_Datatype.true_lb hshape
  have h2 := congrArg MPIR_Datatype.true_ub hshape
  have h3 := congrArg MPIR_Datatype.lb hshape
  have h4 := congrArg MPIR_Datatype.ub hshape
  simp only at h1 h2 h3 h4
  rw [hr]
  cases oldtype <;> simp only [TrueBoundOffsets, h1, h2, h3, h4] at hoff ⊢ <;>
    constructor <;> linarith [hoff.1, hoff.2]

/-- True-bound offsets of the index-by-uniform-block constructors. -/
theorem create_blockindexed_true_bounds (X : Externals) (count blocklength : Int)
    (ds : List Int) (oldtype : MPI_Datatype) (newtype : MPIR_Datatype) (dib : Bool)
    (r : Int × MPIR_Datatype)
    (h : create_blockindexed X count blocklength ds oldtype newtype dib = .ok r) :
    TrueBoundOffsets oldtype r.2 := by
  obtain ⟨d, hd, hr⟩ := create_blockindexed_fields X count blocklength ds oldtype newtype dib r h
  obtain ⟨eff, acc, -, -, hshape⟩ :=
    update_type_blockindexed_shape X count blocklength ds oldtype newtype d dib hd
  have h1 := congrArg MPIR_Datatype.true_lb hshape
  have h2 := congrArg MPIR_Datatype.true_ub hshape
  have h3 := congrArg MPIR_Datatype.lb hshape
  have h4 := congrArg MPIR_Datatype.ub hshape
  simp only at h1 h2 h3 h4
  rw [hr]
  cases oldtype <;>
    simp only [TrueBoundOffsets, h1, h2, h3, h4, update_type_blockindexed_branch] <;>
    constructor <;> ring

/-- C12: for the element-unit and byte-unit replicate, the contiguous run and the four
index constructors (whenever they return), over a derived base `T` the result has
`true_lb - lb = T.true_lb - T.lb` and `true_ub - ub = T.true_ub - T.ub`, and over a
basic element `true_lb = lb` and `true_ub = ub`. -/
theorem true_bounds_carry_base_offsets :
    (∀ (X : Externals) (count blocklength stride : Int) (oldtype : MPI_Datatype)
        (newtype : MPIR_Datatype),
        TrueBoundOffsets oldtype
          (MPIR_Typerep_create_vector X count blocklength stride oldtype newtype).2) ∧
    (∀ (X : Externals) (count blocklength stride : Int) (oldtype : MPI_Datatype)
        (newtype : MPIR_Datatype),
        TrueBoundOffsets oldtype
          (MPIR_Typerep_create_hvector X count blocklength stride oldtype newtype).2) ∧
    (∀ (X : Externals) (count : Int) (oldtype : MPI_Datatype) (newtype : MPIR_Datatype),
        TrueBoundOffsets oldtype (MPIR_Typerep_create_contig X count oldtype newtype).2) ∧
    (∀ (X : Externals) (count : Int) (bls ds : List Int) (oldtype : MPI_Datatype)
        (newtype : MPIR_Datatype) (r : Int × MPIR_Datatype),
        MPIR_Typerep_create_indexed X count bls ds oldtype newtype = .ok r →
        TrueBoundOffsets oldtype r.2) ∧
    (∀ (X : Externals) (count : Int) (bls ds : List Int) (oldtype : MPI_Datatype)
        (newtype : MPIR_Datatype) (r : Int × MPIR_Datatype),
        MPIR_Typerep_create_hindexed X count bls ds oldtype newtype = .ok r →
        TrueBoundOffsets oldtype r.2) ∧
    (∀ (X : Externals) (count blocklength : Int) (ds : List Int) (oldtype : MPI_Datatype)
        (newtype : MPIR_Datatype) (r : Int × MPIR_Datatype),
        MPIR_Typerep_create_indexed_block X count blocklength ds oldtype newtype = .ok r →
        TrueBoundOffsets oldtype r.2) ∧
    (∀ (X : Externals) (count blocklength : Int) (ds : List Int) (oldtype : MPI_Datatype)
        (newtype : MPIR_Datatype) (r : Int × MPIR_Datatype),
        MPIR_Typerep_create_hindexed_block X count blocklength ds oldtype newtype = .ok r →
        TrueBoundOffsets oldtype r.2) := by
  refine ⟨?_, ?_, ?_, ?_, ?_, ?_, ?_⟩
  · intro X count blocklength stride oldtype newtype
    rw [(vector_facade_fields X count blocklength stride oldtype newtype).1]
    have h := update_type_vector_true_bounds X count blocklength stride oldtype newtype false
    cases oldtype <;> exact h
  · intro X count blocklength stride oldtype newtype
    rw [(vector_facade_fields X count blocklength stride oldtype newtype).2]
    have h := update_type_vector_true_bounds X count blocklength stride oldtype newtype true
    cases oldtype <;> exact h
  · intro X count oldtype newtype
    cases oldtype with
    | builtin hdl e => simp [TrueBoundOffsets, MPIR_Typerep_create_contig, create_contig_fields]
    | derived hdl d =>
      simp only [TrueBoundOffsets, MPIR_Typerep_create_contig, create_contig_fields]
      split_ifs <;> simp
  · exact fun X count bls ds oldtype newtype r h =>
      create_indexed_true_bounds X count bls ds oldtype newtype false r h
  · exact fun X count bls ds oldtype newtype r h =>
      create_indexed_true_bounds X count bls ds oldtype newtype true r h
  · exact fun X count blocklength ds oldtype newtype r h =>
      create_blockindexed_true_bounds X count blocklength ds oldtype newtype false r h
  · exact fun X count blocklength ds oldtype newtype r h =>
      create_blockindexed_true_bounds X count blocklength ds oldtype newtype true r h

/-- Instances of C12 on calls that return: an index-by-list over `MPI_INT` and an
element-unit replicate over a derived type whose true bounds differ from its bounds. -/
theorem true_bounds_carry_base_offsets_witness :
    (∃ r, MPIR_Typerep_create_indexed ref_externals 3 [2, 0, 3] [0, 7, 2] MPI_INT zeroed = .ok r ∧
      r.2.true_lb = 0 ∧ r.2.true_ub = 20 ∧ TrueBoundOffsets MPI_INT r.2) ∧
    TrueBoundOffsets
      (.derived 0 (MPIR_Typerep_create_resized MPI_INT (-4) 16 zeroed).2)
      (MPIR_Typerep_create_vector ref_externals 2 1 1
        (.derived 0 (MPIR_Typerep_create_resized MPI_INT (-4) 16 zeroed).2) zeroed).2 :=
  ⟨⟨_, rfl, by decide, by decide,
     true_bounds_carry_base_offsets.2.2.2.1 ref_externals 3 [2, 0, 3] [0, 7, 2] MPI_INT zeroed _
       rfl⟩,
   true_bounds_carry_base_offsets.1 ref_externals 2 1 1 _ zeroed⟩

/-- C14: the contiguous run of a basic element of size `e` has `is_contig` set, one
block, `lb = true_lb = 0` and `ub = true_ub = size = extent = count * e`; over a derived
base its `is_contig` is the base's, and its block count is 1 when the base is contiguous
and `count * base.num_contig_blocks` otherwise. -/
theorem contig_run_collapse :
    (∀ (X : Externals) (count : Int) (hdl : Nat) (e : Int) (newtype : MPIR_Datatype),
      (MPIR_Typerep_create_contig X count (.builtin hdl e) newtype).2.is_contig = true ∧
      (MPIR_Typerep_create_contig X count (.builtin hdl e) newtype).2.num_contig_blocks = 1 ∧
      (MPIR_Typerep_create_contig X count (.builtin hdl e) newtype).2.lb = 0 ∧
      (MPIR_Typerep_create_contig X count (.builtin hdl e) newtype).2.true_lb = 0 ∧
      (MPIR_Typerep_create_contig X count (.builtin hdl e) newtype).2.ub = count * e ∧
      (MPIR_Typerep_create_contig X count (.builtin hdl e) newtype).2.true_ub = count * e ∧
      (MPIR_Typerep_create_contig X count (.builtin hdl e) newtype).2.size = count * e ∧
      (MPIR_Typerep_create_contig X count (.builtin hdl e) newtype).2.extent = count * e) ∧
    (∀ (X : Externals) (count : Int) (hdl : Nat) (T newtype : MPIR_Datatype),
      (MPIR_Typerep_create_contig X count (.derived hdl T) newtype).2.is_contig = T.is_contig ∧
      (MPIR_Typerep_create_contig X count (.derived hdl T) newtype).2.num_contig_blocks
        = if T.is_contig = true then 1 else count * T.num_contig_blocks) := by
  constructor
  · intro X count hdl e newtype
    simp [MPIR_Typerep_create_contig, create_contig_fields]
  · intro X count hdl T newtype
    simp only [MPIR_Typerep_create_contig, create_contig_fields, MPIR_Datatype_is_contig]
    split_ifs <;> simp

/-- C19: resize sets the block count to 3 when the base is a basic element and to the
base's block count when the base is derived, whatever `lb` and `extent` are. -/
theorem resized_block_count :
    (∀ (hdl : Nat) (e lb extent : Int) (newtype : MPIR_Datatype),
      (MPIR_Typerep_create_resized (.builtin hdl e) lb extent newtype).2.num_contig_blocks = 3) ∧
    (∀ (hdl : Nat) (T : MPIR_Datatype) (lb extent : Int) (newtype : MPIR_Datatype),
      (MPIR_Typerep_create_resized (.derived hdl T) lb extent newtype).2.num_contig_blocks
        = T.num_contig_blocks) :=
  ⟨fun _ _ _ _ _ => rfl, fun _ _ _ _ _ => rfl⟩

/-! ## Evaluation of the index-by-list constructors -/

/-- The locals that the builtin/derived branch of `update_type_indexed` sets when the
element-size assertion holds. -/
theorem update_type_indexed_branch_ok (oldtype : MPI_Datatype) (newtype : MPIR_Datatype)
    (hfit : base_satisfies (fun d => d.builtin_element_size = int_wrap d.builtin_element_size)
      oldtype) :
    ∃ L, update_type_indexed_branch oldtype newtype = .ok L ∧
      L.old_lb = old_lb oldtype ∧ L.old_ub = old_ub oldtype ∧
      L.old_extent = old_extent oldtype ∧ L.old_sz = old_size oldtype ∧
      L.el_ct = old_element_count oldtype ∧ L.old_true_lb = old_true_lb oldtype ∧
      L.old_true_ub = old_true_ub oldtype ∧
      L.old_is_contig = MPIR_Datatype_is_contig oldtype := by
  cases oldtype with
  | builtin hd e => exact ⟨_, rfl, rfl, rfl, rfl, rfl, rfl, rfl, rfl, rfl⟩
  | derived hd d =>
    simp only [base_satisfies] at hfit
    simp only [update_type_indexed_branch, if_pos hfit]
    exact ⟨_, rfl, rfl, rfl, rfl, rfl, rfl, rfl, rfl, rfl⟩

/-- The loop body of `update_type_indexed` on an index inside both arrays. -/
theorem update_type_indexed_step_ok (X : Externals) (bls ds : List Int) (dib : Bool)
    (oldtype : MPI_Datatype) (acc : IndexedAcc) (k : Nat) (hb : k < bls.length)
    (hd : k < ds.length) :
    update_type_indexed_step X bls ds dib (old_lb oldtype) (old_ub oldtype) (old_extent oldtype)
        acc k
      = .ok (update_type_indexed_step_value X dib oldtype acc (entry_at bls ds k)) := by
  simp only [update_type_indexed_step, read_at_of_lt bls k hb, eff_disp_at_of_lt ds dib _ k hd,
    update_type_indexed_step_value, entry_at, block_span, eff_disp]
  split_ifs <;> rfl

/-- The copy loop returns the first `count` blocklengths when the allocation succeeds. -/
theorem copy_blklens_ok (X : Externals) (count : Int) (bls : List Int)
    (hb : count.toNat ≤ bls.length) (hm : X.MPL_malloc (count * sizeof_MPI_Aint) = true) :
    copy_blklens X count bls = .ok (bls.take count.toNat) := by
  simp only [copy_blklens, hm, if_true]
  rw [for_loop_ok_of_pure 0 count _ (fun blklens k => blklens ++ [bls.getD k 0])]
  · congr 1
    have key : ∀ (m a : Nat) (init : List Int), a + m ≤ bls.length →
        (List.range' a m).foldl (fun blklens k => blklens ++ [bls.getD k 0]) init
          = init ++ (bls.drop a).take m := by
      intro m
      induction m with
      | zero => intro a init _; simp
      | succ m ih =>
        intro a init h
        have ha : a < bls.length := by omega
        rw [List.range'_succ, List.foldl_cons, ih (a + 1) _ (by omega),
          List.drop_eq_getElem_cons ha, List.take_succ_cons]
        simp [List.getElem?_eq_getElem ha]
    simpa using key count.toNat 0 [] (by omega)
  · intro acc k _ hk
    rw [read_at_of_lt bls k (by omega)]

/-- The copy loop stops at the assertion when the allocation fails. -/
theorem copy_blklens_no_memory (X : Externals) (count : Int) (bls : List Int)
    (hm : X.MPL_malloc (count * sizeof_MPI_Aint) = false) :
    copy_blklens X count bls = .error .assertion := by
  simp [copy_blklens, hm]

/-- Evaluation of `update_type_indexed` on arrays that hold `count` entries: the index
`i` of the first nonzero blocklength, and the outcome in terms of `i`. -/
theorem update_type_indexed_eval (X : Externals) (count : Int) (bls ds : List Int)
    (oldtype : MPI_Datatype) (newtype : MPIR_Datatype) (dib : Bool)
    (hb : count.toNat ≤ bls.length) (hd : count.toNat ≤ ds.length)
    (hfit : base_satisfies (fun d => d.builtin_element_size = int_wrap d.builtin_element_size)
      oldtype) :
    ∃ (L : IndexedLocals) (i : Nat),
      update_type_indexed_branch oldtype newtype = .ok L ∧
      skip_zero_blocklengths bls count.toNat 0 = .ok i ∧ i ≤ count.toNat ∧
      (∀ k, k < i → bls.getD k 0 = 0) ∧ (i < count.toNat → bls.getD i 0 ≠ 0) ∧
      update_type_indexed X count bls ds oldtype newtype dib =
        if ¬ ((i : Int) < count) then .error .assertion
        else if MPIR_Datatype_is_contig oldtype = true then
          if X.MPL_malloc (count * sizeof_MPI_Aint) = true then
            .ok
              { L.newtype with
                size := (update_type_indexed_loop_value X dib oldtype count bls ds i).old_ct
                  * old_size oldtype
                lb := (update_type_indexed_loop_value X dib oldtype count bls ds i).min_lb
                ub := (update_type_indexed_loop_value X dib oldtype count bls ds i).max_ub
                true_lb := (update_type_indexed_loop_value X dib oldtype count bls ds i).min_lb
                  + (old_true_lb oldtype - old_lb oldtype)
                true_ub := (update_type_indexed_loop_value X dib oldtype count bls ds i).max_ub
                  + (old_true_ub oldtype - old_ub oldtype)
                extent := (update_type_indexed_loop_value X dib oldtype count bls ds i).max_ub
                  - (update_type_indexed_loop_value X dib oldtype count bls ds i).min_lb
                n_builtin_elements :=
                  (update_type_indexed_loop_value X dib oldtype count bls ds i).old_ct
                    * old_element_count oldtype
                is_contig :=
                  if X.MPII_Datatype_indexed_count_contig count (bls.take count.toNat) ds dib
                      (old_extent oldtype) = 1 ∧
                    (update_type_indexed_loop_value X dib oldtype count bls ds i).old_ct
                      * old_size oldtype
                      = (update_type_indexed_loop_value X dib oldtype count bls ds i).max_ub
                        - (update_type_indexed_loop_value X dib oldtype count bls ds i).min_lb
                  then true else false }
          else .error .assertion
        else
          .ok
            { L.newtype with
              size := (update_type_indexed_loop_value X dib oldtype count bls ds i).old_ct
                * old_size oldtype
              lb := (update_type_indexed_loop_value X dib oldtype count bls ds i).min_lb
              ub := (update_type_indexed_loop_value X dib oldtype count bls ds i).max_ub
              true_lb := (update_type_indexed_loop_value X dib oldtype count bls ds i).min_lb
                + (old_true_lb oldtype - old_lb oldtype)
              true_ub := (update_type_indexed_loop_value X dib oldtype count bls ds i).max_ub
                + (old_true_ub oldtype - old_ub oldtype)
              extent := (update_type_indexed_loop_value X dib oldtype count bls ds i).max_ub
                - (update_type_indexed_loop_value X dib oldtype count bls ds i).min_lb
              n_builtin_elements :=
                (update_type_indexed_loop_value X dib oldtype count bls ds i).old_ct
                  * old_element_count oldtype
              is_contig := false } := by
  obtain ⟨L, hL, h1, h2, h3, h4, h5, h6, h7, h8⟩ :=
    update_type_indexed_branch_ok oldtype newtype hfit
  obtain ⟨i, hi, -, hile, hzero, hnz⟩ :=
    skip_zero_blocklengths_spec bls count.toNat 0 (by omega)
  refine ⟨L, i, hL, hi, by omega, fun k hk => hzero k (Nat.zero_le k) hk,
    fun h => hnz (by omega), ?_⟩
  simp only [update_type_indexed, bind, Except.bind, pure, Except.pure, throw, throwThe,
    MonadExceptOf.throw, hL, hi]
  by_cases hlt : (i : Int) < count
  · have hin : i < count.toNat := by omega
    have hloop := for_loop_ok_of_pure (i + 1) count
      (update_type_indexed_step X bls ds dib (old_lb oldtype) (old_ub oldtype)
        (old_extent oldtype))
      (fun acc k => update_type_indexed_step_value X dib oldtype acc (entry_at bls ds k))
      { old_ct := bls.getD i 0
        min_lb := (block_span X dib oldtype (entry_at bls ds i)).1
        max_ub := (block_span X dib oldtype (entry_at bls ds i)).2 }
      (fun acc k _ hk => update_type_indexed_step_ok X bls ds dib oldtype acc k (by omega)
        (by omega))
    rw [← List.foldl_map] at hloop
    change for_loop _ _ _ _ = .ok (update_type_indexed_loop_value X dib oldtype count bls ds i)
      at hloop
    simp only [hlt, not_true_eq_false, if_false, read_at_of_lt bls i (by omega),
      eff_disp_at_of_lt ds dib _ i (by omega), h1, h2, h3, h4, h5, h6, h7, h8]
    have hseed : X.MPII_DATATYPE_BLOCK_LB_UB (bls.getD i 0)
        (if dib = true then ds.getD i 0 else ds.getD i 0 * old_extent oldtype)
        (old_lb oldtype) (old_ub oldtype) (old_extent oldtype)
        = block_span X dib oldtype (entry_at bls ds i) := rfl
    rw [hseed, hloop]
    simp only []
    by_cases hc : MPIR_Datatype_is_contig oldtype = true
    · simp only [hc, if_true]
      by_cases hm : X.MPL_malloc (count * sizeof_MPI_Aint) = true
      · simp only [copy_blklens_ok X count bls hb hm, hm, if_true]
        split_ifs <;> rfl
      · have hm2 : X.MPL_malloc (count * sizeof_MPI_Aint) = false := by simpa using hm
        simp [copy_blklens_no_memory X count bls hm2, hm2]
    · simp [hc]
  · simp [hlt]

/-- The first `m` entries from index `a` on, read through `getD`. -/
theorem range_map_getD_single (bls : List Int) (a m : Nat) (h : a + m ≤ bls.length) :
    (List.range' a m).map (fun k => bls.getD k 0) = (bls.drop a).take m := by
  induction m generalizing a with
  | zero => simp
  | succ m ih =>
    have ha : a < bls.length := by omega
    rw [List.range'_succ, List.map_cons, List.drop_eq_getElem_cons ha, List.take_succ_cons,
      ih (a + 1) (by omega)]
    simp [List.getElem?_eq_getElem ha]

/-- A running sum of multiples is the multiple of the sum. -/
theorem foldl_add_mul (nb : Int) (l : List Int) (init : Int) :
    l.foldl (fun acc blk => acc + nb * blk) init = init + nb * l.sum := by
  induction l generalizing init with
  | nil => simp
  | cons x xs ih =>
    rw [List.foldl_cons, ih, List.sum_cons]
    ring

/-- The running block count of the loop at lines 518-521 (and 559-562) over arrays that
hold `count` entries. -/
theorem block_count_fold (nb count : Int) (bls : List Int) (hb : count.toNat ≤ bls.length) :
    (List.range' 0 (count.toNat - 0)).foldl (fun acc k => acc + nb * bls.getD k 0) 0
      = nb * (bls.take count.toNat).sum := by
  rw [Nat.sub_zero, ← List.foldl_map (fun k => bls.getD k 0) (fun acc blk => acc + nb * blk),
    range_map_getD_single bls 0 count.toNat (by omega), foldl_add_mul]
  simp

/-- Evaluation of the facade of the index-by-list constructors on arrays that hold
`count` entries, given the descriptor that `update_type_indexed` returns. -/
theorem create_indexed_eval (X : Externals) (count : Int) (bls ds : List Int)
    (oldtype : MPI_Datatype) (newtype d : MPIR_Datatype) (dib : Bool)
    (hb : count.toNat ≤ bls.length)
    (hd : update_type_indexed X count bls ds oldtype newtype dib = .ok d) :
    create_indexed X count bls ds oldtype newtype dib =
      if MPIR_Datatype_is_contig oldtype = true then
        if X.MPL_malloc (count * sizeof_MPI_Aint) = true then
          .ok (MPI_SUCCESS,
            { d with
              num_contig_blocks := X.MPII_Datatype_indexed_count_contig count
                (bls.take count.toNat) ds dib (old_extent oldtype) })
        else .error .assertion
      else
        .ok (MPI_SUCCESS,
          { d with
            num_contig_blocks :=
              (match oldtype with
                | .builtin _ _ => count
                | .derived _ old_dtp => old_dtp.num_contig_blocks * (bls.take count.toNat).sum) })
    := by
  simp only [create_indexed, bind, Except.bind, pure, Except.pure, hd]
  cases oldtype with
  | builtin hdl e =>
    simp only [MPIR_Datatype_is_contig, if_true, old_extent]
    by_cases hm : X.MPL_malloc (count * sizeof_MPI_Aint) = true
    · simp only [copy_blklens_ok X count bls hb hm, hm, if_true]
    · have hm2 : X.MPL_malloc (count * sizeof_MPI_Aint) = false := by simpa using hm
      simp [copy_blklens_no_memory X count bls hm2, hm2]
  | derived hdl od =>
    simp only [MPIR_Datatype_is_contig, old_extent]
    rw [for_loop_ok_of_pure 0 count _ (fun acc k => acc + od.num_contig_blocks * bls.getD k 0) 0
      (fun acc k _ hk => by simp only [read_at_of_lt bls k (by omega)]),
      block_count_fold od.num_contig_blocks count bls hb]
    by_cases hc : od.is_contig = true
    · simp only [hc, if_true]
      by_cases hm : X.MPL_malloc (count * sizeof_MPI_Aint) = true
      · simp only [copy_blklens_ok X count bls hb hm, hm, if_true]
      · have hm2 : X.MPL_malloc (count * sizeof_MPI_Aint) = false := by simpa using hm
        simp [copy_blklens_no_memory X count bls hm2, hm2]
    · simp [hc]

/-- A running minimum is a member of the list and a lower bound of it. -/
theorem foldl_min_spec (l : List Int) (s : Int) :
    l.foldl min s ∈ s :: l ∧ ∀ x ∈ s :: l, l.foldl min s ≤ x := by
  induction l generalizing s with
  | nil => simp
  | cons y ys ih =>
    obtain ⟨hm, hle⟩ := ih (min s y)
    rw [List.foldl_cons]
    constructor
    · rcases List.mem_cons.mp hm with h | h
      · rw [h]
        rcases min_choice s y with h2 | h2 <;> rw [h2] <;> simp
      · exact List.mem_cons_of_mem _ (List.mem_cons_of_mem _ h)
    · intro x hx
      have h0 := hle (min s y) (List.mem_cons_self _ _)
      rcases List.mem_cons.mp hx with h | h
      · rw [h]; exact le_trans h0 (min_le_left s y)
      · rcases List.mem_cons.mp h with h | h
        · rw [h]; exact le_trans h0 (min_le_right s y)
        · exact hle x (List.mem_cons_of_mem _ h)

/-- A running maximum is a member of the list and an upper bound of it. -/
theorem foldl_max_spec (l : List Int) (s : Int) :
    l.foldl max s ∈ s :: l ∧ ∀ x ∈ s :: l, x ≤ l.foldl max s := by
  induction l generalizing s with
  | nil => simp
  | cons y ys ih =>
    obtain ⟨hm, hle⟩ := ih (max s y)
    rw [List.foldl_cons]
    constructor
    · rcases List.mem_cons.mp hm with h | h
      · rw [h]
        rcases max_choice s y with h2 | h2 <;> rw [h2] <;> simp
      · exact List.mem_cons_of_mem _ (List.mem_cons_of_mem _ h)
    · intro x hx
      have h0 := hle (max s y) (List.mem_cons_self _ _)
      rcases List.mem_cons.mp hx with h | h
      · rw [h]; exact le_trans (le_max_left s y) h0
      · rcases List.mem_cons.mp h with h | h
        · rw [h]; exact le_trans (le_max_right s y) h0
        · exact hle x (List.mem_cons_of_mem _ h)

/-- The loop of `update_type_indexed` over entries without a negative blocklength: the
count grows by the nonzero blocklengths and the bounds widen over the nonzero entries. -/
theorem update_type_indexed_fold (X : Externals) (dib : Bool) (oldtype : MPI_Datatype)
    (l : List (Int × Int)) (acc : IndexedAcc) (hnn : ∀ p ∈ l, 0 ≤ p.1) :
    l.foldl (update_type_indexed_step_value X dib oldtype) acc =
      { old_ct := acc.old_ct + ((l.filter (fun p => decide (p.1 ≠ 0))).map Prod.fst).sum
        min_lb := ((l.filter (fun p => decide (p.1 ≠ 0))).map
          (fun q => (block_span X dib oldtype q).1)).foldl min acc.min_lb
        max_ub := ((l.filter (fun p => decide (p.1 ≠ 0))).map
          (fun q => (block_span X dib oldtype q).2)).foldl max acc.max_ub } := by
  induction l generalizing acc with
  | nil => simp
  | cons p ps ih =>
    have hp : 0 ≤ p.1 := hnn p (List.mem_cons_self _ _)
    rw [List.foldl_cons, ih _ (fun q hq => hnn q (List.mem_cons_of_mem _ hq))]
    by_cases hz : p.1 = 0
    · have hng : ¬ p.1 > 0 := by omega
      simp [update_type_indexed_step_value, hz]
    · have hg : p.1 > 0 := by omega
      simp only [update_type_indexed_step_value, hg, if_true, List.filter_cons, ne_eq, hz,
        not_false_eq_true, decide_True, List.map_cons, List.sum_cons, List.foldl_cons]
      congr 1
      · ring
      · congr 1
        simp only [min_def]
        split_ifs <;> omega
      · congr 1
        simp only [max_def]
        split_ifs <;> omega

/-- Dropping the entries with a zero blocklength does not change the sum of the
blocklengths. -/
theorem sum_nonzero_entries (l : List (Int × Int)) :
    ((l.filter (fun p => decide (p.1 ≠ 0))).map Prod.fst).sum = (l.map Prod.fst).sum := by
  induction l with
  | nil => rfl
  | cons p ps ih =>
    by_cases hz : p.1 = 0
    · have hdec : decide (p.1 ≠ 0) = false := by simp [hz]
      rw [List.filter_cons, hdec]
      simp only [Bool.false_eq_true, if_false, List.map_cons, List.sum_cons, ih, hz, zero_add]
    · have hdec : decide (p.1 ≠ 0) = true := by simp [hz]
      rw [List.filter_cons, hdec]
      simp only [if_true, List.map_cons, List.sum_cons, ih]

/-- The first `count` entries, by index. -/
theorem block_entries_eq_map (count : Int) (bls ds : List Int)
    (hb : count.toNat ≤ bls.length) (hd : count.toNat ≤ ds.length) :
    block_entries count bls ds = (List.range' 0 count.toNat).map (entry_at bls ds) := by
  have h := range_map_getD bls ds 0 count.toNat (by omega) (by omega)
  rw [List.drop_zero] at h
  exact h.symm

/-- The blocklengths of the first `count` entries. -/
theorem block_entries_fst (count : Int) (bls ds : List Int)
    (hb : count.toNat ≤ bls.length) (hd : count.toNat ≤ ds.length) :
    (block_entries count bls ds).map Prod.fst = bls.take count.toNat := by
  rw [block_entries_eq_map count bls ds hb hd, List.map_map]
  have h := range_map_getD_single bls 0 count.toNat (by omega)
  rw [List.drop_zero] at h
  exact h

/-- An entry read by index below `count` is among the first `count` blocklengths. -/
theorem getD_mem_take (bls : List Int) (n k : Nat) (hk : k < n) (hn : n ≤ bls.length) :
    bls.getD k 0 ∈ bls.take n := by
  have h := range_map_getD_single bls 0 n (by omega)
  rw [List.drop_zero] at h
  rw [← h, List.mem_map]
  exact ⟨k, by rw [List.mem_range'_1]; omega, rfl⟩

/-- The nonzero entries, split at the index `i` of the first nonzero blocklength. -/
theorem nonzero_entries_split (count : Int) (bls ds : List Int) (i : Nat)
    (hb : count.toNat ≤ bls.length) (hd : count.toNat ≤ ds.length) (hi : i < count.toNat)
    (hzero : ∀ k, k < i → bls.getD k 0 = 0) (hnz : bls.getD i 0 ≠ 0) :
    nonzero_entries count bls ds =
      entry_at bls ds i ::
        (((List.range' (i + 1) (count.toNat - (i + 1))).map (entry_at bls ds)).filter
          (fun p => decide (p.1 ≠ 0))) := by
  have hsplit : List.range' 0 count.toNat
      = List.range' 0 i ++ i :: List.range' (i + 1) (count.toNat - (i + 1)) := by
    have h1 := List.range'_append_1 0 i (count.toNat - (i + 1) + 1)
    have h2 : count.toNat - (i + 1) + 1 + i = count.toNat := by omega
    rw [h2, Nat.zero_add, List.range'_succ] at h1
    exact h1.symm
  rw [nonzero_entries, block_entries_eq_map count bls ds hb hd, hsplit, List.map_append,
    List.filter_append, List.map_cons, List.filter_cons]
  have hpre : ((List.range' 0 i).map (entry_at bls ds)).filter (fun p => decide (p.1 ≠ 0)) = [] := by
    rw [List.filter_eq_nil_iff]
    intro p hp
    rw [List.mem_map] at hp
    obtain ⟨k, hk, rfl⟩ := hp
    rw [List.mem_range'_1] at hk
    have hk0 := hzero k (by omega)
    simp only [entry_at, ne_eq, hk0, not_true_eq_false, decide_False, Bool.false_eq_true,
      not_false_eq_true]
  have hhead : decide ((entry_at bls ds i).1 ≠ 0) = true := by
    simpa [entry_at] using hnz
  rw [hpre, hhead]
  simp

/-- The index of the first nonzero blocklength lies below `count` when some blocklength
among the first `count` is not zero. -/
theorem first_nonzero_lt (bls : List Int) (n i : Nat) (hn : n ≤ bls.length) (hi : i ≤ n)
    (hzero : ∀ k, k < i → bls.getD k 0 = 0) (hpos : ∃ b ∈ bls.take n, b ≠ 0) : i < n := by
  by_contra hge
  have hin : i = n := by omega
  obtain ⟨b, hb, hb0⟩ := hpos
  have h := range_map_getD_single bls 0 n (by omega)
  rw [List.drop_zero] at h
  rw [← h, List.mem_map] at hb
  obtain ⟨k, hk, rfl⟩ := hb
  rw [List.mem_range'_1] at hk
  exact hb0 (hzero k (by omega))

/-- Under well-formed arguments and a permitting environment, an index-by-list call
returns `MPI_SUCCESS` and a descriptor that agrees with the reference definition. -/
theorem create_indexed_reference (X : Externals) (count : Int) (bls ds : List Int)
    (oldtype : MPI_Datatype) (newtype : MPIR_Datatype) (dib : Bool)
    (hargs : IndexedArgs count bls ds) (henv : IndexedEnv X count oldtype) :
    ∃ r, create_indexed X count bls ds oldtype newtype dib = .ok r ∧ r.1 = MPI_SUCCESS ∧
      IndexedMatches X dib oldtype count bls ds r.2 := by
  obtain ⟨hcount, hb, hd, hnn, hpos⟩ := hargs
  obtain ⟨hfit, hmalloc⟩ := henv
  obtain ⟨L, i, -, -, hile, hzero, hnz, heval⟩ :=
    update_type_indexed_eval X count bls ds oldtype newtype dib hb hd hfit
  have hi : i < count.toNat := first_nonzero_lt bls count.toNat i hb hile hzero hpos
  have hlt : (i : Int) < count := by omega
  have hsplit := nonzero_entries_split count bls ds i hb hd hi hzero (hnz hi)
  have hRnn : ∀ p ∈ (List.range' (i + 1) (count.toNat - (i + 1))).map (entry_at bls ds),
      0 ≤ p.1 := by
    intro p hp
    rw [List.mem_map] at hp
    obtain ⟨k, hk, rfl⟩ := hp
    rw [List.mem_range'_1] at hk
    exact hnn _ (getD_mem_take bls count.toNat k (by omega) hb)
  have hval : update_type_indexed_loop_value X dib oldtype count bls ds i = _ :=
    update_type_indexed_fold X dib oldtype _ _ hRnn
  have hsum : bls.getD i 0 + ((((List.range' (i + 1) (count.toNat - (i + 1))).map
      (entry_at bls ds)).filter (fun p => decide (p.1 ≠ 0))).map Prod.fst).sum
      = (bls.take count.toNat).sum := by
    have h1 := sum_nonzero_entries (block_entries count bls ds)
    rw [block_entries_fst count bls ds hb hd] at h1
    rw [← h1]
    change _ = ((nonzero_entries count bls ds).map Prod.fst).sum
    rw [hsplit]
    rfl
  -- the descriptor that `update_type_indexed` returns
  have hmatch : ∀ d : MPIR_Datatype,
      layout_of d =
        { size := (update_type_indexed_loop_value X dib oldtype count bls ds i).old_ct
            * old_size oldtype
          lb := (update_type_indexed_loop_value X dib oldtype count bls ds i).min_lb
          ub := (update_type_indexed_loop_value X dib oldtype count bls ds i).max_ub
          true_lb := (update_type_indexed_loop_value X dib oldtype count bls ds i).min_lb
            + (old_true_lb oldtype - old_lb oldtype)
          true_ub := (update_type_indexed_loop_value X dib oldtype count bls ds i).max_ub
            + (old_true_ub oldtype - old_ub oldtype)
          extent := (update_type_indexed_loop_value X dib oldtype count bls ds i).max_ub
            - (update_type_indexed_loop_value X dib oldtype count bls ds i).min_lb
          n_builtin_elements :=
            (update_type_indexed_loop_value X dib oldtype count bls ds i).old_ct
              * old_element_count oldtype } →
      IndexedMatches X dib oldtype count bls ds d := by
    intro d hlay
    have e1 := congrArg IndexedLayout.lb hlay
    have e2 := congrArg IndexedLayout.ub hlay
    have e3 := congrArg IndexedLayout.size hlay
    have e4 := congrArg IndexedLayout.n_builtin_elements hlay
    simp only [layout_of] at e1 e2 e3 e4
    have hmin := foldl_min_spec
      ((((List.range' (i + 1) (count.toNat - (i + 1))).map (entry_at bls ds)).filter
        (fun p => decide (p.1 ≠ 0))).map (fun q => (block_span X dib oldtype q).1))
      (block_span X dib oldtype (entry_at bls ds i)).1
    have hmax := foldl_max_spec
      ((((List.range' (i + 1) (count.toNat - (i + 1))).map (entry_at bls ds)).filter
        (fun p => decide (p.1 ≠ 0))).map (fun q => (block_span X dib oldtype q).2))
      (block_span X dib oldtype (entry_at bls ds i)).2
    refine ⟨?_, ?_, ?_, ?_, ?_, ?_, ?_⟩
    · rw [hlay, hsplit, hval]
      simp only [indexed_reference, List.map_cons, List.sum_cons, entry_at]
    · rw [e1, hsplit, hval]
      exact hmin.1
    · rw [e1, hsplit, hval]
      exact hmin.2
    · rw [e2, hsplit, hval]
      exact hmax.1
    · rw [e2, hsplit, hval]
      exact hmax.2
    · rw [e3, hval, ← hsum]
    · rw [e4, hval, ← hsum]
  simp only [hlt, not_true_eq_false, if_false] at heval
  by_cases hc : MPIR_Datatype_is_contig oldtype = true
  · have hm := hmalloc hc
    simp only [hc, hm, if_true] at heval
    rw [create_indexed_eval X count bls ds oldtype newtype _ dib hb heval]
    simp only [hc, hm, if_true]
    exact ⟨_, rfl, rfl, hmatch _ rfl⟩
  · simp only [hc, if_false] at heval
    rw [create_indexed_eval X count bls ds oldtype newtype _ dib hb heval]
    simp only [hc, if_false]
    exact ⟨_, rfl, rfl, hmatch _ rfl⟩

/-! ## Index-by-list against its reference definition -/

/-- C11: for the element-unit and byte-unit index-by-list with `count >= 1`, no negative
blocklength and at least one nonzero blocklength (arrays holding `count` entries, the
element-size assertion and the scratch allocation succeeding), the call returns a
descriptor whose `lb` is the minimum and whose `ub` is the maximum of the block bounds
of exactly the entries with a nonzero blocklength, whose size and element count are the
sum of the blocklengths times the base's size and element count, and whose layout is the
reference layout of the nonzero entries; hence two calls whose nonzero entries coincide
return the same size, `lb`, `ub`, `true_lb`, `true_ub`, extent and element count. -/
theorem indexed_layout_equals_reference (X : Externals) (count : Int) (bls ds : List Int)
    (oldtype : MPI_Datatype) (newtype : MPIR_Datatype)
    (hargs : IndexedArgs count bls ds) (henv : IndexedEnv X count oldtype) :
    (∃ r, MPIR_Typerep_create_indexed X count bls ds oldtype newtype = .ok r ∧
      IndexedMatches X false oldtype count bls ds r.2) ∧
    (∃ r, MPIR_Typerep_create_hindexed X count bls ds oldtype newtype = .ok r ∧
      IndexedMatches X true oldtype count bls ds r.2) ∧
    (∀ (count2 : Int) (bls2 ds2 : List Int) (newtype2 : MPIR_Datatype),
      IndexedArgs count2 bls2 ds2 → IndexedEnv X count2 oldtype →
      nonzero_entries count2 bls2 ds2 = nonzero_entries count bls ds →
      (∃ r r2, MPIR_Typerep_create_indexed X count bls ds oldtype newtype = .ok r ∧
        MPIR_Typerep_create_indexed X count2 bls2 ds2 oldtype newtype2 = .ok r2 ∧
        layout_of r2.2 = layout_of r.2) ∧
      (∃ r r2, MPIR_Typerep_create_hindexed X count bls ds oldtype newtype = .ok r ∧
        MPIR_Typerep_create_hindexed X count2 bls2 ds2 oldtype newtype2 = .ok r2 ∧
        layout_of r2.2 = layout_of r.2)) := by
  obtain ⟨r, hr, -, hm⟩ := create_indexed_reference X count bls ds oldtype newtype false hargs henv
  obtain ⟨s, hs, -, hn⟩ := create_indexed_reference X count bls ds oldtype newtype true hargs henv
  refine ⟨⟨r, hr, hm⟩, ⟨s, hs, hn⟩, ?_⟩
  intro count2 bls2 ds2 newtype2 hargs2 henv2 hsame
  obtain ⟨r2, hr2, -, hm2⟩ :=
    create_indexed_reference X count2 bls2 ds2 oldtype newtype2 false hargs2 henv2
  obtain ⟨s2, hs2, -, hn2⟩ :=
    create_indexed_reference X count2 bls2 ds2 oldtype newtype2 true hargs2 henv2
  refine ⟨⟨r, r2, hr, hr2, ?_⟩, ⟨s, s2, hs, hs2, ?_⟩⟩
  · have h := hm2.1
    rw [hsame, ← hm.1] at h
    exact Option.some.inj h
  · have h := hn2.1
    rw [hsame, ← hn.1] at h
    exact Option.some.inj h

/-- C11 at scenario 3: blocklengths `[2, 0, 3]`, displacements `[0, 7, 2]` in element
units over the 4-byte `MPI_INT` give size 20, and so does the list without the
zero-length entry. -/
theorem indexed_layout_equals_reference_witness :
    IndexedArgs 3 [2, 0, 3] [0, 7, 2] ∧ IndexedEnv ref_externals 3 MPI_INT ∧
    (∃ r, MPIR_Typerep_create_indexed ref_externals 3 [2, 0, 3] [0, 7, 2] MPI_INT zeroed = .ok r ∧
      IndexedMatches ref_externals false MPI_INT 3 [2, 0, 3] [0, 7, 2] r.2) ∧
    (∃ r, MPIR_Typerep_create_indexed ref_externals 3 [2, 0, 3] [0, 7, 2] MPI_INT zeroed = .ok r ∧
      r.2.size = 20 ∧ r.2.lb = 0 ∧ r.2.ub = 20) ∧
    (∃ r, MPIR_Typerep_create_indexed ref_externals 2 [2, 3] [0, 2] MPI_INT zeroed = .ok r ∧
      r.2.size = 20 ∧ r.2.lb = 0 ∧ r.2.ub = 20) :=
  have hargs : IndexedArgs 3 [2, 0, 3] [0, 7, 2] := by
    unfold IndexedArgs
    decide
  have henv : IndexedEnv ref_externals 3 MPI_INT := ⟨trivial, fun _ => rfl⟩
  ⟨hargs, henv,
   (indexed_layout_equals_reference ref_externals 3 [2, 0, 3] [0, 7, 2] MPI_INT zeroed hargs
     henv).1,
   ⟨_, rfl, by decide⟩, ⟨_, rfl, by decide⟩⟩

/-! ## Contiguous run as degenerate replicate -/

/-- The reference instance defines the contiguous run as the degenerate replicate. -/
theorem ref_externals_contig_rule : ContigIsDegenerateVector ref_externals :=
  fun _ _ _ _ _ _ => rfl

/-- C13: for `count >= 1` in `int` range and a base of non-negative size that is basic,
or derived with `extent = ub - lb` and `is_contig` implying `size = extent`, the
contiguous run returns the same code and the same descriptor, field by field, as the
element-unit replicate with blocklength 1 and stride 1, when the contig LB/UB macro is
the vector LB/UB macro of that degenerate replicate and the vector macro follows its
rule for non-negative stride and extent. -/
theorem contig_eq_degenerate_vector (X : Externals) (hvec : VectorRuleNonneg X)
    (hcontig : ContigIsDegenerateVector X) (count : Int) (T : MPI_Datatype)
    (newtype : MPIR_Datatype) (hcount : 1 ≤ count) (hint : fits_int count)
    (hsize : 0 ≤ old_size T) (hbase : DegenerateBase T) :
    MPIR_Typerep_create_contig X count T newtype =
      MPIR_Typerep_create_vector X count 1 1 T newtype := by
  have hw : int_wrap count = count := int_wrap_of_fits count hint
  cases T with
  | builtin hdl e =>
    simp only [old_size] at hsize
    have hr : X.MPII_DATATYPE_VECTOR_LB_UB count e 1 0 e e = (0, count * e) := by
      rw [hvec count e 1 0 e e hcount (le_refl 1) hsize hsize]
      congr 1
      ring
    simp only [MPIR_Typerep_create_contig, create_contig_fields, MPIR_Typerep_create_vector,
      update_type_vector, update_type_vector_branch, mul_one, one_mul, hr, hw, sub_zero,
      sub_self, add_zero, and_self, if_true, Bool.false_eq_true, if_false]
  | derived hdl d =>
    obtain ⟨hext, hc⟩ := hbase
    unfold ExtentIdentity at hext
    simp only [old_size] at hsize
    have hb := hcontig count d.lb d.ub d.extent hcount hext
    simp only [MPIR_Typerep_create_contig, create_contig_fields, MPIR_Typerep_create_vector,
      update_type_vector, update_type_vector_branch, MPIR_Datatype_is_contig, mul_one, one_mul,
      hb, hw, Bool.false_eq_true, if_false, true_and]
    by_cases hic : d.is_contig = true
    · have hse := hc hic
      have hr : X.MPII_DATATYPE_VECTOR_LB_UB count d.extent 1 d.lb d.ub d.extent
          = (d.lb, d.lb + count * d.extent) := by
        rw [hvec count d.extent 1 d.lb d.ub d.extent hcount (le_refl 1) (by omega) (by omega)]
        congr 1
        rw [hext]
        ring
      simp only [hic, hr, hse, add_sub_cancel_left, and_self, if_true]
    · have hf : d.is_contig = false := by simpa using hic
      simp [hf, mul_comm]

/-- C13 at `count = 3` over `MPI_INT` and over a one-byte derived type. -/
theorem contig_eq_degenerate_vector_witness :
    MPIR_Typerep_create_contig ref_externals 3 MPI_INT zeroed =
      MPIR_Typerep_create_vector ref_externals 3 1 1 MPI_INT zeroed ∧
    MPIR_Typerep_create_contig ref_externals 3 (.derived 0 byte_type) zeroed =
      MPIR_Typerep_create_vector ref_externals 3 1 1 (.derived 0 byte_type) zeroed ∧
    (MPIR_Typerep_create_contig ref_externals 3 MPI_INT zeroed).2.size = 12 :=
  ⟨contig_eq_degenerate_vector ref_externals ref_externals_vector_rule ref_externals_contig_rule
     3 MPI_INT zeroed (by decide) (by unfold fits_int; decide) (by decide) trivial,
   contig_eq_degenerate_vector ref_externals ref_externals_vector_rule ref_externals_contig_rule
     3 (.derived 0 byte_type) zeroed (by decide) (by unfold fits_int; decide) (by decide)
     ⟨rfl, fun _ => rfl⟩,
   by decide⟩

/-! ## Block counts -/

/-- Block count of the index-by-list constructors over a derived base that is not
contiguous. -/
theorem create_indexed_block_count (X : Externals) (count : Int) (bls ds : List Int)
    (hdl : Nat) (T newtype : MPIR_Datatype) (dib : Bool) (r : Int × MPIR_Datatype)
    (hnc : T.is_contig = false) (hb : count.toNat ≤ bls.length)
    (h : create_indexed X count bls ds (.derived hdl T) newtype dib = .ok r) :
    r.2.num_contig_blocks = T.num_contig_blocks * (bls.take count.toNat).sum := by
  obtain ⟨d, hd, -⟩ := create_indexed_fields X count bls ds _ newtype dib r h
  rw [create_indexed_eval X count bls ds _ newtype d dib hb hd] at h
  simp only [MPIR_Datatype_is_contig, hnc, Bool.false_eq_true, if_false, Except.ok.injEq] at h
  rw [← h]

/-- Block count of the index-by-uniform-block constructors over a derived base that is
not contiguous. -/
theorem create_blockindexed_block_count (X : Externals) (count blocklength : Int)
    (ds : List Int) (hdl : Nat) (T newtype : MPIR_Datatype) (dib : Bool)
    (r : Int × MPIR_Datatype) (hnc : T.is_contig = false)
    (h : create_blockindexed X count blocklength ds (.derived hdl T) newtype dib = .ok r) :
    r.2.num_contig_blocks = count * T.num_contig_blocks * blocklength := by
  simp only [create_blockindexed, bind, Except.bind, pure, Except.pure] at h
  split at h
  · simp at h
  simp only [MPIR_Datatype_is_contig, hnc, Bool.false_eq_true, if_false, Except.ok.injEq] at h
  rw [← h]

/-- Block count of the replicate constructors over a derived base that is not
contiguous. -/
theorem vector_block_count (X : Externals) (count blocklength stride : Int) (hdl : Nat)
    (T newtype : MPIR_Datatype) (hnc : T.is_contig = false) :
    (MPIR_Typerep_create_vector X count blocklength stride (.derived hdl T) newtype).2.num_contig_blocks
      = T.num_contig_blocks * count * blocklength ∧
    (MPIR_Typerep_create_hvector X count blocklength stride (.derived hdl T) newtype).2.num_contig_blocks
      = T.num_contig_blocks * count * blocklength := by
  simp [MPIR_Typerep_create_vector, MPIR_Typerep_create_hvector, MPIR_Datatype_is_contig, hnc]

/-- C17: over a derived base `T` that is not contiguous, the block count of the result
is `T.num_contig_blocks * count * blocklength` for the element-unit and byte-unit
replicate and for the two index-by-uniform-block constructors (whenever they return),
`T.num_contig_blocks` times the sum of the `count` blocklengths for the two
index-by-list constructors (whenever they return), and `count * T.num_contig_blocks`
for the contiguous run. -/
theorem block_count_over_noncontiguous_base (X : Externals) (hdl : Nat)
    (T newtype : MPIR_Datatype) (hnc : T.is_contig = false) :
    (∀ count blocklength stride : Int,
      (MPIR_Typerep_create_vector X count blocklength stride
        (.derived hdl T) newtype).2.num_contig_blocks
        = T.num_contig_blocks * count * blocklength) ∧
    (∀ count blocklength stride : Int,
      (MPIR_Typerep_create_hvector X count blocklength stride
        (.derived hdl T) newtype).2.num_contig_blocks
        = T.num_contig_blocks * count * blocklength) ∧
    (∀ (count blocklength : Int) (ds : List Int) (r : Int × MPIR_Datatype),
      MPIR_Typerep_create_indexed_block X count blocklength ds (.derived hdl T) newtype = .ok r →
      r.2.num_contig_blocks = T.num_contig_blocks * count * blocklength) ∧
    (∀ (count blocklength : Int) (ds : List Int) (r : Int × MPIR_Datatype),
      MPIR_Typerep_create_hindexed_block X count blocklength ds (.derived hdl T) newtype = .ok r →
      r.2.num_contig_blocks = T.num_contig_blocks * count * blocklength) ∧
    (∀ (count : Int) (bls ds : List Int) (r : Int × MPIR_Datatype),
      count.toNat ≤ bls.length →
      MPIR_Typerep_create_indexed X count bls ds (.derived hdl T) newtype = .ok r →
      r.2.num_contig_blocks = T.num_contig_blocks * (bls.take count.toNat).sum) ∧
    (∀ (count : Int) (bls ds : List Int) (r : Int × MPIR_Datatype),
      count.toNat ≤ bls.length →
      MPIR_Typerep_create_hindexed X count bls ds (.derived hdl T) newtype = .ok r →
      r.2.num_contig_blocks = T.num_contig_blocks * (bls.take count.toNat).sum) ∧
    (∀ count : Int,
      (MPIR_Typerep_create_contig X count (.derived hdl T) newtype).2.num_contig_blocks
        = count * T.num_contig_blocks) := by
  refine ⟨fun c b s => (vector_block_count X c b s hdl T newtype hnc).1,
    fun c b s => (vector_block_count X c b s hdl T newtype hnc).2, ?_, ?_,
    fun c bls ds r hb h => create_indexed_block_count X c bls ds hdl T newtype false r hnc hb h,
    fun c bls ds r hb h => create_indexed_block_count X c bls ds hdl T newtype true r hnc hb h,
    ?_⟩
  · intro c b ds r h
    rw [create_blockindexed_block_count X c b ds hdl T newtype false r hnc h]
    ring
  · intro c b ds r h
    rw [create_blockindexed_block_count X c b ds hdl T newtype true r hnc h]
    ring
  · intro c
    simp [MPIR_Typerep_create_contig, create_contig_fields, MPIR_Datatype_is_contig, hnc]

/-- C17 over the padded `int` (3 blocks, not contiguous): an index-by-list with
blocklengths `[1, 2]` has `3 * (1 + 2) = 9` blocks and a replicate with count 2 and
blocklength 2 has 12. -/
theorem block_count_over_noncontiguous_base_witness :
    padded_int.is_contig = false ∧ padded_int.num_contig_blocks = 3 ∧
    (∃ r, MPIR_Typerep_create_indexed ref_externals 2 [1, 2] [0, 1] (.derived 0 padded_int)
        zeroed = .ok r ∧
      r.2.num_contig_blocks = padded_int.num_contig_blocks * ([1, 2].take (2 : Int).toNat).sum ∧
      r.2.num_contig_blocks = 9) ∧
    (MPIR_Typerep_create_vector ref_externals 2 2 5 (.derived 0 padded_int)
      zeroed).2.num_contig_blocks = 12 :=
  ⟨by decide, by decide,
   ⟨_, rfl,
     (block_count_over_noncontiguous_base ref_externals 0 padded_int zeroed
       (by decide)).2.2.2.2.1 2 [1, 2] [0, 1] _ (by decide) rfl,
     by decide⟩,
   by decide⟩

/-- C16, as stated, fails: the element-unit and the byte-unit replicate of `MPI_INT` with
`count = 0`, blocklength 1 and stride 2 have a block count of 0, and so has the
contiguous run of zero padded `int`s. -/
theorem block_count_zero_for_empty_replicate :
    (MPIR_Typerep_create_vector ref_externals 0 1 2 MPI_INT zeroed).2.num_contig_blocks = 0 ∧
    (MPIR_Typerep_create_hvector ref_externals 0 1 2 MPI_INT zeroed).2.num_contig_blocks = 0 ∧
    1 ≤ padded_int.num_contig_blocks ∧
    (MPIR_Typerep_create_contig ref_externals 0 (.derived 0 padded_int)
      zeroed).2.num_contig_blocks = 0 ∧
    ¬ (1 ≤ (MPIR_Typerep_create_vector ref_externals 0 1 2 MPI_INT zeroed).2.num_contig_blocks) := by
  decide

/-- A product of integers that are at least one is at least one. -/
theorem one_le_mul_of_one_le (a b : Int) (ha : 1 ≤ a) (hb : 1 ≤ b) : 1 ≤ a * b := by
  nlinarith

/-- C16 (amended): the block count is at least one for the element-unit and byte-unit
replicate with `count >= 1` over a basic element, and with `count >= 1` and
`blocklength >= 1` over a derived base whose block count is at least one; for the
contiguous run over a basic element, and with `count >= 1` over such a derived base; for
resize over a basic element (where it is 3) and over such a derived base; and for the
index-by-uniform-block constructors, whenever they return, with `count >= 1` and
`blocklength >= 1` over such a derived base that is not contiguous, and over a basic
element or a contiguous base when the contiguous-run scan returns at least one. -/
theorem block_count_at_least_one (X : Externals) (newtype : MPIR_Datatype) :
    (∀ (count blocklength stride : Int) (hdl : Nat) (e : Int), 1 ≤ count →
      1 ≤ (MPIR_Typerep_create_vector X count blocklength stride
        (.builtin hdl e) newtype).2.num_contig_blocks ∧
      1 ≤ (MPIR_Typerep_create_hvector X count blocklength stride
        (.builtin hdl e) newtype).2.num_contig_blocks) ∧
    (∀ (count blocklength stride : Int) (hdl : Nat) (T : MPIR_Datatype),
      1 ≤ T.num_contig_blocks → 1 ≤ count → 1 ≤ blocklength →
      1 ≤ (MPIR_Typerep_create_vector X count blocklength stride
        (.derived hdl T) newtype).2.num_contig_blocks ∧
      1 ≤ (MPIR_Typerep_create_hvector X count blocklength stride
        (.derived hdl T) newtype).2.num_contig_blocks) ∧
    (∀ (count : Int) (hdl : Nat) (e : Int),
      1 ≤ (MPIR_Typerep_create_contig X count (.builtin hdl e) newtype).2.num_contig_blocks) ∧
    (∀ (count : Int) (hdl : Nat) (T : MPIR_Datatype), 1 ≤ T.num_contig_blocks → 1 ≤ count →
      1 ≤ (MPIR_Typerep_create_contig X count (.derived hdl T) newtype).2.num_contig_blocks) ∧
    (∀ (lb extent : Int) (hdl : Nat) (e : Int),
      1 ≤ (MPIR_Typerep_create_resized (.builtin hdl e) lb extent newtype).2.num_contig_blocks) ∧
    (∀ (lb extent : Int) (hdl : Nat) (T : MPIR_Datatype), 1 ≤ T.num_contig_blocks →
      1 ≤ (MPIR_Typerep_create_resized (.derived hdl T) lb extent newtype).2.num_contig_blocks) ∧
    (∀ (count blocklength : Int) (ds : List Int) (dib : Bool) (hdl : Nat) (T : MPIR_Datatype)
      (r : Int × MPIR_Datatype), T.is_contig = false → 1 ≤ T.num_contig_blocks → 1 ≤ count →
      1 ≤ blocklength →
      (if dib then MPIR_Typerep_create_hindexed_block X count blocklength ds (.derived hdl T)
          newtype
        else MPIR_Typerep_create_indexed_block X count blocklength ds (.derived hdl T) newtype)
        = .ok r →
      1 ≤ r.2.num_contig_blocks) ∧
    (∀ (count blocklength : Int) (ds : List Int) (dib : Bool) (oldtype : MPI_Datatype)
      (r : Int × MPIR_Datatype), MPIR_Datatype_is_contig oldtype = true →
      1 ≤ X.MPII_Datatype_blockindexed_count_contig count blocklength ds dib
        (old_extent oldtype) →
      (if dib then MPIR_Typerep_create_hindexed_block X count blocklength ds oldtype newtype
        else MPIR_Typerep_create_indexed_block X count blocklength ds oldtype newtype) = .ok r →
      1 ≤ r.2.num_contig_blocks) := by
  refine ⟨?_, ?_, ?_, ?_, ?_, ?_, ?_, ?_⟩
  · intro count blocklength stride hdl e hc
    simp only [MPIR_Typerep_create_vector, MPIR_Typerep_create_hvector]
    constructor <;> split_ifs <;> simp [hc]
  · intro count blocklength stride hdl T hT hc hb
    have h := one_le_mul_of_one_le _ _ (one_le_mul_of_one_le _ _ hT hc) hb
    simp only [MPIR_Typerep_create_vector, MPIR_Typerep_create_hvector]
    constructor <;> split_ifs <;> simp [h]
  · intro count hdl e
    simp [MPIR_Typerep_create_contig]
  · intro count hdl T hT hc
    have h := one_le_mul_of_one_le _ _ hc hT
    simp only [MPIR_Typerep_create_contig]
    split_ifs <;> simp [h]
  · intro lb extent hdl e
    simp [MPIR_Typerep_create_resized]
  · intro lb extent hdl T hT
    simpa [MPIR_Typerep_create_resized] using hT
  · intro count blocklength ds dib hdl T r hnc hT hc hb h
    have h2 : create_blockindexed X count blocklength ds (.derived hdl T) newtype dib = .ok r := by
      cases dib <;> exact h
    rw [create_blockindexed_block_count X count blocklength ds hdl T newtype dib r hnc h2]
    exact one_le_mul_of_one_le _ _ (one_le_mul_of_one_le _ _ hc hT) hb
  · intro count blocklength ds dib oldtype r hic hscan h
    have h2 : create_blockindexed X count blocklength ds oldtype newtype dib = .ok r := by
      cases dib <;> exact h
    simp only [create_blockindexed, bind, Except.bind, pure, Except.pure] at h2
    split at h2
    · simp at h2
    cases oldtype with
    | builtin hdl e =>
      simp only [if_true, Except.ok.injEq] at h2
      rw [← h2]
      exact hscan
    | derived hdl T =>
      simp only [hic, if_true, Except.ok.injEq] at h2
      rw [← h2]
      exact hscan

/-- Instances of C16 (amended): a replicate of three `MPI_INT` blocks and an
index-by-uniform-block over the padded `int`. -/
theorem block_count_at_least_one_witness :
    1 ≤ (MPIR_Typerep_create_vector ref_externals 3 2 4 MPI_INT zeroed).2.num_contig_blocks ∧
    (∃ r, MPIR_Typerep_create_indexed_block ref_externals 2 1 [0, 3] (.derived 0 padded_int)
        zeroed = .ok r ∧ 1 ≤ r.2.num_contig_blocks ∧ r.2.num_contig_blocks = 6) :=
  ⟨((block_count_at_least_one ref_externals zeroed).1 3 2 4 1275069445 4 (by decide)).1,
   ⟨_, rfl,
     (block_count_at_least_one ref_externals zeroed).2.2.2.2.2.2.1 2 1 [0, 3] false 0 padded_int _
       (by decide) (by decide) (by decide) (by decide) rfl,
     by decide⟩⟩

/-! ## Allocation failure and the heterogeneous aggregate -/

/-- The index-by-list facade returns `MPI_SUCCESS` whenever it returns. -/
theorem create_indexed_return_code (X : Externals) (count : Int) (bls ds : List Int)
    (oldtype : MPI_Datatype) (newtype : MPIR_Datatype) (dib : Bool) (r : Int × MPIR_Datatype)
    (h : create_indexed X count bls ds oldtype newtype dib = .ok r) : r.1 = MPI_SUCCESS := by
  obtain ⟨d, -, hr⟩ := create_indexed_fields X count bls ds oldtype newtype dib r h
  rw [hr]

/-- With a contiguous base and a failing allocation, the index-by-list facade stops at
an assertion. -/
theorem create_indexed_no_memory (X : Externals) (count : Int) (bls ds : List Int)
    (oldtype : MPI_Datatype) (newtype : MPIR_Datatype) (dib : Bool)
    (hb : count.toNat ≤ bls.length) (hd : count.toNat ≤ ds.length)
    (hfit : base_satisfies (fun d => d.builtin_element_size = int_wrap d.builtin_element_size)
      oldtype)
    (hc : MPIR_Datatype_is_contig oldtype = true)
    (hm : X.MPL_malloc (count * sizeof_MPI_Aint) = false) :
    create_indexed X count bls ds oldtype newtype dib = .error .assertion := by
  obtain ⟨L, i, -, -, -, -, -, heval⟩ :=
    update_type_indexed_eval X count bls ds oldtype newtype dib hb hd hfit
  have hu : update_type_indexed X count bls ds oldtype newtype dib = .error .assertion := by
    rw [heval]
    simp only [hc, hm, Bool.false_eq_true, if_true, if_false]
    split_ifs <;> rfl
  simp only [create_indexed, bind, Except.bind, hu]

/-- C20, as stated, fails: with an allocator that fails, the element-unit and byte-unit
index-by-list over `MPI_INT` do not return an error code; they stop at the assertion
`blklens != NULL`. -/
theorem indexed_allocation_failure_is_asserted :
    no_memory_externals.MPL_malloc (1 * sizeof_MPI_Aint) = false ∧
    MPIR_Typerep_create_indexed no_memory_externals 1 [1] [0] MPI_INT zeroed
      = .error .assertion ∧
    MPIR_Typerep_create_hindexed no_memory_externals 1 [1] [0] MPI_INT zeroed
      = .error .assertion ∧
    ¬ ∃ r, MPIR_Typerep_create_indexed no_memory_externals 1 [1] [0] MPI_INT zeroed = .ok r ∧
      r.1 ≠ MPI_SUCCESS := by
  refine ⟨rfl, rfl, rfl, ?_⟩
  rintro ⟨r, hr, -⟩
  have h : MPIR_Typerep_create_indexed no_memory_externals 1 [1] [0] MPI_INT zeroed
      = .error .assertion := rfl
  rw [h] at hr
  cases hr

/-- C20 (amended): whenever the element-unit or byte-unit index-by-list returns, its
code is `MPI_SUCCESS`; and when the scratch buffer of the contiguous-run scan cannot be
allocated for a contiguous base (arrays holding `count` entries), neither returns: the
call stops at an assertion. -/
theorem indexed_allocation_failure_stops_at_assertion (X : Externals) (count : Int)
    (bls ds : List Int) (oldtype : MPI_Datatype) (newtype : MPIR_Datatype) :
    (∀ r, MPIR_Typerep_create_indexed X count bls ds oldtype newtype = .ok r →
      r.1 = MPI_SUCCESS) ∧
    (∀ r, MPIR_Typerep_create_hindexed X count bls ds oldtype newtype = .ok r →
      r.1 = MPI_SUCCESS) ∧
    (count.toNat ≤ bls.length → count.toNat ≤ ds.length →
      base_satisfies (fun d => d.builtin_element_size = int_wrap d.builtin_element_size)
        oldtype →
      MPIR_Datatype_is_contig oldtype = true →
      X.MPL_malloc (count * sizeof_MPI_Aint) = false →
      MPIR_Typerep_create_indexed X count bls ds oldtype newtype = .error .assertion ∧
      MPIR_Typerep_create_hindexed X count bls ds oldtype newtype = .error .assertion) :=
  ⟨fun r h => create_indexed_return_code X count bls ds oldtype newtype false r h,
   fun r h => create_indexed_return_code X count bls ds oldtype newtype true r h,
   fun hb hd hfit hc hm =>
     ⟨create_indexed_no_memory X count bls ds oldtype newtype false hb hd hfit hc hm,
      create_indexed_no_memory X count bls ds oldtype newtype true hb hd hfit hc hm⟩⟩

/-- Instances of C20 (amended): a call that returns, with code `MPI_SUCCESS`, and a call
under a failing allocator, which stops at the assertion. -/
theorem indexed_allocation_failure_stops_at_assertion_witness :
    (∃ r, MPIR_Typerep_create_indexed ref_externals 3 [2, 0, 3] [0, 7, 2] MPI_INT zeroed = .ok r ∧
      r.1 = MPI_SUCCESS) ∧
    MPIR_Typerep_create_hindexed no_memory_externals 2 [1, 1] [0, 4] MPI_INT zeroed
      = .error .assertion :=
  ⟨⟨_, rfl,
     (indexed_allocation_failure_stops_at_assertion ref_externals 3 [2, 0, 3] [0, 7, 2] MPI_INT
       zeroed).1 _ rfl⟩,
   ((indexed_allocation_failure_stops_at_assertion no_memory_externals 2 [1, 1] [0, 4] MPI_INT
     zeroed).2.2 (by decide) (by decide) trivial rfl rfl).2⟩

/-- The type and blocklength of the first `m` fields from index `a` on, read through
`getD`. -/
theorem range_map_fields (types : List MPI_Datatype) (bls : List Int) (a m : Nat)
    (h1 : a + m ≤ types.length) (h2 : a + m ≤ bls.length) :
    (List.range' a m).map (fun k => (types.getD k (.builtin 0 0), bls.getD k 0))
      = ((types.zip bls).drop a).take m := by
  induction m generalizing a with
  | zero => simp
  | succ m ih =>
    have hz : a < (types.zip bls).length := by simp [List.length_zip]; omega
    rw [List.range'_succ, List.map_cons, List.drop_eq_getElem_cons hz, List.take_succ_cons,
      ih (a + 1) (by omega) (by omega)]
    congr 1
    have ha : a < types.length := by omega
    have hb : a < bls.length := by omega
    simp [List.getElem_zip, List.getElem?_eq_getElem ha, List.getElem?_eq_getElem hb]

/-- A running sum of field contributions is the sum of the contributions. -/
theorem foldl_field_blocks (l : List (MPI_Datatype × Int)) (init : Int) :
    l.foldl (fun acc f => acc + field_blocks f) init = init + (l.map field_blocks).sum := by
  induction l generalizing init with
  | nil => simp
  | cons x xs ih =>
    rw [List.foldl_cons, ih, List.map_cons, List.sum_cons]
    ring

/-- The loop body of `MPIR_Typerep_create_struct` on an index inside both arrays. -/
theorem create_struct_step_ok (types : List MPI_Datatype) (bls : List Int) (acc : Int) (k : Nat)
    (h1 : k < types.length) (h2 : k < bls.length) :
    create_struct_step bls types acc k
      = .ok (acc + field_blocks (types.getD k (.builtin 0 0), bls.getD k 0)) := by
  have ht : read_type_at types k = .ok (types.getD k (.builtin 0 0)) := by
    simp [read_type_at, List.getElem?_eq_getElem h1]
  simp only [create_struct_step, ht, read_at_of_lt bls k h2, field_blocks]
  cases types.getD k (.builtin 0 0) <;> rfl

/-- Evaluation of `MPIR_Typerep_create_struct` on arrays that hold `count` fields. -/
theorem create_struct_eval (count : Int) (bls ds : List Int) (types : List MPI_Datatype)
    (newtype : MPIR_Datatype) (h1 : count.toNat ≤ types.length) (h2 : count.toNat ≤ bls.length) :
    MPIR_Typerep_create_struct count bls ds types newtype =
      .ok (MPI_SUCCESS,
        { newtype with
          num_contig_blocks := struct_blocks_reference ((types.zip bls).take count.toNat) }) := by
  have hloop := for_loop_ok_of_pure 0 count (create_struct_step bls types)
    (fun acc k => acc + field_blocks (types.getD k (.builtin 0 0), bls.getD k 0)) 0
    (fun acc k _ hk => create_struct_step_ok types bls acc k (by omega) (by omega))
  rw [Nat.sub_zero,
    ← List.foldl_map (fun k => (types.getD k (.builtin 0 0), bls.getD k 0))
      (fun acc f => acc + field_blocks f),
    range_map_fields types bls 0 count.toNat (by omega) (by omega), foldl_field_blocks,
    List.drop_zero, zero_add] at hloop
  simp only [MPIR_Typerep_create_struct, hloop, struct_blocks_reference]

/-- C18: for a field list of length `count`, the heterogeneous aggregate returns, writes
no field but the block count, and sets the block count to the sum over the fields of 1
for a basic type and `num_contig_blocks * blocklength` for a derived type; the count
is 0 for an empty list and depends neither on the displacements nor on the order of
the fields. -/
theorem struct_block_count (bls ds : List Int) (types : List MPI_Datatype)
    (newtype : MPIR_Datatype) (hlen : types.length = bls.length) :
    MPIR_Typerep_create_struct (types.length : Int) bls ds types newtype =
      .ok (MPI_SUCCESS,
        { newtype with num_contig_blocks := struct_blocks_reference (types.zip bls) }) ∧
    (∀ ds2 : List Int,
      MPIR_Typerep_create_struct (types.length : Int) bls ds2 types newtype =
        MPIR_Typerep_create_struct (types.length : Int) bls ds types newtype) ∧
    (∀ (types2 : List MPI_Datatype) (bls2 ds2 : List Int), types2.length = bls2.length →
      (types2.zip bls2).Perm (types.zip bls) →
      MPIR_Typerep_create_struct (types2.length : Int) bls2 ds2 types2 newtype =
        MPIR_Typerep_create_struct (types.length : Int) bls ds types newtype) ∧
    MPIR_Typerep_create_struct 0 [] [] [] newtype =
      .ok (MPI_SUCCESS, { newtype with num_contig_blocks := 0 }) := by
  have key : ∀ (t : List MPI_Datatype) (b d : List Int), t.length = b.length →
      MPIR_Typerep_create_struct (t.length : Int) b d t newtype =
        .ok (MPI_SUCCESS,
          { newtype with num_contig_blocks := struct_blocks_reference (t.zip b) }) := by
    intro t b d hl
    rw [create_struct_eval (t.length : Int) b d t newtype (by simp) (by simp [hl])]
    have : ((t.zip b).take ((t.length : Int).toNat)) = t.zip b := by
      apply List.take_of_length_le
      simp [List.length_zip, hl]
    rw [this]
  refine ⟨key types bls ds hlen, fun ds2 => ?_, ?_, rfl⟩
  · rw [key types bls ds2 hlen, key types bls ds hlen]
  · intro types2 bls2 ds2 hlen2 hperm
    rw [key types2 bls2 ds2 hlen2, key types bls ds hlen]
    have hs : struct_blocks_reference (types2.zip bls2) = struct_blocks_reference (types.zip bls) :=
      (hperm.map field_blocks).sum_eq
    rw [hs]

/-- C18 on two fields, `MPI_INT` with blocklength 5 and the padded `int` with
blocklength 2: `1 + 3 * 2 = 7` blocks, in either order. -/
theorem struct_block_count_witness :
    MPIR_Typerep_create_struct 2 [5, 2] [0, 64] [MPI_INT, .derived 0 padded_int] zeroed =
      .ok (MPI_SUCCESS, { zeroed with num_contig_blocks := 7 }) ∧
    MPIR_Typerep_create_struct 2 [2, 5] [0, 64] [.derived 0 padded_int, MPI_INT] zeroed =
      .ok (MPI_SUCCESS, { zeroed with num_contig_blocks := 7 }) ∧
    MPIR_Typerep_create_struct (([MPI_INT, .derived 0 padded_int] : List MPI_Datatype).length : Int)
        [5, 2] [0, 64] [MPI_INT, .derived 0 padded_int] zeroed =
      .ok (MPI_SUCCESS,
        { zeroed with
          num_contig_blocks :=
            struct_blocks_reference ([MPI_INT, .derived 0 padded_int].zip [5, 2]) }) :=
  ⟨rfl, rfl,
   (struct_block_count [5, 2] [0, 64] [MPI_INT, .derived 0 padded_int] zeroed rfl).1⟩

/-! ## Block count against the runs of a replicate -/

/-- The reference instance returns the base bounds for an empty replicate. -/
theorem ref_externals_vector_empty : VectorRuleEmpty ref_externals := by
  intro cnt stride blklen old_lb old_ub old_ext h
  simp [ref_externals, ref_VECTOR_LB_UB, h]

/-- A run of the replicate starts at the start of one of its blocks, and blocks are not
empty then. -/
theorem run_start_is_block_start (c b e stride x : Int)
    (hx : x ∈ (replicate_bytes c b e stride).filter
      (fun x => x - 1 ∉ replicate_bytes c b e stride)) :
    ∃ i : Nat, i < c.toNat ∧ x = (i : Int) * stride ∧ 1 ≤ b * e := by
  rw [Finset.mem_filter] at hx
  obtain ⟨hmem, hpred⟩ := hx
  simp only [replicate_bytes, Finset.mem_biUnion, Finset.mem_range, Finset.mem_Ico] at hmem hpred
  obtain ⟨i, hi, hlo, hhi⟩ := hmem
  refine ⟨i, hi, ?_, by omega⟩
  by_contra hne
  exact hpred ⟨i, hi, by omega, by omega⟩

/-- A replicate of `c` blocks has at most `c` runs. -/
theorem contiguous_runs_le_count (c b e stride : Int) :
    contiguous_runs (replicate_bytes c b e stride) ≤ c.toNat := by
  unfold contiguous_runs
  calc ((replicate_bytes c b e stride).filter
          (fun x => x - 1 ∉ replicate_bytes c b e stride)).card
      ≤ ((Finset.range c.toNat).image (fun i : Nat => (i : Int) * stride)).card := by
        apply Finset.card_le_card
        intro x hx
        obtain ⟨i, hi, hxi, -⟩ := run_start_is_block_start c b e stride x hx
        rw [Finset.mem_image]
        exact ⟨i, Finset.mem_range.mpr hi, hxi.symm⟩
    _ ≤ (Finset.range c.toNat).card := Finset.card_image_le
    _ = c.toNat := Finset.card_range _

/-- When the stride is one block's footprint, every run starts at offset 0. -/
theorem run_start_zero_of_abutting (c b e x : Int)
    (hx : x ∈ (replicate_bytes c b e (b * e)).filter
      (fun x => x - 1 ∉ replicate_bytes c b e (b * e))) : x = 0 := by
  obtain ⟨i, hi, hxi, hL⟩ := run_start_is_block_start c b e (b * e) x hx
  rw [Finset.mem_filter] at hx
  obtain ⟨-, hpred⟩ := hx
  cases i with
  | zero => simpa using hxi
  | succ j =>
    exfalso
    apply hpred
    simp only [replicate_bytes, Finset.mem_biUnion, Finset.mem_range, Finset.mem_Ico]
    refine ⟨j, by omega, ?_, ?_⟩
    · rw [hxi]
      push_cast
      linarith
    · rw [hxi]
      push_cast
      linarith

/-- When the stride is one block's footprint, the replicate has at most one run. -/
theorem contiguous_runs_le_one_of_abutting (c b e : Int) :
    contiguous_runs (replicate_bytes c b e (b * e)) ≤ 1 := by
  unfold contiguous_runs
  calc ((replicate_bytes c b e (b * e)).filter
          (fun x => x - 1 ∉ replicate_bytes c b e (b * e))).card
      ≤ ({0} : Finset Int).card := by
        apply Finset.card_le_card
        intro x hx
        rw [Finset.mem_singleton]
        exact run_start_zero_of_abutting c b e x hx
    _ = 1 := Finset.card_singleton 0

/-- A non-empty replicate of non-empty blocks whose stride is one block's footprint is
one run. -/
theorem contiguous_runs_eq_one_of_abutting (c b e : Int) (hc : 1 ≤ c) (hL : 1 ≤ b * e) :
    contiguous_runs (replicate_bytes c b e (b * e)) = 1 := by
  apply le_antisymm (contiguous_runs_le_one_of_abutting c b e)
  unfold contiguous_runs
  rw [Nat.succ_le_iff, Finset.card_pos]
  refine ⟨0, ?_⟩
  rw [Finset.mem_filter]
  simp only [replicate_bytes, Finset.mem_biUnion, Finset.mem_range, Finset.mem_Ico]
  refine ⟨⟨0, by omega, by simp, by simpa using hL⟩, ?_⟩
  rintro ⟨i, -, hlo, -⟩
  have h1 : (0 : Int) ≤ (i : Int) * (b * e) := mul_nonneg (Int.natCast_nonneg i) (by omega)
  omega

/-- C15: for the byte-unit replicate of a basic element of size `e >= 1` with
`c >= 0`, `b >= 0` and any stride, the number of maximal contiguous runs of the union over
`i < c` of the intervals `[i * stride, i * stride + b * e)` is at most the computed block
count; and when the computed `is_contig` is set, it equals the block count, which is 1,
the vector LB/UB macro returning the base bounds for an empty replicate. -/
theorem hvector_block_count_bounds_runs (X : Externals) (hempty : VectorRuleEmpty X)
    (hdl : Nat) (e c b stride : Int) (newtype : MPIR_Datatype)
    (he : 1 ≤ e) (hc : 0 ≤ c) (hb : 0 ≤ b) :
    (contiguous_runs (replicate_bytes c b e stride) : Int)
      ≤ (MPIR_Typerep_create_hvector X c b stride (.builtin hdl e) newtype).2.num_contig_blocks ∧
    ((MPIR_Typerep_create_hvector X c b stride (.builtin hdl e) newtype).2.is_contig = true →
      (contiguous_runs (replicate_bytes c b e stride) : Int)
        = (MPIR_Typerep_create_hvector X c b stride (.builtin hdl e)
            newtype).2.num_contig_blocks ∧
      (MPIR_Typerep_create_hvector X c b stride (.builtin hdl e) newtype).2.num_contig_blocks
        = 1) := by
  constructor
  · by_cases hs : stride = e * b
    · subst hs
      have h1 := contiguous_runs_le_one_of_abutting c b e
      rw [mul_comm b e] at h1
      simp only [MPIR_Typerep_create_hvector, and_self, if_true]
      exact_mod_cast h1
    · have h1 := contiguous_runs_le_count c b e stride
      simp only [MPIR_Typerep_create_hvector, hs, and_false, if_false]
      omega
  · intro hic
    rw [(vector_facade_fields X c b stride (.builtin hdl e) newtype).2] at hic
    obtain ⟨-, hse, hst⟩ :=
      (update_type_vector_is_contig_iff X c b stride (.builtin hdl e) newtype true).1 hic
    simp only [old_size, if_true] at hst
    have hcb : 1 ≤ c ∧ 1 ≤ b := by
      by_contra hcon
      have hz : c = 0 ∨ b = 0 := by omega
      have hr := hempty c stride b 0 e e hz
      simp only [update_type_vector, update_type_vector_branch, if_true, hr] at hse
      have hsz : c * b * e = 0 := by
        rcases hz with h0 | h0 <;> simp [h0]
      simp only [hsz] at hse
      omega
    have hL : 1 ≤ b * e := by nlinarith [hcb.2]
    have hruns := contiguous_runs_eq_one_of_abutting c b e hcb.1 hL
    have hnb : (MPIR_Typerep_create_hvector X c b stride (.builtin hdl e)
        newtype).2.num_contig_blocks = 1 := by
      have hs : stride = e * b := by rw [hst, mul_comm]
      simp only [MPIR_Typerep_create_hvector, hs, and_self, if_true]
    rw [hnb, hst, hruns]
    exact ⟨rfl, rfl⟩

/-- C15 at scenario 1 (`e = 4`, `c = 3`, `b = 2`, stride 8): `is_contig` is set and the
block count is 1; and at scenario 2 (stride 16) the run count is at most the block
count 3. -/
theorem hvector_block_count_bounds_runs_witness :
    VectorRuleEmpty ref_externals ∧
    (MPIR_Typerep_create_hvector ref_externals 3 2 8 (.builtin 1275069445 4) zeroed).2.is_contig
      = true ∧
    (contiguous_runs (replicate_bytes 3 2 4 8) : Int) = 1 ∧
    (contiguous_runs (replicate_bytes 3 2 4 16) : Int) ≤ 3 :=
  have h1 := hvector_block_count_bounds_runs ref_externals ref_externals_vector_empty
    1275069445 4 3 2 8 zeroed (by decide) (by decide) (by decide)
  have h2 := hvector_block_count_bounds_runs ref_externals ref_externals_vector_empty
    1275069445 4 3 2 16 zeroed (by decide) (by decide) (by decide)
  ⟨ref_externals_vector_empty, by decide, ((h1.2 (by decide)).1).trans (h1.2 (by decide)).2,
   h2.1.trans (by decide)⟩

/-! ## Fast-path collapse and resize after resize -/

/-- Fast-path collapse of the replicate constructors over a base whose `is_contig`
implies `size = extent`. -/
theorem vector_fast_path_collapse (X : Externals) (count blocklength stride : Int)
    (oldtype : MPI_Datatype) (newtype : MPIR_Datatype)
    (hbase : base_satisfies ContigSizeIsExtent oldtype) :
    ContigSound (MPIR_Typerep_create_vector X count blocklength stride oldtype newtype).2 ∧
    ContigSound (MPIR_Typerep_create_hvector X count blocklength stride oldtype newtype).2 := by
  cases oldtype with
  | builtin h e =>
    constructor <;> intro hc <;>
      simp only [MPIR_Typerep_create_vector, MPIR_Typerep_create_hvector, update_type_vector,
        update_type_vector_branch] at hc ⊢ <;>
      split_ifs at hc ⊢ <;> simp_all [mul_comm]
  | derived h d =>
    simp only [base_satisfies, ContigSizeIsExtent] at hbase
    constructor <;> intro hc <;>
      simp only [MPIR_Typerep_create_vector, MPIR_Typerep_create_hvector, update_type_vector,
        update_type_vector_branch, MPIR_Datatype_is_contig] at hc ⊢ <;>
      split_ifs at hc ⊢ <;> simp_all [mul_comm]

/-- C21: for the element-unit and byte-unit replicate over a basic element or a derived
base whose `is_contig` implies `size = extent`, and for the four index constructors
(whenever they return) over any base and for any result of the contiguous-run scan,
a result with `is_contig` set has exactly one block and a size equal to its extent. -/
theorem fast_path_collapse :
    (∀ (X : Externals) (count blocklength stride : Int) (oldtype : MPI_Datatype)
        (newtype : MPIR_Datatype), base_satisfies ContigSizeIsExtent oldtype →
        ContigSound (MPIR_Typerep_create_vector X count blocklength stride oldtype newtype).2) ∧
    (∀ (X : Externals) (count blocklength stride : Int) (oldtype : MPI_Datatype)
        (newtype : MPIR_Datatype), base_satisfies ContigSizeIsExtent oldtype →
        ContigSound (MPIR_Typerep_create_hvector X count blocklength stride oldtype newtype).2) ∧
    (∀ (X : Externals) (count : Int) (bls ds : List Int) (oldtype : MPI_Datatype)
        (newtype : MPIR_Datatype) (r : Int × MPIR_Datatype),
        MPIR_Typerep_create_indexed X count bls ds oldtype newtype = .ok r → ContigSound r.2) ∧
    (∀ (X : Externals) (count : Int) (bls ds : List Int) (oldtype : MPI_Datatype)
        (newtype : MPIR_Datatype) (r : Int × MPIR_Datatype),
        MPIR_Typerep_create_hindexed X count bls ds oldtype newtype = .ok r → ContigSound r.2) ∧
    (∀ (X : Externals) (count blocklength : Int) (ds : List Int) (oldtype : MPI_Datatype)
        (newtype : MPIR_Datatype) (r : Int × MPIR_Datatype),
        MPIR_Typerep_create_indexed_block X count blocklength ds oldtype newtype = .ok r →
        ContigSound r.2) ∧
    (∀ (X : Externals) (count blocklength : Int) (ds : List Int) (oldtype : MPI_Datatype)
        (newtype : MPIR_Datatype) (r : Int × MPIR_Datatype),
        MPIR_Typerep_create_hindexed_block X count blocklength ds oldtype newtype = .ok r →
        ContigSound r.2) :=
  ⟨fun X c b s T nt h => (vector_fast_path_collapse X c b s T nt h).1,
   fun X c b s T nt h => (vector_fast_path_collapse X c b s T nt h).2,
   fun X count bls ds oldtype newtype r h =>
     create_indexed_contig_sound X count bls ds oldtype newtype false r h,
   fun X count bls ds oldtype newtype r h =>
     create_indexed_contig_sound X count bls ds oldtype newtype true r h,
   fun X count blocklength ds oldtype newtype r h =>
     create_blockindexed_contig_sound X count blocklength ds oldtype newtype false r h,
   fun X count blocklength ds oldtype newtype r h =>
     create_blockindexed_contig_sound X count blocklength ds oldtype newtype true r h⟩

/-- Instances of C21 on results that have `is_contig` set: an element-unit replicate of a
one-byte derived type with abutting blocks, and an index-by-uniform-block of `MPI_INT`
with adjacent displacements. -/
theorem fast_path_collapse_witness :
    ((MPIR_Typerep_create_vector ref_externals 3 2 2 (.derived 0 byte_type) zeroed).2.is_contig
        = true ∧
      ContigSound
        (MPIR_Typerep_create_vector ref_externals 3 2 2 (.derived 0 byte_type) zeroed).2) ∧
    (∃ r, MPIR_Typerep_create_indexed_block ref_externals 3 2 [0, 2, 4] MPI_INT zeroed = .ok r ∧
      r.2.is_contig = true ∧ r.2.num_contig_blocks = 1 ∧ ContigSound r.2) :=
  ⟨⟨by decide,
     fast_path_collapse.1 ref_externals 3 2 2 (.derived 0 byte_type) zeroed (fun _ => rfl)⟩,
   ⟨_, rfl, by decide, by decide,
     fast_path_collapse.2.2.2.2.1 ref_externals 3 2 [0, 2, 4] MPI_INT zeroed _ rfl⟩⟩

/-- C25, as stated, fails: a contiguous one-byte derived type resized to extent 16 and
then back to extent 1 has `is_contig` clear, while the same type resized to extent 1
directly has `is_contig` set. -/
theorem resize_after_resize_loses_contiguity :
    byte_type.is_contig = true ∧ byte_type.size = 1 ∧
    (MPIR_Typerep_create_resized
      (.derived 0 (MPIR_Typerep_create_resized (.derived 0 byte_type) 0 16 zeroed).2)
      0 1 zeroed).2.is_contig = false ∧
    (MPIR_Typerep_create_resized (.derived 0 byte_type) 0 1 zeroed).2.is_contig = true := by
  decide

/-- C25 (amended): resizing a resized derived type `T` with `(lb2, e2)` gives the same
size, `lb`, `ub`, extent, true bounds, alignment, element count, element size, basic type
and block count as resizing `T` with `(lb2, e2)` directly; `is_contig` is the same
whenever the first extent is `T`'s size, or the second is not, or `T` is not contiguous,
and it is clear after the two resizes otherwise. -/
theorem resize_is_last_writer_wins (h1 h2 : Nat) (T : MPIR_Datatype)
    (lb1 e1 lb2 e2 : Int) (nt1 nt2 : MPIR_Datatype) :
    { (MPIR_Typerep_create_resized
        (.derived h2 (MPIR_Typerep_create_resized (.derived h1 T) lb1 e1 nt1).2)
        lb2 e2 nt2).2 with is_contig := false } =
      { (MPIR_Typerep_create_resized (.derived h1 T) lb2 e2 nt2).2 with is_contig := false } ∧
    ((e1 = T.size ∨ e2 ≠ T.size ∨ T.is_contig = false) →
      (MPIR_Typerep_create_resized
        (.derived h2 (MPIR_Typerep_create_resized (.derived h1 T) lb1 e1 nt1).2)
        lb2 e2 nt2).2.is_contig =
      (MPIR_Typerep_create_resized (.derived h1 T) lb2 e2 nt2).2.is_contig) ∧
    ((e1 ≠ T.size ∧ e2 = T.size ∧ T.is_contig = true) →
      (MPIR_Typerep_create_resized
        (.derived h2 (MPIR_Typerep_create_resized (.derived h1 T) lb1 e1 nt1).2)
        lb2 e2 nt2).2.is_contig = false ∧
      (MPIR_Typerep_create_resized (.derived h1 T) lb2 e2 nt2).2.is_contig = true) := by
  refine ⟨rfl, ?_, ?_⟩
  · intro h
    simp only [MPIR_Typerep_create_resized, MPIR_Datatype_is_contig]
    rcases h with h | h | h
    · simp [h]
    · simp [h]
    · simp [h]
  · rintro ⟨ha, hb, hc⟩
    simp [MPIR_Typerep_create_resized, MPIR_Datatype_is_contig, ha, hb, hc]

/-- An instance of C25 (amended): the padded `int` resized twice. -/
theorem resize_is_last_writer_wins_witness :
    (MPIR_Typerep_create_resized
      (.derived 0 (MPIR_Typerep_create_resized (.derived 0 padded_int) 4 32 zeroed).2)
      (-8) 24 zeroed).2.is_contig =
    (MPIR_Typerep_create_resized (.derived 0 padded_int) (-8) 24 zeroed).2.is_contig ∧
    (MPIR_Typerep_create_resized
      (.derived 0 (MPIR_Typerep_create_resized (.derived 0 padded_int) 4 32 zeroed).2)
      (-8) 24 zeroed).2.ub = 16 :=
  ⟨(resize_is_last_writer_wins 0 0 padded_int 4 32 (-8) 24 zeroed zeroed).2.1
     (Or.inr (Or.inl (by decide))),
   by decide⟩

/-! ## Replicate over a resized type -/

/-- The reference instance adds to the base bounds terms that depend only on the count,
the stride, the blocklength and the base extent. -/
theorem ref_externals_vector_offsets : VectorRuleOffsets ref_externals := by
  refine ⟨fun cnt stride blklen ext => (ref_VECTOR_LB_UB cnt stride blklen 0 0 ext).1,
    fun cnt stride blklen ext => (ref_VECTOR_LB_UB cnt stride blklen 0 0 ext).2, ?_⟩
  intro cnt stride blklen old_lb old_ub old_ext
  simp only [ref_externals, ref_VECTOR_LB_UB]
  by_cases h : cnt = 0 ∨ blklen = 0
  · simp [h]
  · have hb : blklen ≠ 0 := fun hb => h (Or.inr hb)
    have hc : cnt ≠ 0 := fun hc => h (Or.inl hc)
    simp only [ref_BLOCK_LB_UB, hc, hb, or_self, if_false, Prod.mk.injEq]
    constructor
    · simp only [min_def]
      split_ifs <;> linarith
    · simp only [max_def]
      split_ifs <;> linarith

/-- C24: under a vector LB/UB rule that adds to the base's `lb` and `ub` terms depending
only on count, blocklength, stride and base extent, the byte-unit replicates over a
derived type `T` resized to `(lb1, e)` and to `(lb2, e)` have equal size, extent,
`true_lb`, `true_ub`, `is_contig` and block count, and their `lb` and their `ub` each
differ by exactly `lb1 - lb2`. -/
theorem hvector_over_resized_ignores_lb (X : Externals) (hrule : VectorRuleOffsets X)
    (h1 h2 h3 h4 : Nat) (T : MPIR_Datatype) (lb1 lb2 e count blocklength stride : Int)
    (nt1 nt2 nt3 nt4 : MPIR_Datatype) :
    (MPIR_Typerep_create_hvector X count blocklength stride
      (.derived h3 (MPIR_Typerep_create_resized (.derived h1 T) lb1 e nt1).2) nt3).2.size =
    (MPIR_Typerep_create_hvector X count blocklength stride
      (.derived h4 (MPIR_Typerep_create_resized (.derived h2 T) lb2 e nt2).2) nt4).2.size ∧
    (MPIR_Typerep_create_hvector X count blocklength stride
      (.derived h3 (MPIR_Typerep_create_resized (.derived h1 T) lb1 e nt1).2) nt3).2.extent =
    (MPIR_Typerep_create_hvector X count blocklength stride
      (.derived h4 (MPIR_Typerep_create_resized (.derived h2 T) lb2 e nt2).2) nt4).2.extent ∧
    (MPIR_Typerep_create_hvector X count blocklength stride
      (.derived h3 (MPIR_Typerep_create_resized (.derived h1 T) lb1 e nt1).2) nt3).2.true_lb =
    (MPIR_Typerep_create_hvector X count blocklength stride
      (.derived h4 (MPIR_Typerep_create_resized (.derived h2 T) lb2 e nt2).2) nt4).2.true_lb ∧
    (MPIR_Typerep_create_hvector X count blocklength stride
      (.derived h3 (MPIR_Typerep_create_resized (.derived h1 T) lb1 e nt1).2) nt3).2.true_ub =
    (MPIR_Typerep_create_hvector X count blocklength stride
      (.derived h4 (MPIR_Typerep_create_resized (.derived h2 T) lb2 e nt2).2) nt4).2.true_ub ∧
    (MPIR_Typerep_create_hvector X count blocklength stride
      (.derived h3 (MPIR_Typerep_create_resized (.derived h1 T) lb1 e nt1).2) nt3).2.is_contig =
    (MPIR_Typerep_create_hvector X count blocklength stride
      (.derived h4 (MPIR_Typerep_create_resized (.derived h2 T) lb2 e nt2).2) nt4).2.is_contig ∧
    (MPIR_Typerep_create_hvector X count blocklength stride
      (.derived h3 (MPIR_Typerep_create_resized (.derived h1 T) lb1 e nt1).2)
      nt3).2.num_contig_blocks =
    (MPIR_Typerep_create_hvector X count blocklength stride
      (.derived h4 (MPIR_Typerep_create_resized (.derived h2 T) lb2 e nt2).2)
      nt4).2.num_contig_blocks ∧
    (MPIR_Typerep_create_hvector X count blocklength stride
      (.derived h3 (MPIR_Typerep_create_resized (.derived h1 T) lb1 e nt1).2) nt3).2.lb -
    (MPIR_Typerep_create_hvector X count blocklength stride
      (.derived h4 (MPIR_Typerep_create_resized (.derived h2 T) lb2 e nt2).2) nt4).2.lb
      = lb1 - lb2 ∧
    (MPIR_Typerep_create_hvector X count blocklength stride
      (.derived h3 (MPIR_Typerep_create_resized (.derived h1 T) lb1 e nt1).2) nt3).2.ub -
    (MPIR_Typerep_create_hvector X count blocklength stride
      (.derived h4 (MPIR_Typerep_create_resized (.derived h2 T) lb2 e nt2).2) nt4).2.ub
      = lb1 - lb2 := by
  obtain ⟨lo, hi, hr⟩ := hrule
  have hx : ∀ a b c : Int, a + e + b - (a + c) = e + b - c := fun a b c => by ring
  simp only [update_type_vector, update_type_vector_branch, MPIR_Typerep_create_resized,
    MPIR_Typerep_create_hvector, MPIR_Datatype_is_contig, if_true, hr, hx]
  refine ⟨?_, ?_, ?_, ?_, ?_, ?_, ?_, ?_⟩ <;> split_ifs <;>
    first
    | rfl
    | (simp only []
       ring)

/-- C24 at two resizes of a 4-byte type to extent 16, with `lb = 0` and `lb = -8`: the
replicates with count 3, blocklength 2 and stride 40 have the same extent 112, and
lower bounds 0 and -8. -/
theorem hvector_over_resized_ignores_lb_witness :
    VectorRuleOffsets ref_externals ∧
    (MPIR_Typerep_create_hvector ref_externals 3 2 40
      (.derived 0 (MPIR_Typerep_create_resized (.derived 0 padded_int) 0 16 zeroed).2)
      zeroed).2.lb -
    (MPIR_Typerep_create_hvector ref_externals 3 2 40
      (.derived 0 (MPIR_Typerep_create_resized (.derived 0 padded_int) (-8) 16 zeroed).2)
      zeroed).2.lb = 0 - (-8) ∧
    (MPIR_Typerep_create_hvector ref_externals 3 2 40
      (.derived 0 (MPIR_Typerep_create_resized (.derived 0 padded_int) 0 16 zeroed).2)
      zeroed).2.extent = 112 ∧
    (MPIR_Typerep_create_hvector ref_externals 3 2 40
      (.derived 0 (MPIR_Typerep_create_resized (.derived 0 padded_int) (-8) 16 zeroed).2)
      zeroed).2.lb = -8 :=
  ⟨ref_externals_vector_offsets,
   (hvector_over_resized_ignores_lb ref_externals ref_externals_vector_offsets 0 0 0 0
     padded_int 0 (-8) 16 3 2 40 zeroed zeroed zeroed zeroed).2.2.2.2.2.2.1,
   by decide, by decide⟩

/-! ## Safety of the first-nonzero search -/

/-- On arrays of exactly `count` entries, `update_type_indexed` returns or stops at an
assertion; it never reads outside an array. When the arrays hold a nonzero blocklength,
the base passes the element-size assertion and the scratch buffer can be allocated, it
returns. -/
theorem update_type_indexed_in_bounds (X : Externals) (count : Int) (bls ds : List Int)
    (oldtype : MPI_Datatype) (newtype : MPIR_Datatype) (dib : Bool)
    (hb : count.toNat ≤ bls.length) (hd : count.toNat ≤ ds.length) :
    ((∃ d, update_type_indexed X count bls ds oldtype newtype dib = .ok d) ∨
      update_type_indexed X count bls ds oldtype newtype dib = .error .assertion) ∧
    ((∃ b ∈ bls.take count.toNat, b ≠ 0) → IndexedEnv X count oldtype →
      ∃ d, update_type_indexed X count bls ds oldtype newtype dib = .ok d) := by
  by_cases hfit : base_satisfies
      (fun d => d.builtin_element_size = int_wrap d.builtin_element_size) oldtype
  · obtain ⟨L, i, -, -, hile, hzero, -, heval⟩ :=
      update_type_indexed_eval X count bls ds oldtype newtype dib hb hd hfit
    constructor
    · rw [heval]
      by_cases hlt : (i : Int) < count
      · simp only [hlt, not_true_eq_false, if_false]
        by_cases hc : MPIR_Datatype_is_contig oldtype = true
        · by_cases hm : X.MPL_malloc (count * sizeof_MPI_Aint) = true
          · simp only [hc, hm, if_true]
            exact Or.inl ⟨_, rfl⟩
          · simp only [hc, if_true, if_neg hm]
            exact Or.inr trivial
        · simp only [if_neg hc]
          exact Or.inl ⟨_, rfl⟩
      · simp only [hlt, not_false_eq_true, if_true]
        exact Or.inr trivial
    · intro hpos henv
      have hi : i < count.toNat := first_nonzero_lt bls count.toNat i hb hile hzero hpos
      have hlt : (i : Int) < count := by omega
      rw [heval]
      simp only [hlt, not_true_eq_false, if_false]
      by_cases hc : MPIR_Datatype_is_contig oldtype = true
      · simp only [hc, henv.2 hc, if_true]
        exact ⟨_, rfl⟩
      · simp only [hc, if_false]
        exact ⟨_, rfl⟩
  · have hu : update_type_indexed X count bls ds oldtype newtype dib = .error .assertion := by
      cases oldtype with
      | builtin hdl e => exact absurd trivial hfit
      | derived hdl od =>
        simp only [base_satisfies] at hfit
        simp only [update_type_indexed, update_type_indexed_branch, if_neg hfit, bind,
          Except.bind]
    exact ⟨Or.inr hu, fun _ henv => absurd henv.1 hfit⟩

/-- On arrays of exactly `count` entries, the index-by-list facade returns or stops at an
assertion; it never reads outside an array, and it returns whenever
`update_type_indexed` does and the scratch buffer can be allocated. -/
theorem create_indexed_in_bounds (X : Externals) (count : Int) (bls ds : List Int)
    (oldtype : MPI_Datatype) (newtype : MPIR_Datatype) (dib : Bool)
    (hb : count.toNat ≤ bls.length) (hd : count.toNat ≤ ds.length) :
    ((∃ r, create_indexed X count bls ds oldtype newtype dib = .ok r) ∨
      create_indexed X count bls ds oldtype newtype dib = .error .assertion) ∧
    ((∃ b ∈ bls.take count.toNat, b ≠ 0) → IndexedEnv X count oldtype →
      ∃ r, create_indexed X count bls ds oldtype newtype dib = .ok r) := by
  obtain ⟨h1, h2⟩ := update_type_indexed_in_bounds X count bls ds oldtype newtype dib hb hd
  constructor
  · rcases h1 with ⟨d, hd2⟩ | he
    · rw [create_indexed_eval X count bls ds oldtype newtype d dib hb hd2]
      by_cases hc : MPIR_Datatype_is_contig oldtype = true
      · by_cases hm : X.MPL_malloc (count * sizeof_MPI_Aint) = true
        · simp only [hc, hm, if_true]
          exact Or.inl ⟨_, rfl⟩
        · simp only [hc, if_true, if_neg hm]
          exact Or.inr trivial
      · simp only [if_neg hc]
        exact Or.inl ⟨_, rfl⟩
    · right
      simp only [create_indexed, bind, Except.bind, he]
  · intro hpos henv
    obtain ⟨d, hd2⟩ := h2 hpos henv
    rw [create_indexed_eval X count bls ds oldtype newtype d dib hb hd2]
    by_cases hc : MPIR_Datatype_is_contig oldtype = true
    · simp only [hc, henv.2 hc, if_true]
      exact ⟨_, rfl⟩
    · simp only [hc, if_false]
      exact ⟨_, rfl⟩

/-- C22: for `count >= 1` and blocklength and displacement arrays of exactly `count`
entries with at least one nonzero blocklength, the leading-zero skip of
`update_type_indexed` stops at the smallest index `i` whose blocklength is nonzero, with
`i < count`, so the assertion holds; and no later read leaves the arrays: the helper and
the two facades return or stop at another assertion, never at a read outside an array,
and they return when the element-size assertion holds and the scratch buffer can be
allocated. -/
theorem first_nonzero_search_is_safe (X : Externals) (count : Int) (bls ds : List Int)
    (oldtype : MPI_Datatype) (newtype : MPIR_Datatype)
    (hcount : 1 ≤ count) (hbl : bls.length = count.toNat) (hdl : ds.length = count.toNat)
    (hnz : ∃ b ∈ bls, b ≠ 0) :
    (∃ i : Nat, skip_zero_blocklengths bls count.toNat 0 = .ok i ∧ (i : Int) < count ∧
      bls.getD i 0 ≠ 0 ∧ ∀ k, k < i → bls.getD k 0 = 0) ∧
    (∀ dib, update_type_indexed X count bls ds oldtype newtype dib ≠ .error .out_of_bounds) ∧
    MPIR_Typerep_create_indexed X count bls ds oldtype newtype ≠ .error .out_of_bounds ∧
    MPIR_Typerep_create_hindexed X count bls ds oldtype newtype ≠ .error .out_of_bounds ∧
    (IndexedEnv X count oldtype →
      (∃ r, MPIR_Typerep_create_indexed X count bls ds oldtype newtype = .ok r) ∧
      (∃ r, MPIR_Typerep_create_hindexed X count bls ds oldtype newtype = .ok r)) := by
  have hb : count.toNat ≤ bls.length := by omega
  have hd : count.toNat ≤ ds.length := by omega
  have hpos : ∃ b ∈ bls.take count.toNat, b ≠ 0 := by
    rw [← hbl, List.take_length]
    exact hnz
  have hne : ∀ (α : Type) (x : Except Fault α),
      ((∃ a, x = .ok a) ∨ x = .error .assertion) → x ≠ .error .out_of_bounds := by
    intro α x hx hoob
    rcases hx with ⟨a, ha⟩ | ha
    · rw [ha] at hoob
      cases hoob
    · rw [ha] at hoob
      cases hoob
  refine ⟨?_, fun dib => hne _ _
      (update_type_indexed_in_bounds X count bls ds oldtype newtype dib hb hd).1,
    hne _ _ (create_indexed_in_bounds X count bls ds oldtype newtype false hb hd).1,
    hne _ _ (create_indexed_in_bounds X count bls ds oldtype newtype true hb hd).1,
    fun henv =>
      ⟨(create_indexed_in_bounds X count bls ds oldtype newtype false hb hd).2 hpos henv,
       (create_indexed_in_bounds X count bls ds oldtype newtype true hb hd).2 hpos henv⟩⟩
  obtain ⟨i, hi, -, hile, hzero, hnzi⟩ :=
    skip_zero_blocklengths_spec bls count.toNat 0 (by omega)
  have hz : ∀ k, k < i → bls.getD k 0 = 0 := fun k hk => hzero k (Nat.zero_le k) hk
  have hin : i < count.toNat := first_nonzero_lt bls count.toNat i hb (by omega) hz hpos
  exact ⟨i, hi, by omega, hnzi (by omega), hz⟩

/-- C22 on the arrays of scenario 3 with a leading zero: blocklengths `[0, 2, 3]`; the
search stops at index 1 and the call returns. -/
theorem first_nonzero_search_is_safe_witness :
    (∃ i : Nat, skip_zero_blocklengths [0, 2, 3] (3 : Int).toNat 0 = .ok i ∧ (i : Int) < 3 ∧
      ([0, 2, 3] : List Int).getD i 0 ≠ 0 ∧ ∀ k, k < i → ([0, 2, 3] : List Int).getD k 0 = 0) ∧
    skip_zero_blocklengths [0, 2, 3] 3 0 = .ok 1 ∧
    (∃ r, MPIR_Typerep_create_indexed ref_externals 3 [0, 2, 3] [7, 0, 2] MPI_INT zeroed
      = .ok r ∧ r.2.size = 20) :=
  ⟨(first_nonzero_search_is_safe ref_externals 3 [0, 2, 3] [7, 0, 2] MPI_INT zeroed (by decide)
     rfl rfl ⟨2, by decide, by decide⟩).1,
   rfl, ⟨_, rfl, by decide⟩⟩

/-! ## Index-by-uniform-block against index-by-list -/

/-- The loop body of `update_type_blockindexed` on an index inside the displacement
array. -/
theorem update_type_blockindexed_step_ok (X : Externals) (blocklength : Int) (ds : List Int)
    (dib : Bool) (oldtype : MPI_Datatype) (acc : BoundsAcc) (k : Nat) (hd : k < ds.length) :
    update_type_blockindexed_step X blocklength ds dib (old_lb oldtype) (old_ub oldtype)
        (old_extent oldtype) acc k
      = .ok (update_type_blockindexed_step_value X dib oldtype blocklength acc (ds.getD k 0)) := by
  simp only [update_type_blockindexed_step, eff_disp_at_of_lt ds dib _ k hd,
    update_type_blockindexed_step_value, block_span, eff_disp]

/-- The locals that the builtin/derived branch of `update_type_blockindexed` sets, and
the size it writes. -/
theorem update_type_blockindexed_branch_facts (count blocklength : Int)
    (oldtype : MPI_Datatype) (newtype : MPIR_Datatype) :
    (update_type_blockindexed_branch count blocklength oldtype newtype).old_lb = old_lb oldtype ∧
    (update_type_blockindexed_branch count blocklength oldtype newtype).old_ub = old_ub oldtype ∧
    (update_type_blockindexed_branch count blocklength oldtype newtype).old_extent
      = old_extent oldtype ∧
    (update_type_blockindexed_branch count blocklength oldtype newtype).old_true_lb
      = old_true_lb oldtype ∧
    (update_type_blockindexed_branch count blocklength oldtype newtype).old_true_ub
      = old_true_ub oldtype ∧
    (update_type_blockindexed_branch count blocklength oldtype newtype).newtype.size
      = count * blocklength * old_size oldtype := by
  cases oldtype <;> exact ⟨rfl, rfl, rfl, rfl, rfl, rfl⟩

/-- Evaluation of `update_type_blockindexed` for `count >= 1` on a displacement array
that holds `count` entries: it returns, with the size and bounds below. -/
theorem update_type_blockindexed_eval (X : Externals) (count blocklength : Int)
    (ds : List Int) (oldtype : MPI_Datatype) (newtype : MPIR_Datatype) (dib : Bool)
    (hcount : 1 ≤ count) (hd : count.toNat ≤ ds.length) :
    ∃ d, update_type_blockindexed X count blocklength ds oldtype newtype dib = .ok d ∧
      d.size = count * blocklength * old_size oldtype ∧
      d.lb = (update_type_blockindexed_loop_value X dib oldtype count blocklength ds).min_lb ∧
      d.ub = (update_type_blockindexed_loop_value X dib oldtype count blocklength ds).max_ub ∧
      d.true_lb = (update_type_blockindexed_loop_value X dib oldtype count blocklength ds).min_lb
        + (old_true_lb oldtype - old_lb oldtype) ∧
      d.true_ub = (update_type_blockindexed_loop_value X dib oldtype count blocklength ds).max_ub
        + (old_true_ub oldtype - old_ub oldtype) ∧
      d.extent = (update_type_blockindexed_loop_value X dib oldtype count blocklength ds).max_ub
        - (update_type_blockindexed_loop_value X dib oldtype count blocklength ds).min_lb := by
  obtain ⟨h1, h2, h3, h4, h5, h6⟩ :=
    update_type_blockindexed_branch_facts count blocklength oldtype newtype
  have hloop := for_loop_ok_of_pure 1 count
    (update_type_blockindexed_step X blocklength ds dib (old_lb oldtype) (old_ub oldtype)
      (old_extent oldtype))
    (fun acc k =>
      update_type_blockindexed_step_value X dib oldtype blocklength acc (ds.getD k 0))
    { min_lb := (block_span X dib oldtype (blocklength, ds.getD 0 0)).1
      max_ub := (block_span X dib oldtype (blocklength, ds.getD 0 0)).2 }
    (fun acc k _ hk => update_type_blockindexed_step_ok X blocklength ds dib oldtype acc k
      (by omega))
  change for_loop _ _ _ _
    = .ok (update_type_blockindexed_loop_value X dib oldtype count blocklength ds) at hloop
  have hseed : X.MPII_DATATYPE_BLOCK_LB_UB blocklength
      (if dib = true then ds.getD 0 0 else ds.getD 0 0 * old_extent oldtype)
      (old_lb oldtype) (old_ub oldtype) (old_extent oldtype)
      = block_span X dib oldtype (blocklength, ds.getD 0 0) := rfl
  simp only [update_type_blockindexed, bind, Except.bind, pure, Except.pure, h1, h2, h3, h4, h5,
    eff_disp_at_of_lt ds dib _ 0 (by omega), hseed, hloop]
  split_ifs <;> exact ⟨_, rfl, h6, rfl, rfl, rfl, rfl, rfl⟩

/-- The loop of `update_type_blockindexed` widens the bounds over the blocks. -/
theorem update_type_blockindexed_fold (X : Externals) (dib : Bool) (oldtype : MPI_Datatype)
    (blocklength : Int) (ds : List Int) (l : List Nat) (acc : BoundsAcc) :
    l.foldl
        (fun acc k =>
          update_type_blockindexed_step_value X dib oldtype blocklength acc (ds.getD k 0)) acc =
      { min_lb := (l.map (fun k => (block_span X dib oldtype (blocklength, ds.getD k 0)).1)).foldl
          min acc.min_lb
        max_ub := (l.map (fun k => (block_span X dib oldtype (blocklength, ds.getD k 0)).2)).foldl
          max acc.max_ub } := by
  induction l generalizing acc with
  | nil => rfl
  | cons k ks ih =>
    rw [List.foldl_cons, ih]
    simp only [update_type_blockindexed_step_value, List.map_cons, List.foldl_cons]
    congr 1
    · congr 1
      simp only [min_def]
      split_ifs <;> omega
    · congr 1
      simp only [max_def]
      split_ifs <;> omega

/-- The nonzero entries of an index-by-list call whose blocklengths all equal `b`,
`b` not zero: every entry, by index. -/
theorem nonzero_entries_replicate (count b : Int) (ds : List Int) (hcount : 1 ≤ count)
    (hb : b ≠ 0) (hd : count.toNat ≤ ds.length) :
    nonzero_entries count (List.replicate count.toNat b) ds =
      (b, ds.getD 0 0) :: (List.range' 1 (count.toNat - 1)).map (fun k => (b, ds.getD k 0)) := by
  have hlen : count.toNat ≤ (List.replicate count.toNat b).length := by simp
  have hmap : (List.range' 0 count.toNat).map (entry_at (List.replicate count.toNat b) ds)
      = (List.range' 0 count.toNat).map (fun k => (b, ds.getD k 0)) := by
    apply List.map_congr_left
    intro k hk
    rw [List.mem_range'_1] at hk
    have hk2 : k < count.toNat := by omega
    simp [entry_at, List.getElem?_replicate, hk2]
  have hsplit : List.range' 0 count.toNat = 0 :: List.range' 1 (count.toNat - 1) := by
    have h : count.toNat = (count.toNat - 1) + 1 := by omega
    conv_lhs => rw [h]
    rw [List.range'_succ]
  rw [nonzero_entries, block_entries_eq_map count _ ds hlen hd, hmap, List.filter_eq_self.mpr,
    hsplit, List.map_cons]
  intro p hp
  rw [List.mem_map] at hp
  obtain ⟨k, -, rfl⟩ := hp
  simpa using hb

/-- The sum of `count` blocklengths that all equal `b`. -/
theorem sum_take_replicate (count b : Int) (hcount : 1 ≤ count) :
    ((List.replicate count.toNat b).take count.toNat).sum = count * b := by
  rw [List.take_replicate, Nat.min_self, List.sum_replicate, nsmul_eq_mul]
  have h : ((count.toNat : Nat) : Int) = count := Int.toNat_of_nonneg (by omega)
  rw [h]

/-- The index-by-uniform-block facade returns whenever `update_type_blockindexed` does,
and changes the block count only. -/
theorem create_blockindexed_ok (X : Externals) (count blocklength : Int) (ds : List Int)
    (oldtype : MPI_Datatype) (newtype d : MPIR_Datatype) (dib : Bool)
    (hd : update_type_blockindexed X count blocklength ds oldtype newtype dib = .ok d) :
    ∃ r, create_blockindexed X count blocklength ds oldtype newtype dib = .ok r ∧
      r.2 = { d with num_contig_blocks := r.2.num_contig_blocks } := by
  simp only [create_blockindexed, bind, Except.bind, pure, Except.pure, hd]
  cases oldtype with
  | builtin hdl e => exact ⟨_, rfl, rfl⟩
  | derived hdl od =>
    simp only []
    split_ifs <;> exact ⟨_, rfl, rfl⟩

/-- Index-by-uniform-block against index-by-list with every blocklength equal to `b`, for
either unit of the displacements. -/
theorem blockindexed_agrees_with_indexed (X : Externals) (count b : Int) (ds : List Int)
    (oldtype : MPI_Datatype) (newtype : MPIR_Datatype) (dib : Bool)
    (hcount : 1 ≤ count) (hb : 1 ≤ b) (hd : count.toNat ≤ ds.length)
    (henv : IndexedEnv X count oldtype) :
    ∃ r1 r2, create_blockindexed X count b ds oldtype newtype dib = .ok r1 ∧
      create_indexed X count (List.replicate count.toNat b) ds oldtype newtype dib = .ok r2 ∧
      same_bounds_and_size r1.2 r2.2 ∧
      (MPIR_Datatype_is_contig oldtype = false →
        r1.2.num_contig_blocks = r2.2.num_contig_blocks) := by
  have hn : 1 ≤ count.toNat := by omega
  have hargs : IndexedArgs count (List.replicate count.toNat b) ds := by
    refine ⟨hcount, by simp, hd, ?_, ⟨b, ?_, by omega⟩⟩
    · intro x hx
      have := List.eq_of_mem_replicate (List.mem_of_mem_take hx)
      omega
    · rw [List.take_replicate, Nat.min_self, List.mem_replicate]
      exact ⟨by omega, rfl⟩
  obtain ⟨r2, hr2, -, hm⟩ :=
    create_indexed_reference X count (List.replicate count.toNat b) ds oldtype newtype dib hargs henv
  obtain ⟨d1, hd1, hsz, hlb, hub, htlb, htub, hext⟩ :=
    update_type_blockindexed_eval X count b ds oldtype newtype dib hcount hd
  obtain ⟨r1, hr1, hr1d⟩ := create_blockindexed_ok X count b ds oldtype newtype d1 dib hd1
  refine ⟨r1, r2, hr1, hr2, ?_, ?_⟩
  · have href := hm.1
    rw [nonzero_entries_replicate count b ds hcount (by omega) hd] at href
    simp only [indexed_reference, List.map_map, Option.some.injEq] at href
    have hfold := update_type_blockindexed_fold X dib oldtype b ds
      (List.range' 1 (count.toNat - 1))
      { min_lb := (block_span X dib oldtype (b, ds.getD 0 0)).1
        max_ub := (block_span X dib oldtype (b, ds.getD 0 0)).2 }
    change update_type_blockindexed_loop_value X dib oldtype count b ds = _ at hfold
    have e1 := congrArg IndexedLayout.lb href
    have e2 := congrArg IndexedLayout.ub href
    have e3 := congrArg IndexedLayout.true_lb href
    have e4 := congrArg IndexedLayout.true_ub href
    have e5 := congrArg IndexedLayout.extent href
    simp only [layout_of] at e1 e2 e3 e4 e5
    have hs2 := hm.2.2.2.2.2.1
    rw [sum_take_replicate count b hcount] at hs2
    rw [hr1d]
    refine ⟨?_, ?_, ?_, ?_, ?_, ?_⟩
    · rw [hs2]; exact hsz
    · rw [e1]; simp only [hlb, hfold]; rfl
    · rw [e2]; simp only [hub, hfold]; rfl
    · rw [e3]; simp only [htlb, hfold]; rfl
    · rw [e4]; simp only [htub, hfold]; rfl
    · rw [e5]; simp only [hext, hfold]; rfl
  · intro hnc
    cases oldtype with
    | builtin hdl e => simp [MPIR_Datatype_is_contig] at hnc
    | derived hdl od =>
      simp only [MPIR_Datatype_is_contig] at hnc
      rw [create_blockindexed_block_count X count b ds hdl od newtype dib r1 hnc hr1,
        create_indexed_block_count X count _ ds hdl od newtype dib r2 hnc (by simp) hr2,
        sum_take_replicate count b hcount]
      ring

/-- C23: for `count >= 1`, `b >= 1` and a displacement array of `count` entries (the
element-size assertion and the scratch allocation succeeding), the element-unit and the
byte-unit index-by-uniform-block return the same size, `lb`, `ub`, `true_lb`, `true_ub`
and extent as the index-by-list of the same unit called with every blocklength equal to
`b`, and the same block count when the base is a derived type that is not contiguous. -/
theorem indexed_block_agrees_with_indexed (X : Externals) (count b : Int) (ds : List Int)
    (oldtype : MPI_Datatype) (newtype : MPIR_Datatype)
    (hcount : 1 ≤ count) (hb : 1 ≤ b) (hd : count.toNat ≤ ds.length)
    (henv : IndexedEnv X count oldtype) :
    (∃ r1 r2, MPIR_Typerep_create_indexed_block X count b ds oldtype newtype = .ok r1 ∧
      MPIR_Typerep_create_indexed X count (List.replicate count.toNat b) ds oldtype newtype
        = .ok r2 ∧
      same_bounds_and_size r1.2 r2.2 ∧
      (MPIR_Datatype_is_contig oldtype = false →
        r1.2.num_contig_blocks = r2.2.num_contig_blocks)) ∧
    (∃ r1 r2, MPIR_Typerep_create_hindexed_block X count b ds oldtype newtype = .ok r1 ∧
      MPIR_Typerep_create_hindexed X count (List.replicate count.toNat b) ds oldtype newtype
        = .ok r2 ∧
      same_bounds_and_size r1.2 r2.2 ∧
      (MPIR_Datatype_is_contig oldtype = false →
        r1.2.num_contig_blocks = r2.2.num_contig_blocks)) :=
  ⟨blockindexed_agrees_with_indexed X count b ds oldtype newtype false hcount hb hd henv,
   blockindexed_agrees_with_indexed X count b ds oldtype newtype true hcount hb hd henv⟩

/-- C23 with three blocks of two `MPI_INT` at element displacements 0, 7 and 2, and over
the padded `int`, which is not contiguous. -/
theorem indexed_block_agrees_with_indexed_witness :
    IndexedEnv ref_externals 3 MPI_INT ∧
    (∃ r1 r2, MPIR_Typerep_create_indexed_block ref_externals 3 2 [0, 7, 2] MPI_INT zeroed
        = .ok r1 ∧
      MPIR_Typerep_create_indexed ref_externals 3 (List.replicate (3 : Int).toNat 2) [0, 7, 2]
        MPI_INT zeroed = .ok r2 ∧
      same_bounds_and_size r1.2 r2.2 ∧
      (MPIR_Datatype_is_contig MPI_INT = false →
        r1.2.num_contig_blocks = r2.2.num_contig_blocks)) ∧
    (∃ r1 r2, MPIR_Typerep_create_indexed_block ref_externals 3 2 [0, 7, 2]
        (.derived 0 padded_int) zeroed = .ok r1 ∧
      MPIR_Typerep_create_indexed ref_externals 3 [2, 2, 2] [0, 7, 2]
        (.derived 0 padded_int) zeroed = .ok r2 ∧
      r1.2.size = 24 ∧ r2.2.size = 24 ∧ r1.2.extent = 144 ∧ r2.2.extent = 144 ∧
      r1.2.num_contig_blocks = 18 ∧ r2.2.num_contig_blocks = 18) :=
  ⟨⟨trivial, fun _ => rfl⟩,
   (indexed_block_agrees_with_indexed ref_externals 3 2 [0, 7, 2] MPI_INT zeroed (by decide)
     (by decide) (by decide) ⟨trivial, fun _ => rfl⟩).1,
   ⟨_, _, rfl, rfl, by decide, by decide, by decide, by decide, by decide, by decide⟩⟩

end Typerep
